import Mathlib

/-!
# L1 geometry kernel: feature application and the shape registry

A shallow embedding of `src/src/l1_geometry_kernel.cpp` and of the data
transfer structures of `src/include/l1_geometry_kernel.h`.

Conventions of the embedding.

* `double` is embedded as `Rat`: a value of type `double` is a rational
  number (no NaN, no infinities), and a number the format cannot hold is never
  passed in.  A difference of doubles is rounded to the nearest double
  (`doubleSub`, `roundDouble`: 53 significant bits, ties to even, gradual
  underflow), and a decimal literal is the double nearest to it
  (`roundDouble 1.0e-9`).  The products of the source have a factor `0.5`,
  `-0.5` or `2.0`, a power of two, and are exact in binary arithmetic while
  the result stays in the range of the normal doubles; results outside that
  range, and a result beyond the largest double in particular, are not
  embedded.  Comparisons of doubles and `std::max` are exact.
* The vector algebra of `gp_Vec` and `gp_Pnt` (`*`, `+`, `Translated`) belongs
  to the library; it is embedded in exact arithmetic, so that the location of
  a frame is the exact point `origin + z * dir`.
* `int` is embedded as `Int` with the values of a 32 bit `int`.  The handle
  counter `next_id_` is incremented with `++`; at `INT_MAX` the compiled code
  wraps to `INT_MIN` (arithmetic modulo `2 ^ 32`), and so does the embedding
  (`wrapInt`).
* `std::map<int, TopoDS_Shape>` is embedded as a partial map `Int → Option S`.
* The OpenCASCADE library is not part of the repository.  It is a parameter
  `OcctKernel` of the embedding: every library call used by the source is a
  field, and a call may raise a C++ exception (`Thrown.raise`).
* Memory exhaustion (`std::bad_alloc` of `new` or of the map) is not embedded.
* Every library call made by `L1_ApplyFeature` is appended to a call log, so
  that statements about what was invoked, and how often, can be stated.
-/

namespace L1

/-! ## Status codes and enumerations (`ErrorCode`, `FeatureType`, `StockType`) -/

abbrev ERROR_OK : Int := 0
abbrev ERROR_INVALID_ARGUMENT : Int := 1
abbrev ERROR_SHAPE_NOT_FOUND : Int := 2
abbrev ERROR_FEATURE_NOT_SUPPORTED : Int := 3
abbrev ERROR_OCCT_EXCEPTION : Int := 4
abbrev ERROR_BOOLEAN_FAILED : Int := 5
abbrev ERROR_DELTA_FAILED : Int := 6
abbrev ERROR_EXPORT_FAILED : Int := 7

abbrev STOCK_BOX : Int := 1
abbrev STOCK_CYLINDER : Int := 2

abbrev FEAT_DRILL : Int := 1
abbrev FEAT_POCKET_RECT : Int := 2
abbrev FEAT_TURN_OD : Int := 3
abbrev FEAT_TURN_ID : Int := 4

abbrev L1_TURN_OD_PROFILE_MAX : Int := 64

/-- The function `MapExceptionToError` of the source. -/
def MapExceptionToError : Int := ERROR_OCCT_EXCEPTION

/-! ## Double precision arithmetic -/

/-- The number of halvings that bring `n` below 2, with at most `fuel`
halvings. -/
def halvings : Nat → Nat → Nat
  | 0, _ => 0
  | fuel + 1, n => if n < 2 then 0 else halvings fuel (n / 2) + 1

/-- The position of the leading bit of `n`: the floor of its binary
logarithm, and 0 for `n = 0`. -/
def leadingBit (n : Nat) : Nat := halvings n n

/-- The double nearest to the rational `q` (IEEE 754 binary64, round to
nearest, ties to even): with `e` the binary exponent of `q`, not below
`-1022`, the multiple of `2 ^ (e - 52)` nearest to `q`, the even multiple when
`q` is half way between two. -/
def roundDouble (q : Rat) : Rat :=
  if q.num = 0 then 0 else
  let m : Nat := q.num.natAbs
  let d : Nat := q.den
  let e0 : Int := (leadingBit m : Int) - (leadingBit d : Int)
  let e : Int :=
    if (if 0 ≤ e0 then d * 2 ^ e0.toNat ≤ m else d ≤ m * 2 ^ (-e0).toNat) then e0 else e0 - 1
  let p : Int := max e (-1022) - 52
  let N : Nat := if 0 ≤ p then m else m * 2 ^ (-p).toNat
  let D : Nat := if 0 ≤ p then d * 2 ^ p.toNat else d
  let k : Nat := N / D
  let r : Nat := N % D
  let k1 : Nat :=
    if 2 * r < D then k else if D < 2 * r then k + 1 else if k % 2 = 0 then k else k + 1
  let v : Rat :=
    if 0 ≤ p then ((k1 * 2 ^ p.toNat : Nat) : Rat) else (k1 : Rat) / ((2 ^ (-p).toNat : Nat) : Rat)
  if q.num < 0 then -v else v

/-- The operator `-` on two doubles: the difference, rounded. -/
def doubleSub (a b : Rat) : Rat := roundDouble (a - b)

/-! ## Data transfer structures of the header -/

/-- Three coordinates: a `double[3]` of the header, and the coordinate triple
of a `gp_Pnt` or `gp_Vec`. -/
structure Vec3 where
  x : Rat
  y : Rat
  z : Rat
deriving DecidableEq

/-- The product `gp_Vec * scalar`. -/
def Vec3.Multiplied (v : Vec3) (k : Rat) : Vec3 :=
  ⟨v.x * k, v.y * k, v.z * k⟩

/-- The sum `gp_Vec + gp_Vec`. -/
def Vec3.Added (v w : Vec3) : Vec3 :=
  ⟨v.x + w.x, v.y + w.y, v.z + w.z⟩

/-- The point `gp_Pnt::Translated(gp_Vec)`. -/
def Vec3.Translated (p v : Vec3) : Vec3 :=
  ⟨p.x + v.x, p.y + v.y, p.z + v.z⟩

structure AxisDto where
  origin : Vec3
  dir : Vec3
  xdir : Vec3
deriving DecidableEq

structure StockDto where
  type : Int
  p1 : Rat
  p2 : Rat
  p3 : Rat
  axis : AxisDto

structure DrillFeatureDto where
  radius : Rat
  depth : Rat
  axis : AxisDto

structure PocketRectFeatureDto where
  width : Rat
  height : Rat
  depth : Rat
  axis : AxisDto

/-- The structure `TurnOdFeatureDto`.  The arrays `profileZ` and
`profileRadius` have `L1_TURN_OD_PROFILE_MAX` entries in the header; they are
embedded as index functions, of which only the indices below 64 correspond to
storage of the C structure. -/
structure TurnOdFeatureDto where
  targetDiameter : Rat
  length : Rat
  profileCount : Int
  profileZ : Nat → Rat
  profileRadius : Nat → Rat
  axis : AxisDto

/-- The structure `TurnIdFeatureDto`, with the same layout as
`TurnOdFeatureDto`. -/
structure TurnIdFeatureDto where
  targetDiameter : Rat
  length : Rat
  profileCount : Int
  profileZ : Nat → Rat
  profileRadius : Nat → Rat
  axis : AxisDto

/-- The union `u` of `FeatureDto`.  The source reads only the member selected
by the tag, so the four members are kept side by side. -/
structure FeatureUnion where
  drill : DrillFeatureDto
  pocketRect : PocketRectFeatureDto
  turnOd : TurnOdFeatureDto
  turnId : TurnIdFeatureDto

structure FeatureDto where
  type : Int
  u : FeatureUnion

structure OperationResult where
  resultShapeId : Int
  deltaShapeId : Int
  errorCode : Int
deriving DecidableEq

/-! ## The OpenCASCADE library as a parameter -/

/-- The outcome of a library call that may raise a C++ exception. -/
inductive Thrown (α : Type) where
  | value (a : α)
  | raise
deriving DecidableEq

/-- A boolean builder object (`BRepAlgoAPI_Cut`, `BRepAlgoAPI_Common`,
`BRepAlgoAPI_Fuse`) after construction: its `IsDone()` flag and its
`Shape()`. -/
structure BRepAlgoAPI (S : Type) where
  IsDone : Bool
  Shape : S
deriving DecidableEq

/-- A `Bnd_Box` after `BRepBndLib::Add`: its `IsVoid()` flag and the six
numbers delivered by `Get`. -/
structure Bnd_Box where
  IsVoid : Bool
  xmin : Rat
  ymin : Rat
  zmin : Rat
  xmax : Rat
  ymax : Rat
  zmax : Rat
deriving DecidableEq

/-- The library calls used by the source. -/
structure OcctKernel where
  /-- The type `TopoDS_Shape`. -/
  TopoDS_Shape : Type
  /-- The type `gp_Dir`. -/
  gp_Dir : Type
  /-- The type `gp_Ax2`. -/
  gp_Ax2 : Type
  /-- The default constructed `TopoDS_Shape`. -/
  nullShape : TopoDS_Shape
  /-- The constructor `gp_Dir(x, y, z)`. -/
  mkDir : Vec3 → Thrown gp_Dir
  /-- The conversion `gp_Vec(dir)`. -/
  dirVec : gp_Dir → Vec3
  /-- The method `gp_Dir::Crossed`. -/
  Crossed : gp_Dir → gp_Dir → Thrown gp_Dir
  /-- The constructor `gp_Ax2(P, V)`. -/
  mkAx2 : Vec3 → gp_Dir → Thrown gp_Ax2
  /-- The constructor `gp_Ax2(P, N, Vx)`. -/
  mkAx2x : Vec3 → gp_Dir → gp_Dir → Thrown gp_Ax2
  /-- The call `BRepPrimAPI_MakeBox(dx, dy, dz).Shape()`. -/
  MakeBox : Rat → Rat → Rat → Thrown TopoDS_Shape
  /-- The call `BRepPrimAPI_MakeBox(axes, dx, dy, dz).Shape()`. -/
  MakeBoxAt : gp_Ax2 → Rat → Rat → Rat → Thrown TopoDS_Shape
  /-- The call `BRepPrimAPI_MakeCylinder(R, H).Shape()`. -/
  MakeCylinder : Rat → Rat → Thrown TopoDS_Shape
  /-- The call `BRepPrimAPI_MakeCylinder(axes, R, H).Shape()`. -/
  MakeCylinderAt : gp_Ax2 → Rat → Rat → Thrown TopoDS_Shape
  /-- The constructor `BRepAlgoAPI_Cut(S1, S2)`. -/
  Cut : TopoDS_Shape → TopoDS_Shape → Thrown (BRepAlgoAPI TopoDS_Shape)
  /-- The constructor `BRepAlgoAPI_Common(S1, S2)`. -/
  Common : TopoDS_Shape → TopoDS_Shape → Thrown (BRepAlgoAPI TopoDS_Shape)
  /-- The constructor `BRepAlgoAPI_Fuse(S1, S2)`. -/
  Fuse : TopoDS_Shape → TopoDS_Shape → Thrown (BRepAlgoAPI TopoDS_Shape)
  /-- The call `BRepBndLib::Add(shape, box)` on a fresh `Bnd_Box`. -/
  BndAdd : TopoDS_Shape → Thrown Bnd_Box

/-- The kinds of library call recorded in the call log. -/
inductive KCall where
  | gp_Dir
  | Crossed
  | gp_Ax2
  | MakeBox
  | MakeCylinder
  | Cut
  | Common
  | Fuse
  | BndAdd
deriving DecidableEq

/-- A primitive constructor of the library: box or cylinder. -/
def KCall.isPrimitive : KCall → Bool
  | .MakeBox => true
  | .MakeCylinder => true
  | _ => false

/-- A boolean operator of the library: cut, common or fuse. -/
def KCall.isBooleanOp : KCall → Bool
  | .Cut => true
  | .Common => true
  | .Fuse => true
  | _ => false

/-! ## The class `ShapeRegistry` -/

structure ShapeRegistry (S : Type) where
  next_id_ : Int
  shapes_ : Int → Option S

/-- A registry as constructed: `next_id_ = 0` and an empty map. -/
def ShapeRegistry.fresh (S : Type) : ShapeRegistry S :=
  ⟨0, fun _ => none⟩

/-- The value of a 32 bit `int` expression whose mathematical value is `x`: the
representative of `x` modulo `2 ^ 32` in `[-2147483648, 2147483647]`. -/
def wrapInt (x : Int) : Int := (x + 2147483648) % 4294967296 - 2147483648

/-- The method `ShapeRegistry::Add` (`int id = ++next_id_;`): the returned id
and the registry after. -/
def ShapeRegistry.Add {S : Type} (r : ShapeRegistry S) (shape : S) :
    Int × ShapeRegistry S :=
  let id := wrapInt (r.next_id_ + 1)
  (id, ⟨id, fun k => if k = id then some shape else r.shapes_ k⟩)

/-- The method `ShapeRegistry::Remove`: whether an entry was erased, and the
registry after. -/
def ShapeRegistry.Remove {S : Type} (r : ShapeRegistry S) (id : Int) :
    Bool × ShapeRegistry S :=
  ((r.shapes_ id).isSome, ⟨r.next_id_, fun k => if k = id then none else r.shapes_ k⟩)

/-- The method `ShapeRegistry::Find`; `none` is the null pointer. -/
def ShapeRegistry.Find {S : Type} (r : ShapeRegistry S) (id : Int) : Option S :=
  r.shapes_ id

/-! ## Execution of the body of `L1_ApplyFeature`

The state a call of `L1_ApplyFeature` can change: the registry of the
kernel instance, the `OperationResult` of the caller, and the log of library
calls. -/

structure Machine (S : Type) where
  registry : ShapeRegistry S
  outResult : OperationResult
  calls : List KCall

/-- How a piece of the function body ends: it falls through with a value, it
executes `return status`, or a C++ exception leaves it. -/
inductive Flow (α : Type) where
  | next (a : α)
  | ret (status : Int)
  | raise
deriving DecidableEq

/-- A piece of the function body. -/
def Exec (S α : Type) : Type := Machine S → Flow α × Machine S

/-- Sequencing: a `return` or an exception skips the rest. -/
def Exec.bind {S α β : Type} (x : Exec S α) (f : α → Exec S β) : Exec S β :=
  fun m =>
    match x m with
    | (.next a, m1) => f a m1
    | (.ret status, m1) => (.ret status, m1)
    | (.raise, m1) => (.raise, m1)

instance (S : Type) : Monad (Exec S) where
  pure a := fun m => (.next a, m)
  bind := Exec.bind

/-- A library call: it is logged, and either delivers its value or raises. -/
def call {S α : Type} (kind : KCall) (r : Thrown α) : Exec S α :=
  fun m =>
    match r with
    | .value a => (.next a, { m with calls := m.calls ++ [kind] })
    | .raise => (.raise, { m with calls := m.calls ++ [kind] })

/-- The statement `return status;`. -/
def returnStatus {S α : Type} (status : Int) : Exec S α :=
  fun m => (.ret status, m)

/-- The statement `outResult->errorCode = code;`. -/
def setErrorCode {S : Type} (code : Int) : Exec S Unit :=
  fun m => (.next (), { m with outResult := { m.outResult with errorCode := code } })

/-- The statement `outResult->resultShapeId = id;`. -/
def setResultShapeId {S : Type} (id : Int) : Exec S Unit :=
  fun m => (.next (), { m with outResult := { m.outResult with resultShapeId := id } })

/-- The statement `outResult->deltaShapeId = id;`. -/
def setDeltaShapeId {S : Type} (id : Int) : Exec S Unit :=
  fun m => (.next (), { m with outResult := { m.outResult with deltaShapeId := id } })

/-- The pair `outResult->errorCode = code; return code;` that ends every
failing path of the source. -/
def errorReturn {S α : Type} (code : Int) : Exec S α := do
  setErrorCode code
  returnStatus code

/-- The call `impl->Registry().Find(id)`. -/
def registryFind {S : Type} (id : Int) : Exec S (Option S) :=
  fun m => (.next (m.registry.Find id), m)

/-- The call `impl->Registry().Add(shape)`. -/
def registryAdd {S : Type} (shape : S) : Exec S Int :=
  fun m => (.next (m.registry.Add shape).1, { m with registry := (m.registry.Add shape).2 })

/-! ## The cases of `switch (feature->type)` -/

/-- The case `FEAT_DRILL` (source lines 142 to 153). -/
def caseDrill (K : OcctKernel) (drill : DrillFeatureDto) : Exec K.TopoDS_Shape K.TopoDS_Shape := do
  if drill.radius ≤ 0 ∨ drill.depth ≤ 0 then
    errorReturn ERROR_INVALID_ARGUMENT
  let origin := drill.axis.origin
  let dir ← call KCall.gp_Dir (K.mkDir drill.axis.dir)
  let axis ← call KCall.gp_Ax2 (K.mkAx2 origin dir)
  call KCall.MakeCylinder (K.MakeCylinderAt axis drill.radius drill.depth)

/-- The case `FEAT_POCKET_RECT` (source lines 154 to 172). -/
def casePocketRect (K : OcctKernel) (pocket : PocketRectFeatureDto) :
    Exec K.TopoDS_Shape K.TopoDS_Shape := do
  if pocket.width ≤ 0 ∨ pocket.height ≤ 0 ∨ pocket.depth ≤ 0 then
    errorReturn ERROR_INVALID_ARGUMENT
  let origin := pocket.axis.origin
  let dir ← call KCall.gp_Dir (K.mkDir pocket.axis.dir)
  let xdir ← call KCall.gp_Dir (K.mkDir pocket.axis.xdir)
  let ydir ← call KCall.Crossed (K.Crossed dir xdir)
  let shift := ((K.dirVec xdir).Multiplied (-0.5 * pocket.width)).Added
    ((K.dirVec ydir).Multiplied (-0.5 * pocket.height))
  let corner := origin.Translated shift
  let axes ← call KCall.gp_Ax2 (K.mkAx2x corner dir xdir)
  call KCall.MakeBox (K.MakeBoxAt axes pocket.width pocket.height pocket.depth)

/-- One pass of the loop body of the `FEAT_TURN_OD` profile (source lines 202
to 242); the loop variables `removalTool` and `hasTool` go in and come out,
and `continue` delivers them unchanged. -/
def turnOdSegment (K : OcctKernel) (turn : TurnOdFeatureDto) (origin : Vec3) (dir : K.gp_Dir)
    (stockOuterRadius : Rat) (loopVars : K.TopoDS_Shape × Bool) (index : Nat) :
    Exec K.TopoDS_Shape (K.TopoDS_Shape × Bool) := do
  let z0 := turn.profileZ index
  let z1 := turn.profileZ (index + 1)
  let targetRadius := turn.profileRadius index
  if targetRadius ≤ 0 ∨ z1 < z0 then
    errorReturn ERROR_INVALID_ARGUMENT
  let segmentLength := doubleSub z1 z0
  if segmentLength ≤ roundDouble 1.0e-9 then
    pure loopVars
  else if targetRadius ≥ doubleSub stockOuterRadius (roundDouble 1.0e-9) then
    pure loopVars
  else
    let segmentOrigin := origin.Translated ((K.dirVec dir).Multiplied z0)
    let segmentAxis ← call KCall.gp_Ax2 (K.mkAx2 segmentOrigin dir)
    let outerCylinder ← call KCall.MakeCylinder
      (K.MakeCylinderAt segmentAxis stockOuterRadius segmentLength)
    let innerCylinder ← call KCall.MakeCylinder
      (K.MakeCylinderAt segmentAxis targetRadius segmentLength)
    let annulus ← call KCall.Cut (K.Cut outerCylinder innerCylinder)
    if !annulus.IsDone then
      errorReturn ERROR_BOOLEAN_FAILED
    let segmentTool := annulus.Shape
    if !loopVars.2 then
      pure (segmentTool, true)
    else
      let fuse ← call KCall.Fuse (K.Fuse loopVars.1 segmentTool)
      if !fuse.IsDone then
        errorReturn ERROR_BOOLEAN_FAILED
      pure (fuse.Shape, loopVars.2)

/-- The case `FEAT_TURN_OD` (source lines 173 to 275). -/
def caseTurnOd (K : OcctKernel) (stock : K.TopoDS_Shape) (turn : TurnOdFeatureDto) :
    Exec K.TopoDS_Shape K.TopoDS_Shape := do
  let stockBox ← call KCall.BndAdd (K.BndAdd stock)
  if stockBox.IsVoid then
    errorReturn ERROR_BOOLEAN_FAILED
  let spanX := doubleSub stockBox.xmax stockBox.xmin
  let spanY := doubleSub stockBox.ymax stockBox.ymin
  let spanZ := doubleSub stockBox.zmax stockBox.zmin
  let stockOuterRadius := max (max spanX spanY) spanZ * 2.0
  if turn.profileCount > 1 then
    let origin := turn.axis.origin
    let dir ← call KCall.gp_Dir (K.mkDir turn.axis.dir)
    let loopVars ← (List.range (turn.profileCount - 1).toNat).foldlM
      (turnOdSegment K turn origin dir stockOuterRadius) (K.nullShape, false)
    if !loopVars.2 then
      errorReturn ERROR_INVALID_ARGUMENT
    pure loopVars.1
  else
    if turn.targetDiameter ≤ 0 ∨ turn.length ≤ 0 then
      errorReturn ERROR_INVALID_ARGUMENT
    let targetRadius := turn.targetDiameter * 0.5
    let origin := turn.axis.origin
    let dir ← call KCall.gp_Dir (K.mkDir turn.axis.dir)
    let axis ← call KCall.gp_Ax2 (K.mkAx2 origin dir)
    let outerCylinder ← call KCall.MakeCylinder
      (K.MakeCylinderAt axis stockOuterRadius turn.length)
    let innerCylinder ← call KCall.MakeCylinder
      (K.MakeCylinderAt axis targetRadius turn.length)
    let annulusCut ← call KCall.Cut (K.Cut outerCylinder innerCylinder)
    if !annulusCut.IsDone then
      errorReturn ERROR_BOOLEAN_FAILED
    pure annulusCut.Shape

/-- One pass of the loop body of the `FEAT_TURN_ID` profile (source lines 285
to 313). -/
def turnIdSegment (K : OcctKernel) (turn : TurnIdFeatureDto) (origin : Vec3) (dir : K.gp_Dir)
    (loopVars : K.TopoDS_Shape × Bool) (index : Nat) :
    Exec K.TopoDS_Shape (K.TopoDS_Shape × Bool) := do
  let z0 := turn.profileZ index
  let z1 := turn.profileZ (index + 1)
  let targetRadius := turn.profileRadius index
  if targetRadius ≤ 0 ∨ z1 < z0 then
    errorReturn ERROR_INVALID_ARGUMENT
  let segmentLength := doubleSub z1 z0
  if segmentLength ≤ roundDouble 1.0e-9 then
    pure loopVars
  else
    let segmentOrigin := origin.Translated ((K.dirVec dir).Multiplied z0)
    let segmentAxis ← call KCall.gp_Ax2 (K.mkAx2 segmentOrigin dir)
    let segmentTool ← call KCall.MakeCylinder
      (K.MakeCylinderAt segmentAxis targetRadius segmentLength)
    if !loopVars.2 then
      pure (segmentTool, true)
    else
      let fuse ← call KCall.Fuse (K.Fuse loopVars.1 segmentTool)
      if !fuse.IsDone then
        errorReturn ERROR_BOOLEAN_FAILED
      pure (fuse.Shape, loopVars.2)

/-- The case `FEAT_TURN_ID` (source lines 276 to 337). -/
def caseTurnId (K : OcctKernel) (turn : TurnIdFeatureDto) :
    Exec K.TopoDS_Shape K.TopoDS_Shape := do
  if turn.profileCount > 1 then
    let origin := turn.axis.origin
    let dir ← call KCall.gp_Dir (K.mkDir turn.axis.dir)
    let loopVars ← (List.range (turn.profileCount - 1).toNat).foldlM
      (turnIdSegment K turn origin dir) (K.nullShape, false)
    if !loopVars.2 then
      errorReturn ERROR_INVALID_ARGUMENT
    pure loopVars.1
  else
    if turn.targetDiameter ≤ 0 ∨ turn.length ≤ 0 then
      errorReturn ERROR_INVALID_ARGUMENT
    let targetRadius := turn.targetDiameter * 0.5
    let origin := turn.axis.origin
    let dir ← call KCall.gp_Dir (K.mkDir turn.axis.dir)
    let axis ← call KCall.gp_Ax2 (K.mkAx2 origin dir)
    call KCall.MakeCylinder (K.MakeCylinderAt axis targetRadius turn.length)

/-- The statement `switch (feature->type)` (source lines 141 to 341): the
removal tool of the feature. -/
def toolSwitch (K : OcctKernel) (stock : K.TopoDS_Shape) (feature : FeatureDto) :
    Exec K.TopoDS_Shape K.TopoDS_Shape :=
  if feature.type = FEAT_DRILL then caseDrill K feature.u.drill
  else if feature.type = FEAT_POCKET_RECT then casePocketRect K feature.u.pocketRect
  else if feature.type = FEAT_TURN_OD then caseTurnOd K stock feature.u.turnOd
  else if feature.type = FEAT_TURN_ID then caseTurnId K feature.u.turnId
  else errorReturn ERROR_FEATURE_NOT_SUPPORTED

/-- The body of the `try` block of `L1_ApplyFeature` (source lines 133 to
358). -/
def applyFeatureTry (K : OcctKernel) (stockId : Int) (feature : FeatureDto) :
    Exec K.TopoDS_Shape Int := do
  let stock ← registryFind stockId
  match stock with
  | none => errorReturn ERROR_SHAPE_NOT_FOUND
  | some stock =>
    let tool ← toolSwitch K stock feature
    let cut ← call KCall.Cut (K.Cut stock tool)
    if !cut.IsDone then
      errorReturn ERROR_BOOLEAN_FAILED
    let common ← call KCall.Common (K.Common stock tool)
    if !common.IsDone then
      errorReturn ERROR_DELTA_FAILED
    let resultShapeId ← registryAdd cut.Shape
    setResultShapeId resultShapeId
    let deltaShapeId ← registryAdd common.Shape
    setDeltaShapeId deltaShapeId
    setErrorCode ERROR_OK
    returnStatus ERROR_OK

/-- What a call of `L1_ApplyFeature` leaves behind: the returned status, the
registry of the kernel instance (`none` for a null `kernel`), the
`OperationResult` of the caller (`none` for a null `outResult`), and the
library calls made, in order. -/
structure ApplyOutcome (S : Type) where
  status : Int
  kernel : Option (ShapeRegistry S)
  outResult : Option OperationResult
  calls : List KCall

/-- The state in which the `try` block of `L1_ApplyFeature` starts (source
lines 128 to 130): both output handles are `0`, the error code is
`ERROR_INVALID_ARGUMENT`, and no library call has been made. -/
def entryMachine {S : Type} (impl : ShapeRegistry S) (out : OperationResult) : Machine S :=
  ⟨impl, { out with resultShapeId := 0, deltaShapeId := 0,
                    errorCode := ERROR_INVALID_ARGUMENT }, []⟩

/-- The function `L1_ApplyFeature`.  A null pointer argument is `none`. -/
def L1_ApplyFeature (K : OcctKernel) (kernel : Option (ShapeRegistry K.TopoDS_Shape))
    (stockId : Int) (feature : Option FeatureDto) (outResult : Option OperationResult) :
    ApplyOutcome K.TopoDS_Shape :=
  match kernel, feature, outResult with
  | some impl, some feature, some out =>
    match applyFeatureTry K stockId feature (entryMachine impl out) with
    | (.next status, m) => ⟨status, some m.registry, some m.outResult, m.calls⟩
    | (.ret status, m) => ⟨status, some m.registry, some m.outResult, m.calls⟩
    | (.raise, m) =>
      ⟨MapExceptionToError, some m.registry,
        some { m.outResult with errorCode := ERROR_OCCT_EXCEPTION }, m.calls⟩
  | _, _, _ => ⟨ERROR_INVALID_ARGUMENT, kernel, outResult, []⟩

/-- The function `L1_CreateKernel`: a kernel instance with a fresh registry. -/
def L1_CreateKernel (S : Type) : Option (ShapeRegistry S) :=
  some (ShapeRegistry.fresh S)

/-- The function `L1_CreateStock`: the returned status, the registry after and
the value of `*outStockId` after.  A null pointer argument is `none`. -/
def L1_CreateStock (K : OcctKernel) (kernel : Option (ShapeRegistry K.TopoDS_Shape))
    (dto : Option StockDto) (outStockId : Option Int) :
    Int × Option (ShapeRegistry K.TopoDS_Shape) × Option Int :=
  match kernel, dto, outStockId with
  | some impl, some dto, some out =>
    if dto.type = STOCK_BOX then
      match K.MakeBox dto.p1 dto.p2 dto.p3 with
      | .value shape => (ERROR_OK, some (impl.Add shape).2, some (impl.Add shape).1)
      | .raise => (MapExceptionToError, some impl, some out)
    else if dto.type = STOCK_CYLINDER then
      match K.MakeCylinder dto.p1 dto.p2 with
      | .value shape => (ERROR_OK, some (impl.Add shape).2, some (impl.Add shape).1)
      | .raise => (MapExceptionToError, some impl, some out)
    else (ERROR_INVALID_ARGUMENT, some impl, some out)
  | _, _, _ => (ERROR_INVALID_ARGUMENT, kernel, outStockId)

/-- The function `L1_DeleteShape`: the returned status and the registry
after.  A null `kernel` is `none`. -/
def L1_DeleteShape {S : Type} (kernel : Option (ShapeRegistry S)) (shapeId : Int) :
    Int × Option (ShapeRegistry S) :=
  match kernel with
  | none => (ERROR_INVALID_ARGUMENT, none)
  | some impl =>
    if !(impl.Remove shapeId).1 then (ERROR_SHAPE_NOT_FOUND, some (impl.Remove shapeId).2)
    else (ERROR_OK, some (impl.Remove shapeId).2)

/-! ## An executable instance of the library interface

Shapes are the terms that name how they were built.  The instance is used to
run the embedding on concrete inputs. -/

/-- A coordinate system as given to its constructor. -/
structure TermAx2 where
  location : Vec3
  direction : Vec3
  xdirection : Option Vec3
deriving DecidableEq

/-- A shape named by its construction. -/
inductive TermShape where
  | null
  | box (dx dy dz : Rat)
  | boxAt (axes : TermAx2) (dx dy dz : Rat)
  | cylinder (r h : Rat)
  | cylinderAt (axes : TermAx2) (r h : Rat)
  | cut (a b : TermShape)
  | common (a b : TermShape)
  | fuse (a b : TermShape)
deriving DecidableEq

/-- The cross product of two coordinate triples. -/
def Vec3.cross (a b : Vec3) : Vec3 :=
  ⟨a.y * b.z - a.z * b.y, a.z * b.x - a.x * b.z, a.x * b.y - a.y * b.x⟩

/-- The void box. -/
def Bnd_Box.void : Bnd_Box := ⟨true, 0, 0, 0, 0, 0, 0⟩

/-- The box enclosing two boxes. -/
def Bnd_Box.hull (a b : Bnd_Box) : Bnd_Box :=
  if a.IsVoid then b
  else if b.IsVoid then a
  else ⟨false, min a.xmin b.xmin, min a.ymin b.ymin, min a.zmin b.zmin,
    max a.xmax b.xmax, max a.ymax b.ymax, max a.zmax b.zmax⟩

/-- A bounding box for a term: exact for the unplaced box and cylinder, a cube
around the location for the placed ones, void for the null shape and for a
shape cut by itself. -/
def TermShape.bnd : TermShape → Bnd_Box
  | .null => Bnd_Box.void
  | .box dx dy dz => ⟨false, 0, 0, 0, dx, dy, dz⟩
  | .boxAt ax dx dy dz =>
    let e := dx + dy + dz
    ⟨false, ax.location.x - e, ax.location.y - e, ax.location.z - e,
      ax.location.x + e, ax.location.y + e, ax.location.z + e⟩
  | .cylinder r h => ⟨false, -r, -r, 0, r, r, h⟩
  | .cylinderAt ax r h =>
    let e := r + h
    ⟨false, ax.location.x - e, ax.location.y - e, ax.location.z - e,
      ax.location.x + e, ax.location.y + e, ax.location.z + e⟩
  | .cut a b => if a = b then Bnd_Box.void else a.bnd
  | .common a _ => a.bnd
  | .fuse a b => a.bnd.hull b.bnd

/-- The term instance: directions are kept as given and a null vector is
refused, parallel directions are refused, a box or cylinder with a
non-positive dimension is refused, and every boolean operation is done. -/
@[reducible] def termKernel : OcctKernel where
  TopoDS_Shape := TermShape
  gp_Dir := Vec3
  gp_Ax2 := TermAx2
  nullShape := TermShape.null
  mkDir v := if v = ⟨0, 0, 0⟩ then .raise else .value v
  dirVec d := d
  Crossed a b := if a.cross b = ⟨0, 0, 0⟩ then .raise else .value (a.cross b)
  mkAx2 p d := .value ⟨p, d, none⟩
  mkAx2x p n vx := if n.cross vx = ⟨0, 0, 0⟩ then .raise else .value ⟨p, n, some vx⟩
  MakeBox dx dy dz :=
    if dx ≤ 0 ∨ dy ≤ 0 ∨ dz ≤ 0 then .raise else .value (.box dx dy dz)
  MakeBoxAt ax dx dy dz :=
    if dx ≤ 0 ∨ dy ≤ 0 ∨ dz ≤ 0 then .raise else .value (.boxAt ax dx dy dz)
  MakeCylinder r h := if r ≤ 0 ∨ h ≤ 0 then .raise else .value (.cylinder r h)
  MakeCylinderAt ax r h := if r ≤ 0 ∨ h ≤ 0 then .raise else .value (.cylinderAt ax r h)
  Cut a b := .value ⟨true, .cut a b⟩
  Common a b := .value ⟨true, .common a b⟩
  Fuse a b := .value ⟨true, .fuse a b⟩
  BndAdd s := .value s.bnd

/-- The term instance with a library that builds no frame, no cylinder, no cut
and no fuse: each of these calls raises. -/
@[reducible] def bareKernel : OcctKernel :=
  { termKernel with
    mkAx2 := fun _ _ => .raise
    MakeCylinderAt := fun _ _ _ => .raise
    Cut := fun _ _ => .raise
    Fuse := fun _ _ => .raise }

/-! ## Sequences of registry operations -/

/-- A call of `Add` or of `Remove` on a registry. -/
inductive RegistryOp (S : Type) where
  | Add (shape : S)
  | Remove (id : Int)

/-- The registry after a sequence of calls, in order. -/
def ShapeRegistry.run {S : Type} (r : ShapeRegistry S) : List (RegistryOp S) → ShapeRegistry S
  | [] => r
  | .Add shape :: ops => (r.Add shape).2.run ops
  | .Remove id :: ops => (r.Remove id).2.run ops

/-- The handles returned by the `Add` calls of a sequence, in order. -/
def ShapeRegistry.minted {S : Type} (r : ShapeRegistry S) : List (RegistryOp S) → List Int
  | [] => []
  | .Add shape :: ops => (r.Add shape).1 :: (r.Add shape).2.minted ops
  | .Remove id :: ops => (r.Remove id).2.minted ops

/-- The number of `Add` calls in a sequence. -/
def countAdds {S : Type} : List (RegistryOp S) → Nat
  | [] => 0
  | .Add _ :: ops => countAdds ops + 1
  | .Remove _ :: ops => countAdds ops

/-- The invariant of a registry: no handle above the last minted one is
stored. -/
def ShapeRegistry.Inv {S : Type} (r : ShapeRegistry S) : Prop :=
  0 ≤ r.next_id_ ∧ ∀ h : Int, r.next_id_ < h → r.Find h = none

/-- A piece of the body that leaves the registry and the two output handles
as they are, returns only non-zero statuses, and logs only calls in `P`. -/
structure Exec.Sound {S α : Type} (P : KCall → Prop) (x : Exec S α) : Prop where
  run : ∀ m : Machine S,
    (x m).2.registry = m.registry ∧
    (x m).2.outResult.resultShapeId = m.outResult.resultShapeId ∧
    (x m).2.outResult.deltaShapeId = m.outResult.deltaShapeId ∧
    (∀ c, (x m).1 = .ret c → c ≠ 0) ∧
    ∃ l, (x m).2.calls = m.calls ++ l ∧ ∀ k ∈ l, P k

/-- The calls other than `BRepAlgoAPI_Common`. -/
abbrev notCommon (k : KCall) : Prop := k ≠ KCall.Common

/-- The registries a kernel instance can hold after calls that have minted at
most `n` handles: the one of `L1_CreateKernel`, and those left by the three
functions that take the instance, `L1_CreateStock` minting at most one handle
and `L1_ApplyFeature` at most two. -/
inductive Reachable (K : OcctKernel) : Nat → ShapeRegistry K.TopoDS_Shape → Prop where
  | create : Reachable K 0 (ShapeRegistry.fresh K.TopoDS_Shape)
  | stock (n : Nat) (impl after : ShapeRegistry K.TopoDS_Shape) (dto : Option StockDto)
      (outStockId : Option Int) :
      Reachable K n impl → (L1_CreateStock K (some impl) dto outStockId).2.1 = some after →
      Reachable K (n + 1) after
  | apply (n : Nat) (impl after : ShapeRegistry K.TopoDS_Shape) (stockId : Int)
      (feature : Option FeatureDto) (outResult : Option OperationResult) :
      Reachable K n impl →
      (L1_ApplyFeature K (some impl) stockId feature outResult).kernel = some after →
      Reachable K (n + 2) after
  | delete (n : Nat) (impl after : ShapeRegistry K.TopoDS_Shape) (shapeId : Int) :
      Reachable K n impl → (L1_DeleteShape (some impl) shapeId).2 = some after →
      Reachable K n after

/-! ## Concrete inputs -/

/-- The axis through the origin along `z`, with `x` as secondary direction. -/
def zAxis : AxisDto := ⟨⟨0, 0, 0⟩, ⟨0, 0, 1⟩, ⟨1, 0, 0⟩⟩

/-- An array holding the given numbers, then zeros. -/
def profileOf (l : List Rat) : Nat → Rat := fun i => l.getD i 0

/-- A drill of radius 1 and depth 20 along `zAxis`. -/
def sampleDrill : DrillFeatureDto := ⟨1, 20, zAxis⟩

/-- A pocket of 2 by 3 by 4 on `zAxis`. -/
def samplePocket : PocketRectFeatureDto := ⟨2, 3, 4, zAxis⟩

/-- A single pass outer turning to diameter 4 over length 10. -/
def sampleTurnOd : TurnOdFeatureDto := ⟨4, 10, 0, profileOf [], profileOf [], zAxis⟩

/-- A single pass inner turning to diameter 4 over length 10. -/
def sampleTurnId : TurnIdFeatureDto := ⟨4, 10, 0, profileOf [], profileOf [], zAxis⟩

/-- The four sample members side by side. -/
def sampleUnion : FeatureUnion := ⟨sampleDrill, samplePocket, sampleTurnOd, sampleTurnId⟩

/-- The sample drill as a feature. -/
def drillFeature : FeatureDto := ⟨FEAT_DRILL, sampleUnion⟩

/-- The registry of the term instance after one box stock of 10 by 10 by 10
has been added: it holds handle 1. -/
def boxRegistry : ShapeRegistry TermShape :=
  ((ShapeRegistry.fresh TermShape).Add (TermShape.box 10 10 10)).2

/-- The registry of the term instance whose counter stands at `INT_MAX` and
which holds the box stock under handle 1: the state of a kernel instance after
2147483647 handles have been minted and all but the first released. -/
def lastHandleRegistry : ShapeRegistry TermShape :=
  ⟨2147483647, fun k => if k = 1 then some (TermShape.box 10 10 10) else none⟩

/-- A sequence of 2147483647 calls of `Add`. -/
def manyAdds : List (RegistryOp Unit) := List.replicate 2147483647 (RegistryOp.Add ())

/-! ## Segments of a turning profile -/

/-- Segment `i` of a `FEAT_TURN_ID` profile is rejected by the loop (source
line 288). -/
def TurnIdFeatureDto.rejects (turn : TurnIdFeatureDto) (i : Nat) : Prop :=
  turn.profileRadius i ≤ 0 ∨ turn.profileZ (i + 1) < turn.profileZ i

/-- Segment `i` of a `FEAT_TURN_ID` profile builds nothing: it is rejected, or
skipped for its length (source lines 288 and 294). -/
def TurnIdFeatureDto.notKept (turn : TurnIdFeatureDto) (i : Nat) : Prop :=
  turn.profileRadius i ≤ 0 ∨
    doubleSub (turn.profileZ (i + 1)) (turn.profileZ i) ≤ roundDouble 1.0e-9

/-- Segment `i` of a `FEAT_TURN_OD` profile is rejected by the loop (source
line 205). -/
def TurnOdFeatureDto.rejects (turn : TurnOdFeatureDto) (i : Nat) : Prop :=
  turn.profileRadius i ≤ 0 ∨ turn.profileZ (i + 1) < turn.profileZ i

/-- Segment `i` of a `FEAT_TURN_OD` profile builds nothing: it is rejected, or
skipped for its length or for its radius against the outer bound (source lines
205, 211 and 215). -/
def TurnOdFeatureDto.notKept (turn : TurnOdFeatureDto) (stockOuterRadius : Rat) (i : Nat) :
    Prop :=
  turn.profileRadius i ≤ 0 ∨
    doubleSub (turn.profileZ (i + 1)) (turn.profileZ i) ≤ roundDouble 1.0e-9 ∨
    turn.profileRadius i ≥ doubleSub stockOuterRadius (roundDouble 1.0e-9)

/-- The outer bound of `FEAT_TURN_OD` in exact arithmetic, the formula of
source lines 189 to 192 without rounding: twice the largest span of the
bounding box. -/
def Bnd_Box.stockOuterRadius (stockBox : Bnd_Box) : Rat :=
  max (max (stockBox.xmax - stockBox.xmin) (stockBox.ymax - stockBox.ymin))
    (stockBox.zmax - stockBox.zmin) * 2.0

/-- The outer bound of `FEAT_TURN_OD` as source lines 189 to 192 compute it:
twice the largest of the three spans, each span a difference of doubles and
so rounded. -/
def Bnd_Box.doubleOuterRadius (stockBox : Bnd_Box) : Rat :=
  max (max (doubleSub stockBox.xmax stockBox.xmin) (doubleSub stockBox.ymax stockBox.ymin))
    (doubleSub stockBox.zmax stockBox.zmin) * 2.0

/-! ## Concrete turning inputs -/

/-- A `FEAT_TURN_ID` feature with the given member. -/
def turnIdFeature (turn : TurnIdFeatureDto) : FeatureDto :=
  ⟨FEAT_TURN_ID, { sampleUnion with turnId := turn }⟩

/-- A `FEAT_TURN_OD` feature with the given member. -/
def turnOdFeature (turn : TurnOdFeatureDto) : FeatureDto :=
  ⟨FEAT_TURN_OD, { sampleUnion with turnOd := turn }⟩

/-- The axis of `zAxis` with a null direction vector. -/
def nullDirAxis : AxisDto := ⟨⟨0, 0, 0⟩, ⟨0, 0, 0⟩, ⟨1, 0, 0⟩⟩

/-- An inner profile of three entries whose first segment, radius 5 over
`[0, 10]`, is sound and whose second segment has radius `-1`. -/
def brokenBore : TurnIdFeatureDto :=
  ⟨0, 0, 3, profileOf [0, 10, 20], profileOf [5, -1, 3], zAxis⟩

/-- A single pass outer turning with target diameter `-1`. -/
def negativeTurnOd : TurnOdFeatureDto := ⟨-1, 10, 0, profileOf [], profileOf [], zAxis⟩

/-- An outer profile of two entries with `z` going down from 5 to 0. -/
def reversedTurnOd : TurnOdFeatureDto :=
  ⟨0, 0, 2, profileOf [5, 0], profileOf [1, 1], zAxis⟩

/-- An inner profile of two entries with `z` going down from 5 to 0, on an
axis with a null direction vector. -/
def reversedTurnIdNullDir : TurnIdFeatureDto :=
  ⟨0, 0, 2, profileOf [5, 0], profileOf [1, 1], nullDirAxis⟩

/-- An inner profile of two entries with `z` going down from 5 to 0 on
`zAxis`. -/
def reversedTurnId : TurnIdFeatureDto :=
  ⟨0, 0, 2, profileOf [5, 0], profileOf [1, 1], zAxis⟩

/-- An outer profile of three entries, all at `z = 4`: both segments have
length 0. -/
def flatTurnOd : TurnOdFeatureDto :=
  ⟨0, 0, 3, profileOf [4, 4, 4], profileOf [1, 1, 1], zAxis⟩

/-- An inner profile of three entries, all at `z = 4`, on an axis with a null
direction vector. -/
def flatTurnIdNullDir : TurnIdFeatureDto :=
  ⟨0, 0, 3, profileOf [4, 4, 4], profileOf [1, 1, 1], nullDirAxis⟩

/-- An inner profile of three entries, all at `z = 4`, on `zAxis`. -/
def flatTurnId : TurnIdFeatureDto :=
  ⟨0, 0, 3, profileOf [4, 4, 4], profileOf [1, 1, 1], zAxis⟩

/-- The registry `boxRegistry` after the box cut by itself, a shape with a
void bounding box, has been added: it holds handle 2. -/
def emptiedRegistry : ShapeRegistry TermShape :=
  (boxRegistry.Add (TermShape.cut (TermShape.box 10 10 10) (TermShape.box 10 10 10))).2

/-- The inner profile `[(0, 5), (10, 5), (10, 3), (20, 3)]` on the given
axis. -/
def steppedBore (axis : AxisDto) : TurnIdFeatureDto :=
  ⟨0, 0, 4, profileOf [0, 10, 10, 20], profileOf [5, 5, 3, 3], axis⟩

/-- A single pass inner turning, without profile, on the given axis. -/
def singleBore (targetDiameter length : Rat) (axis : AxisDto) : TurnIdFeatureDto :=
  ⟨targetDiameter, length, 0, profileOf [], profileOf [], axis⟩

/-- The axis with its origin moved by `distance` along the vector `along`. -/
def AxisDto.shifted (axis : AxisDto) (along : Vec3) (distance : Rat) : AxisDto :=
  { axis with origin := axis.origin.Translated (along.Multiplied distance) }

/-- The calls other than the bounding box query `BRepBndLib::Add`. -/
abbrev notBndAdd (k : KCall) : Prop := k ≠ KCall.BndAdd

/-! ## Concrete stock inputs -/

/-- A box stock of 10 by 10 by 10 with the given axis. -/
def boxStock (axis : AxisDto) : StockDto := ⟨STOCK_BOX, 10, 10, 10, axis⟩

/-- An axis with origin `(5, 5, 5)` along `x`, with `y` as secondary
direction. -/
def xAxisAt5 : AxisDto := ⟨⟨5, 5, 5⟩, ⟨1, 0, 0⟩, ⟨0, 1, 0⟩⟩


/-! ## Points of space and the distance to the turning axis

The coordinates range over an ordered field `F`, so that the same definitions
are evaluated on rational points and stated for all real points. -/

/-- A point, or a vector, of space with coordinates in `F`. -/
structure Point (F : Type) where
  x : F
  y : F
  z : F

/-- The vector from `q` to `p`. -/
def Point.sub {F : Type} [LinearOrderedField F] (p q : Point F) : Point F :=
  ⟨p.x - q.x, p.y - q.y, p.z - q.z⟩

/-- The scalar product of two vectors. -/
def Point.dot {F : Type} [LinearOrderedField F] (u v : Point F) : F :=
  u.x * v.x + u.y * v.y + u.z * v.z

/-- The square of the length of a vector. -/
def Point.normSq {F : Type} [LinearOrderedField F] (v : Point F) : F :=
  v.dot v

/-- The point of the axis line at parameter `t`: the origin moved by `t` times
the direction. -/
def axisPoint {F : Type} [LinearOrderedField F] (origin dir : Point F) (t : F) : Point F :=
  ⟨origin.x + t * dir.x, origin.y + t * dir.y, origin.z + t * dir.z⟩

/-- The square of the distance from `p` to the axis line through `origin` with
unit direction `dir`: the square of the length of `p - origin` minus the
square of its component along `dir`. -/
def distSqToAxis {F : Type} [LinearOrderedField F] (origin dir p : Point F) : F :=
  (p.sub origin).normSq - (p.sub origin).dot dir ^ 2

/-- The unit cube `[0, 1]³` as a bounding box that is not void. -/
def unitBox : Bnd_Box := ⟨false, 0, 0, 0, 1, 1, 1⟩

/-! ## The profile tool as a fold by fuse

The words of the specification on the multi-segment profile: the segments
that are kept, the tool of one segment, and the left fold by fuse in which the
first tool seeds the accumulator. -/

/-- The shape of the fuse of `a` and `b` as the library delivers it (the null
shape when the library raises). -/
def OcctKernel.fuseShape (K : OcctKernel) (a b : K.TopoDS_Shape) : K.TopoDS_Shape :=
  match K.Fuse a b with
  | .value fuse => fuse.Shape
  | .raise => K.nullShape

/-- The shape of the cut of `a` by `b` as the library delivers it (the null
shape when the library raises). -/
def OcctKernel.cutShape (K : OcctKernel) (a b : K.TopoDS_Shape) : K.TopoDS_Shape :=
  match K.Cut a b with
  | .value cut => cut.Shape
  | .raise => K.nullShape

/-- The cylinder of radius `r` and height `h` on the frame of `origin` and
`dir`, as the library delivers it (the null shape when the library raises). -/
def OcctKernel.cylinderShape (K : OcctKernel) (origin : Vec3) (dir : K.gp_Dir) (r h : Rat) :
    K.TopoDS_Shape :=
  match K.mkAx2 origin dir with
  | .value frame =>
    match K.MakeCylinderAt frame r h with
    | .value s => s
    | .raise => K.nullShape
  | .raise => K.nullShape

/-- The left fold by fuse of a list of tools: the first tool seeds the
accumulator, every further tool is fused onto it. -/
def OcctKernel.fuseAll (K : OcctKernel) : List K.TopoDS_Shape → K.TopoDS_Shape
  | [] => K.nullShape
  | s :: rest => rest.foldl K.fuseShape s

/-- Segment `i` of an inner profile is kept: its length, the difference of
doubles `z (i + 1) - z i`, exceeds the double `1e-9`. -/
def TurnIdFeatureDto.kept (turn : TurnIdFeatureDto) (i : Nat) : Bool :=
  decide (doubleSub (turn.profileZ (i + 1)) (turn.profileZ i) > roundDouble 1.0e-9)

/-- The kept segments of an inner profile, in increasing index. -/
def TurnIdFeatureDto.keptSegments (turn : TurnIdFeatureDto) : List Nat :=
  (List.range (turn.profileCount - 1).toNat).filter turn.kept

/-- The tool of segment `i` of an inner profile: the cylinder of the radius
and length of the segment on the frame of the origin moved by `z_i` along the
direction. -/
def TurnIdFeatureDto.segmentTool (K : OcctKernel) (turn : TurnIdFeatureDto) (dir : K.gp_Dir)
    (i : Nat) : K.TopoDS_Shape :=
  K.cylinderShape (turn.axis.origin.Translated ((K.dirVec dir).Multiplied (turn.profileZ i)))
    dir (turn.profileRadius i) (doubleSub (turn.profileZ (i + 1)) (turn.profileZ i))

/-- The tool of an inner profile in the words of the specification. -/
def TurnIdFeatureDto.profileTool (K : OcctKernel) (turn : TurnIdFeatureDto) (dir : K.gp_Dir) :
    K.TopoDS_Shape :=
  K.fuseAll (turn.keptSegments.map (turn.segmentTool K dir))

/-- Segment `i` of an outer profile is kept: its length, the difference of
doubles `z (i + 1) - z i`, exceeds the double `1e-9` and its radius is below
the difference of doubles `outerBound - 1e-9`. -/
def TurnOdFeatureDto.kept (turn : TurnOdFeatureDto) (outerBound : Rat) (i : Nat) : Bool :=
  decide (doubleSub (turn.profileZ (i + 1)) (turn.profileZ i) > roundDouble 1.0e-9 ∧
    turn.profileRadius i < doubleSub outerBound (roundDouble 1.0e-9))

/-- The kept segments of an outer profile, in increasing index. -/
def TurnOdFeatureDto.keptSegments (turn : TurnOdFeatureDto) (outerBound : Rat) : List Nat :=
  (List.range (turn.profileCount - 1).toNat).filter (turn.kept outerBound)

/-- The tool of segment `i` of an outer profile: the cut of the cylinder of
the outer bound by the cylinder of the radius of the segment, both of the
length of the segment on the frame of the origin moved by `z_i` along the
direction. -/
def TurnOdFeatureDto.segmentTool (K : OcctKernel) (turn : TurnOdFeatureDto)
    (outerBound : Rat) (dir : K.gp_Dir) (i : Nat) : K.TopoDS_Shape :=
  K.cutShape
    (K.cylinderShape (turn.axis.origin.Translated ((K.dirVec dir).Multiplied (turn.profileZ i)))
      dir outerBound (doubleSub (turn.profileZ (i + 1)) (turn.profileZ i)))
    (K.cylinderShape (turn.axis.origin.Translated ((K.dirVec dir).Multiplied (turn.profileZ i)))
      dir (turn.profileRadius i) (doubleSub (turn.profileZ (i + 1)) (turn.profileZ i)))

/-- The tool of an outer profile in the words of the specification. -/
def TurnOdFeatureDto.profileTool (K : OcctKernel) (turn : TurnOdFeatureDto)
    (outerBound : Rat) (dir : K.gp_Dir) : K.TopoDS_Shape :=
  K.fuseAll ((turn.keptSegments outerBound).map (turn.segmentTool K outerBound dir))

/-- The loop variables after the kept segments `ks`, starting from `vars`: a
kept segment seeds the accumulator when there is no tool yet and is fused onto
it otherwise. -/
def accumulate (K : OcctKernel) (segmentTool : Nat → K.TopoDS_Shape)
    (vars : K.TopoDS_Shape × Bool) (ks : List Nat) : K.TopoDS_Shape × Bool :=
  ks.foldl
    (fun v i => (if v.2 then K.fuseShape v.1 (segmentTool i) else segmentTool i, true)) vars

/-- The number of fuse calls for `n` kept segments: `n` when there is a tool
already, one less otherwise. -/
def fuseCalls (hasTool : Bool) (n : Nat) : Nat :=
  if hasTool then n else n - 1

/-- The library builds the tool of segment `i` of an inner profile: the frame
of the segment and its cylinder. -/
def TurnIdFeatureDto.BuildsSegment (K : OcctKernel) (turn : TurnIdFeatureDto) (dir : K.gp_Dir)
    (i : Nat) : Prop :=
  ∃ frame tool,
    K.mkAx2 (turn.axis.origin.Translated ((K.dirVec dir).Multiplied (turn.profileZ i))) dir =
      .value frame ∧
    K.MakeCylinderAt frame (turn.profileRadius i)
      (doubleSub (turn.profileZ (i + 1)) (turn.profileZ i)) = .value tool

/-- The library builds the tool of segment `i` of an outer profile: the frame
of the segment, its two cylinders and their cut, which it reports done. -/
def TurnOdFeatureDto.BuildsSegment (K : OcctKernel) (turn : TurnOdFeatureDto)
    (outerBound : Rat) (dir : K.gp_Dir) (i : Nat) : Prop :=
  ∃ frame outer inner cut,
    K.mkAx2 (turn.axis.origin.Translated ((K.dirVec dir).Multiplied (turn.profileZ i))) dir =
      .value frame ∧
    K.MakeCylinderAt frame outerBound
      (doubleSub (turn.profileZ (i + 1)) (turn.profileZ i)) = .value outer ∧
    K.MakeCylinderAt frame (turn.profileRadius i)
      (doubleSub (turn.profileZ (i + 1)) (turn.profileZ i)) = .value inner ∧
    K.Cut outer inner = .value cut ∧ cut.IsDone = true

/-- The library fuses `a` and `b` and reports the fuse done. -/
def OcctKernel.FuseDone (K : OcctKernel) (a b : K.TopoDS_Shape) : Prop :=
  ∃ fuse, K.Fuse a b = .value fuse ∧ fuse.IsDone = true

/-- The library builds what the loop asks of it for the kept segments `ks`,
in order, starting from the loop variables `vars`: the tool of every kept
segment, and the fuse of the accumulated tool and the tool of the segment for
every kept segment but one that seeds the accumulator. -/
def BuildsKept (K : OcctKernel) (buildsSegment : Nat → Prop)
    (segmentTool : Nat → K.TopoDS_Shape) : K.TopoDS_Shape × Bool → List Nat → Prop
  | _, [] => True
  | vars, i :: ks =>
    buildsSegment i ∧ (vars.2 = true → K.FuseDone vars.1 (segmentTool i)) ∧
    BuildsKept K buildsSegment segmentTool
      (if vars.2 then K.fuseShape vars.1 (segmentTool i) else segmentTool i, true) ks

/-- An inner profile of 2 to 64 entries whose segments all have a positive
radius and whose `z` does not decrease. -/
def TurnIdFeatureDto.ValidProfile (turn : TurnIdFeatureDto) : Prop :=
  2 ≤ turn.profileCount ∧ turn.profileCount ≤ L1_TURN_OD_PROFILE_MAX ∧
    ∀ i : Nat, (i : Int) + 1 < turn.profileCount →
      0 < turn.profileRadius i ∧ turn.profileZ i ≤ turn.profileZ (i + 1)

/-- An outer profile of 2 to 64 entries whose segments all have a positive
radius and whose `z` does not decrease. -/
def TurnOdFeatureDto.ValidProfile (turn : TurnOdFeatureDto) : Prop :=
  2 ≤ turn.profileCount ∧ turn.profileCount ≤ L1_TURN_OD_PROFILE_MAX ∧
    ∀ i : Nat, (i : Int) + 1 < turn.profileCount →
      0 < turn.profileRadius i ∧ turn.profileZ i ≤ turn.profileZ (i + 1)

/-- The inner profile `[(0, 5), (c, 5), (10, 5)]` on `zAxis`, with `c` the
double `1e-9`: its first segment has exactly the length of the threshold. -/
def thresholdBore : TurnIdFeatureDto :=
  ⟨0, 0, 3, profileOf [0, roundDouble 1.0e-9, 10], profileOf [5, 5, 5], zAxis⟩

/-- A bounding box whose `x` span, from `-0x1.d5fff67755f98p-1` to
`-0x1.abffece835249p-2`, is not a double, and whose other spans are 0. -/
def thinBox : Bnd_Box :=
  ⟨false, -8268324881653656 / 2 ^ 53, 0, 0, -7529450501788233 / 2 ^ 54, 0, 0⟩

/-- The outer profile `[(0, r), (10, r)]` on `zAxis` with the radius
`r = 0x1.fffffffddfc88p-1`, which lies between the rounded and the exact value
of the outer bound of `thinBox` minus `1e-9`. -/
def thresholdShaft : TurnOdFeatureDto :=
  ⟨0, 0, 2, profileOf [0, 10], profileOf [9007199252511880 / 2 ^ 53, 0], zAxis⟩

/-- The outer profile `[(0, 5), (10, 5), (10, 3), (20, 25), (30, 25)]` on
`zAxis`: on the box stock of side 10, whose outer bound is 20, the segments 0
and 2 are kept, segment 1 has length 0 and segment 3 has a radius beyond the
outer bound. -/
def steppedShaft : TurnOdFeatureDto :=
  ⟨0, 0, 5, profileOf [0, 10, 10, 20, 30], profileOf [5, 5, 3, 25, 25], zAxis⟩


/-! ## Lemmas on the registry -/

theorem wrapInt_of_bounds (x : Int) (h1 : -2147483648 ≤ x) (h2 : x ≤ 2147483647) :
    wrapInt x = x := by
  unfold wrapInt
  omega

theorem ShapeRegistry.Add_fst {S : Type} (r : ShapeRegistry S) (shape : S)
    (h0 : 0 ≤ r.next_id_) (hb : r.next_id_ < 2147483647) : (r.Add shape).1 = r.next_id_ + 1 := by
  simp only [ShapeRegistry.Add]
  exact wrapInt_of_bounds _ (by omega) (by omega)

theorem ShapeRegistry.Add_next_id_ {S : Type} (r : ShapeRegistry S) (shape : S)
    (h0 : 0 ≤ r.next_id_) (hb : r.next_id_ < 2147483647) :
    (r.Add shape).2.next_id_ = r.next_id_ + 1 := by
  simp only [ShapeRegistry.Add]
  exact wrapInt_of_bounds _ (by omega) (by omega)

theorem ShapeRegistry.Add_Find {S : Type} (r : ShapeRegistry S) (shape : S) (h : Int) :
    (r.Add shape).2.Find h = if h = (r.Add shape).1 then some shape else r.Find h := rfl

theorem ShapeRegistry.Inv_fresh (S : Type) : (ShapeRegistry.fresh S).Inv :=
  ⟨le_refl _, fun _ _ => rfl⟩

theorem ShapeRegistry.Inv_Add {S : Type} (r : ShapeRegistry S) (shape : S) (h : r.Inv)
    (hb : r.next_id_ < 2147483647) : (r.Add shape).2.Inv := by
  have h0 := h.1
  refine ⟨?_, ?_⟩
  · rw [ShapeRegistry.Add_next_id_ r shape h0 hb]
    omega
  · intro k hk
    rw [ShapeRegistry.Add_next_id_ r shape h0 hb] at hk
    rw [ShapeRegistry.Add_Find, ShapeRegistry.Add_fst r shape h0 hb, if_neg (by omega)]
    exact h.2 k (by omega)

theorem ShapeRegistry.Inv_Remove {S : Type} (r : ShapeRegistry S) (id : Int) (h : r.Inv) :
    (r.Remove id).2.Inv := by
  refine ⟨h.1, ?_⟩
  intro k hk
  simp only [ShapeRegistry.Remove, ShapeRegistry.Find] at hk ⊢
  split
  · rfl
  · exact h.2 k hk

theorem ShapeRegistry.next_id_run {S : Type} (ops : List (RegistryOp S)) :
    ∀ r : ShapeRegistry S, 0 ≤ r.next_id_ → r.next_id_ + countAdds ops ≤ 2147483647 →
      (r.run ops).next_id_ = r.next_id_ + countAdds ops := by
  induction ops with
  | nil => intro r _ _; simp [ShapeRegistry.run, countAdds]
  | cons op ops ih =>
    intro r h0 hb
    cases op with
    | Add shape =>
      simp only [countAdds, Nat.cast_add, Nat.cast_one] at hb
      have hn := ShapeRegistry.Add_next_id_ r shape h0 (by omega)
      simp only [ShapeRegistry.run, countAdds]
      rw [ih _ (by omega) (by omega), hn]
      push_cast
      ring
    | Remove id =>
      simp only [countAdds] at hb
      simp only [ShapeRegistry.run, countAdds]
      exact ih _ h0 hb

theorem ShapeRegistry.Inv_run {S : Type} (ops : List (RegistryOp S)) :
    ∀ r : ShapeRegistry S, r.Inv → r.next_id_ + countAdds ops ≤ 2147483647 →
      (r.run ops).Inv := by
  induction ops with
  | nil => intro r h _; exact h
  | cons op ops ih =>
    intro r h hb
    cases op with
    | Add shape =>
      simp only [countAdds, Nat.cast_add, Nat.cast_one] at hb
      have hn := ShapeRegistry.Add_next_id_ r shape h.1 (by omega)
      exact ih _ (ShapeRegistry.Inv_Add r shape h (by omega)) (by omega)
    | Remove id =>
      simp only [countAdds] at hb
      exact ih _ (ShapeRegistry.Inv_Remove r id h) hb

theorem ShapeRegistry.minted_eq {S : Type} (ops : List (RegistryOp S)) :
    ∀ r : ShapeRegistry S, 0 ≤ r.next_id_ → r.next_id_ + countAdds ops ≤ 2147483647 →
      r.minted ops =
        (List.range (countAdds ops)).map (fun i : Nat => r.next_id_ + 1 + (i : Int)) := by
  induction ops with
  | nil => intro r _ _; simp [ShapeRegistry.minted, countAdds]
  | cons op ops ih =>
    intro r h0 hb
    cases op with
    | Add shape =>
      simp only [countAdds, Nat.cast_add, Nat.cast_one] at hb
      have hn := ShapeRegistry.Add_next_id_ r shape h0 (by omega)
      have hf := ShapeRegistry.Add_fst r shape h0 (by omega)
      simp only [ShapeRegistry.minted, countAdds]
      rw [ih _ (by omega) (by omega), hn, hf, List.range_succ_eq_map, List.map_cons,
        List.map_map]
      simp only [Nat.cast_zero, add_zero, List.cons.injEq, true_and]
      apply List.map_congr_left
      intro i _
      simp only [Function.comp, Nat.cast_succ]
      ring
    | Remove id =>
      simp only [countAdds] at hb
      simp only [ShapeRegistry.minted, countAdds]
      exact ih _ h0 hb

theorem countAdds_replicate_Add {S : Type} (n : Nat) (shape : S) :
    countAdds (List.replicate n (RegistryOp.Add shape)) = n := by
  induction n with
  | zero => rfl
  | succ n ih => rw [List.replicate_succ, countAdds, ih]

/-! ## Lemmas on execution -/

theorem Exec.bind_apply {S α β : Type} (x : Exec S α) (f : α → Exec S β) (m : Machine S) :
    (x >>= f) m =
      match x m with
      | (.next a, m1) => f a m1
      | (.ret status, m1) => (.ret status, m1)
      | (.raise, m1) => (.raise, m1) := rfl

theorem Exec.pure_apply {S α : Type} (a : α) (m : Machine S) :
    (pure a : Exec S α) m = (.next a, m) := rfl

theorem Exec.Sound.pure {S α : Type} (P : KCall → Prop) (a : α) :
    Exec.Sound P (pure a : Exec S α) := by
  refine ⟨fun m => ?_⟩
  rw [Exec.pure_apply]
  exact ⟨rfl, rfl, rfl, fun c h => (by cases h), [], (List.append_nil _).symm, fun k hk => (by cases hk)⟩

theorem Exec.Sound.bind {S α β : Type} {P : KCall → Prop} {x : Exec S α} {f : α → Exec S β}
    (hx : Exec.Sound P x) (hf : ∀ a, Exec.Sound P (f a)) : Exec.Sound P (x >>= f) := by
  refine ⟨fun m => ?_⟩
  obtain ⟨h1, h2, h3, h4, l, h5, h6⟩ := hx.run m
  rw [Exec.bind_apply]
  rcases hxm : x m with ⟨fl, m1⟩
  rw [hxm] at h1 h2 h3 h4 h5
  cases fl with
  | next a =>
    dsimp only at h1 h2 h3 h4 h5 ⊢
    obtain ⟨g1, g2, g3, g4, l2, g5, g6⟩ := (hf a).run m1
    refine ⟨g1.trans h1, g2.trans h2, g3.trans h3, g4, l ++ l2, ?_, ?_⟩
    · rw [g5, h5, List.append_assoc]
    · intro k hk
      rcases List.mem_append.1 hk with hk | hk
      · exact h6 k hk
      · exact g6 k hk
  | ret status =>
    dsimp only at h1 h2 h3 h4 h5 ⊢
    refine ⟨h1, h2, h3, ?_, l, h5, h6⟩
    intro c hc
    cases hc
    exact h4 _ rfl
  | raise =>
    dsimp only at h1 h2 h3 h4 h5 ⊢
    exact ⟨h1, h2, h3, fun c hc => (by cases hc), l, h5, h6⟩

theorem call_value {S α : Type} (kind : KCall) (a : α) (m : Machine S) :
    (call kind (Thrown.value a) : Exec S α) m =
      (.next a, { m with calls := m.calls ++ [kind] }) := rfl

theorem call_raise {S α : Type} (kind : KCall) (m : Machine S) :
    (call kind (Thrown.raise) : Exec S α) m =
      (.raise, { m with calls := m.calls ++ [kind] }) := rfl

theorem errorReturn_apply {S α : Type} (code : Int) (m : Machine S) :
    (errorReturn code : Exec S α) m =
      (.ret code, { m with outResult := { m.outResult with errorCode := code } }) := rfl

theorem Exec.Sound.call {S α : Type} {P : KCall → Prop} (kind : KCall) (r : Thrown α)
    (hP : P kind) : Exec.Sound P (call kind r : Exec S α) := by
  refine ⟨fun m => ?_⟩
  have hl : ∀ k ∈ [kind], P k := by
    intro k hk
    rw [List.mem_singleton] at hk
    exact hk ▸ hP
  cases r with
  | value a =>
    rw [call_value]
    exact ⟨rfl, rfl, rfl, fun c h => (by cases h), [kind], rfl, hl⟩
  | raise =>
    rw [call_raise]
    exact ⟨rfl, rfl, rfl, fun c h => (by cases h), [kind], rfl, hl⟩

theorem Exec.Sound.errorReturn {S α : Type} (P : KCall → Prop) (code : Int) (h : code ≠ 0) :
    Exec.Sound P (errorReturn code : Exec S α) := by
  refine ⟨fun m => ?_⟩
  rw [errorReturn_apply]
  refine ⟨rfl, rfl, rfl, ?_, [], (List.append_nil _).symm, fun k hk => (by cases hk)⟩
  intro c hc
  cases hc
  exact h

theorem Exec.Sound.ite {S α : Type} {P : KCall → Prop} (c : Prop) [Decidable c]
    {x y : Exec S α} (hx : Exec.Sound P x) (hy : Exec.Sound P y) :
    Exec.Sound P (if c then x else y) := by
  split
  · exact hx
  · exact hy

theorem Exec.Sound.foldlM {S α β : Type} {P : KCall → Prop} (f : β → α → Exec S β)
    (hf : ∀ b a, Exec.Sound P (f b a)) (l : List α) :
    ∀ b, Exec.Sound P (l.foldlM f b) := by
  induction l with
  | nil => intro b; exact Exec.Sound.pure P b
  | cons a l ih =>
    intro b
    rw [List.foldlM_cons]
    exact Exec.Sound.bind (hf b a) ih

theorem caseDrill_sound (K : OcctKernel) (drill : DrillFeatureDto) :
    Exec.Sound notCommon (caseDrill K drill) := by
  unfold caseDrill
  repeat (any_goals (first
    | exact Exec.Sound.errorReturn _ _ (by decide)
    | exact Exec.Sound.call _ _ (by decide)
    | exact Exec.Sound.pure _ _
    | apply Exec.Sound.ite
    | apply Exec.Sound.bind
    | intro _))

theorem casePocketRect_sound (K : OcctKernel) (pocket : PocketRectFeatureDto) :
    Exec.Sound notCommon (casePocketRect K pocket) := by
  unfold casePocketRect
  repeat (any_goals (first
    | exact Exec.Sound.errorReturn _ _ (by decide)
    | exact Exec.Sound.call _ _ (by decide)
    | exact Exec.Sound.pure _ _
    | apply Exec.Sound.ite
    | apply Exec.Sound.bind
    | intro _))

theorem turnOdSegment_sound (K : OcctKernel) (turn : TurnOdFeatureDto) (origin : Vec3)
    (dir : K.gp_Dir) (stockOuterRadius : Rat) (loopVars : K.TopoDS_Shape × Bool) (index : Nat) :
    Exec.Sound notCommon (turnOdSegment K turn origin dir stockOuterRadius loopVars index) := by
  unfold turnOdSegment
  repeat (any_goals (first
    | exact Exec.Sound.errorReturn _ _ (by decide)
    | exact Exec.Sound.call _ _ (by decide)
    | exact Exec.Sound.pure _ _
    | apply Exec.Sound.ite
    | apply Exec.Sound.bind
    | intro _))

theorem turnIdSegment_sound (K : OcctKernel) (turn : TurnIdFeatureDto) (origin : Vec3)
    (dir : K.gp_Dir) (loopVars : K.TopoDS_Shape × Bool) (index : Nat) :
    Exec.Sound notCommon (turnIdSegment K turn origin dir loopVars index) := by
  unfold turnIdSegment
  repeat (any_goals (first
    | exact Exec.Sound.errorReturn _ _ (by decide)
    | exact Exec.Sound.call _ _ (by decide)
    | exact Exec.Sound.pure _ _
    | apply Exec.Sound.ite
    | apply Exec.Sound.bind
    | intro _))

theorem caseTurnOd_sound (K : OcctKernel) (stock : K.TopoDS_Shape) (turn : TurnOdFeatureDto) :
    Exec.Sound notCommon (caseTurnOd K stock turn) := by
  unfold caseTurnOd
  repeat (any_goals (first
    | exact Exec.Sound.errorReturn _ _ (by decide)
    | exact Exec.Sound.call _ _ (by decide)
    | exact Exec.Sound.pure _ _
    | apply Exec.Sound.ite
    | apply Exec.Sound.bind
    | exact Exec.Sound.foldlM _ (turnOdSegment_sound K turn _ _ _) _ _
    | intro _))

theorem caseTurnId_sound (K : OcctKernel) (turn : TurnIdFeatureDto) :
    Exec.Sound notCommon (caseTurnId K turn) := by
  unfold caseTurnId
  repeat (any_goals (first
    | exact Exec.Sound.errorReturn _ _ (by decide)
    | exact Exec.Sound.call _ _ (by decide)
    | exact Exec.Sound.pure _ _
    | apply Exec.Sound.ite
    | apply Exec.Sound.bind
    | exact Exec.Sound.foldlM _ (turnIdSegment_sound K turn _ _) _ _
    | intro _))

theorem toolSwitch_sound (K : OcctKernel) (stock : K.TopoDS_Shape) (feature : FeatureDto) :
    Exec.Sound notCommon (toolSwitch K stock feature) := by
  unfold toolSwitch
  repeat (any_goals (first
    | exact caseDrill_sound K _
    | exact casePocketRect_sound K _
    | exact caseTurnOd_sound K _ _
    | exact caseTurnId_sound K _
    | exact Exec.Sound.errorReturn _ _ (by decide)
    | apply Exec.Sound.ite))

theorem L1_ApplyFeature_found (K : OcctKernel) (impl : ShapeRegistry K.TopoDS_Shape)
    (stockId : Int) (stock : K.TopoDS_Shape) (feature : FeatureDto) (out : OperationResult)
    (hfind : impl.Find stockId = some stock) :
    L1_ApplyFeature K (some impl) stockId (some feature) (some out) =
      match toolSwitch K stock feature (entryMachine impl out) with
      | (.ret c, m) => ⟨c, some m.registry, some m.outResult, m.calls⟩
      | (.raise, m) =>
        ⟨4, some m.registry, some { m.outResult with errorCode := 4 }, m.calls⟩
      | (.next tool, m) =>
        match K.Cut stock tool with
        | .raise =>
          ⟨4, some m.registry, some { m.outResult with errorCode := 4 }, m.calls ++ [KCall.Cut]⟩
        | .value cut =>
          if cut.IsDone = false then
            ⟨5, some m.registry, some { m.outResult with errorCode := 5 },
              m.calls ++ [KCall.Cut]⟩
          else
            match K.Common stock tool with
            | .raise =>
              ⟨4, some m.registry, some { m.outResult with errorCode := 4 },
                m.calls ++ [KCall.Cut, KCall.Common]⟩
            | .value common =>
              if common.IsDone = false then
                ⟨6, some m.registry, some { m.outResult with errorCode := 6 },
                  m.calls ++ [KCall.Cut, KCall.Common]⟩
              else
                ⟨0, some ((m.registry.Add cut.Shape).2.Add common.Shape).2,
                  some ⟨(m.registry.Add cut.Shape).1,
                    ((m.registry.Add cut.Shape).2.Add common.Shape).1, 0⟩,
                  m.calls ++ [KCall.Cut, KCall.Common]⟩ := by
  simp only [L1_ApplyFeature, applyFeatureTry, Exec.bind_apply, registryFind, hfind, entryMachine]
  rcases hts : toolSwitch K stock feature _ with ⟨fl, m⟩
  cases fl with
  | ret c => rfl
  | raise => rfl
  | next tool =>
    dsimp only
    cases hc : K.Cut stock tool with
    | raise => rfl
    | value cut =>
      cases hd : cut.IsDone with
      | false => simp [call_value, Exec.bind_apply, errorReturn_apply, hd]
      | true =>
        cases hcm : K.Common stock tool with
        | raise => simp [call_value, call_raise, Exec.bind_apply, errorReturn_apply, hd, Exec.pure_apply, MapExceptionToError]
        | value common =>
          cases hcd : common.IsDone with
          | false => simp [call_value, Exec.bind_apply, errorReturn_apply, hd, hcd, Exec.pure_apply]
          | true =>
            simp [call_value, Exec.bind_apply, errorReturn_apply, hd, hcd, Exec.pure_apply,
              registryAdd, setResultShapeId, setDeltaShapeId, setErrorCode, returnStatus]

theorem L1_ApplyFeature_notfound (K : OcctKernel) (impl : ShapeRegistry K.TopoDS_Shape)
    (stockId : Int) (feature : FeatureDto) (out : OperationResult)
    (hfind : impl.Find stockId = none) :
    L1_ApplyFeature K (some impl) stockId (some feature) (some out) =
      ⟨2, some impl, some ⟨0, 0, 2⟩, []⟩ := by
  simp only [L1_ApplyFeature, applyFeatureTry, Exec.bind_apply, registryFind, hfind, entryMachine,
    errorReturn_apply]

theorem L1_ApplyFeature_null (K : OcctKernel) (kernel : Option (ShapeRegistry K.TopoDS_Shape))
    (stockId : Int) (feature : Option FeatureDto) (outResult : Option OperationResult)
    (h : kernel = none ∨ feature = none ∨ outResult = none) :
    L1_ApplyFeature K kernel stockId feature outResult =
      ⟨ERROR_INVALID_ARGUMENT, kernel, outResult, []⟩ := by
  unfold L1_ApplyFeature
  split
  · rcases h with h | h | h <;> cases h
  · rfl

/-- From the unfolding of `L1_ApplyFeature` on a registered stock: the failing
outcomes keep the registry and both zero handles, the successful one is two
`Add` calls. -/
theorem L1_ApplyFeature_outcome (K : OcctKernel) (impl : ShapeRegistry K.TopoDS_Shape)
    (stockId : Int) (stock : K.TopoDS_Shape) (feature : FeatureDto) (out : OperationResult)
    (hfind : impl.Find stockId = some stock) :
    ((L1_ApplyFeature K (some impl) stockId (some feature) (some out)).status ≠ 0 ∧
      (L1_ApplyFeature K (some impl) stockId (some feature) (some out)).kernel = some impl ∧
      ∃ code, (L1_ApplyFeature K (some impl) stockId (some feature) (some out)).outResult =
        some ⟨0, 0, code⟩) ∨
    (∃ tool cut common,
      (toolSwitch K stock feature (entryMachine impl out)).1 = .next tool ∧
      K.Cut stock tool = .value cut ∧ cut.IsDone = true ∧
      K.Common stock tool = .value common ∧ common.IsDone = true ∧
      (L1_ApplyFeature K (some impl) stockId (some feature) (some out)).status = 0 ∧
      (L1_ApplyFeature K (some impl) stockId (some feature) (some out)).kernel =
        some ((impl.Add cut.Shape).2.Add common.Shape).2 ∧
      (L1_ApplyFeature K (some impl) stockId (some feature) (some out)).outResult =
        some ⟨(impl.Add cut.Shape).1, ((impl.Add cut.Shape).2.Add common.Shape).1, 0⟩) := by
  rw [L1_ApplyFeature_found K impl stockId stock feature out hfind]
  obtain ⟨h1, h2, h3, h4, -⟩ := (toolSwitch_sound K stock feature).run (entryMachine impl out)
  rcases hts : toolSwitch K stock feature (entryMachine impl out) with ⟨fl, m⟩
  rw [hts] at h1 h2 h3 h4
  dsimp only [entryMachine] at h1 h2 h3 h4
  have hout : ∀ code, ({ m.outResult with errorCode := code } : OperationResult) = ⟨0, 0, code⟩ := by
    intro code
    simp only [h2, h3]
  cases fl with
  | ret c =>
    left
    dsimp only
    refine ⟨h4 c rfl, by rw [h1], m.outResult.errorCode, ?_⟩
    rw [← hout m.outResult.errorCode]
  | raise =>
    left
    dsimp only
    exact ⟨by decide, by rw [h1], 4, by rw [hout 4]⟩
  | next tool =>
    dsimp only
    cases hc : K.Cut stock tool with
    | raise =>
      left
      dsimp only
      exact ⟨by decide, by rw [h1], 4, by rw [hout 4]⟩
    | value cut =>
      cases hd : cut.IsDone with
      | false =>
        left
        simp only [hd, if_true]
        exact ⟨by decide, by rw [h1], 5, by rw [hout 5]⟩
      | true =>
        cases hcm : K.Common stock tool with
        | raise =>
          left
          simp only [hd, Bool.true_eq_false, if_false]
          exact ⟨by decide, by rw [h1], 4, by rw [hout 4]⟩
        | value common =>
          cases hcd : common.IsDone with
          | false =>
            left
            simp only [hd, hcd, Bool.true_eq_false, if_false, if_true]
            exact ⟨by decide, by rw [h1], 6, by rw [hout 6]⟩
          | true =>
            right
            refine ⟨tool, cut, common, rfl, hc, hd, hcm, hcd, ?_, ?_, ?_⟩
            · simp only [hd, hcd, Bool.true_eq_false, if_false]
            · simp only [hd, hcd, Bool.true_eq_false, if_false, h1]
            · simp only [hd, hcd, Bool.true_eq_false, if_false, h1]

theorem boxRegistry_Inv : boxRegistry.Inv :=
  ShapeRegistry.Inv_Add _ _ (ShapeRegistry.Inv_fresh _) (by decide)

theorem ShapeRegistry.Inv_Add_Add {S : Type} (r : ShapeRegistry S) (a b : S) (h : r.Inv)
    (hb : r.next_id_ + 2 ≤ 2147483647) :
    ((r.Add a).2.Add b).2.Inv ∧ ((r.Add a).2.Add b).2.next_id_ = r.next_id_ + 2 := by
  have h0 := h.1
  have h1 := ShapeRegistry.Inv_Add r a h (by omega)
  have hn := ShapeRegistry.Add_next_id_ r a h0 (by omega)
  refine ⟨ShapeRegistry.Inv_Add _ b h1 (by omega), ?_⟩
  rw [ShapeRegistry.Add_next_id_ _ b (by omega) (by omega), hn]
  ring

theorem L1_ApplyFeature_Inv (K : OcctKernel) (impl after : ShapeRegistry K.TopoDS_Shape)
    (stockId : Int) (feature : Option FeatureDto) (outResult : Option OperationResult)
    (hinv : impl.Inv) (hb : impl.next_id_ + 2 ≤ 2147483647)
    (h : (L1_ApplyFeature K (some impl) stockId feature outResult).kernel = some after) :
    after.Inv ∧ after.next_id_ ≤ impl.next_id_ + 2 := by
  have hsame : impl.Inv ∧ impl.next_id_ ≤ impl.next_id_ + 2 := ⟨hinv, by omega⟩
  cases feature with
  | none =>
    rw [L1_ApplyFeature_null K _ _ _ _ (Or.inr (Or.inl rfl))] at h
    cases h
    exact hsame
  | some feature =>
    cases outResult with
    | none =>
      rw [L1_ApplyFeature_null K _ _ _ _ (Or.inr (Or.inr rfl))] at h
      cases h
      exact hsame
    | some out =>
      cases hfind : impl.Find stockId with
      | none =>
        rw [L1_ApplyFeature_notfound K impl stockId feature out hfind] at h
        cases h
        exact hsame
      | some stock =>
        rcases L1_ApplyFeature_outcome K impl stockId stock feature out hfind with
          ⟨-, hk, -⟩ | ⟨tool, cut, common, -, -, -, -, -, -, hk, -⟩
        · rw [hk] at h
          cases h
          exact hsame
        · rw [hk] at h
          cases h
          obtain ⟨h1, h2⟩ := ShapeRegistry.Inv_Add_Add impl cut.Shape common.Shape hinv hb
          exact ⟨h1, by rw [h2]⟩

theorem L1_CreateStock_Inv (K : OcctKernel) (impl after : ShapeRegistry K.TopoDS_Shape)
    (dto : Option StockDto) (outStockId : Option Int) (hinv : impl.Inv)
    (hb : impl.next_id_ < 2147483647)
    (h : (L1_CreateStock K (some impl) dto outStockId).2.1 = some after) :
    after.Inv ∧ after.next_id_ ≤ impl.next_id_ + 1 := by
  have hsame : impl.Inv ∧ impl.next_id_ ≤ impl.next_id_ + 1 := ⟨hinv, by omega⟩
  have hadd : ∀ shape : K.TopoDS_Shape,
      (impl.Add shape).2.Inv ∧ (impl.Add shape).2.next_id_ ≤ impl.next_id_ + 1 :=
    fun shape => ⟨ShapeRegistry.Inv_Add _ _ hinv hb,
      by rw [ShapeRegistry.Add_next_id_ impl shape hinv.1 hb]⟩
  cases dto with
  | none =>
    simp only [L1_CreateStock] at h
    cases h
    exact hsame
  | some dto =>
    cases outStockId with
    | none =>
      simp only [L1_CreateStock] at h
      cases h
      exact hsame
    | some out =>
      simp only [L1_CreateStock] at h
      split at h
      · split at h
        · cases h
          exact hadd _
        · cases h
          exact hsame
      · split at h
        · split at h
          · cases h
            exact hadd _
          · cases h
            exact hsame
        · cases h
          exact hsame

theorem L1_DeleteShape_Inv {S : Type} (impl after : ShapeRegistry S) (shapeId : Int)
    (hinv : impl.Inv) (h : (L1_DeleteShape (some impl) shapeId).2 = some after) :
    after.Inv ∧ after.next_id_ = impl.next_id_ := by
  unfold L1_DeleteShape at h
  dsimp only at h
  split at h
  · cases h
    exact ⟨ShapeRegistry.Inv_Remove _ _ hinv, rfl⟩
  · cases h
    exact ⟨ShapeRegistry.Inv_Remove _ _ hinv, rfl⟩

/-- Every registry a kernel instance can hold while at most `n ≤ INT_MAX`
handles have been minted satisfies the invariant, and its counter is at most
`n`. -/
theorem Reachable.Inv {K : OcctKernel} {n : Nat} {impl : ShapeRegistry K.TopoDS_Shape}
    (h : Reachable K n impl) (hn : (n : Int) ≤ 2147483647) :
    impl.Inv ∧ impl.next_id_ ≤ n := by
  induction h with
  | create => exact ⟨ShapeRegistry.Inv_fresh _, le_refl _⟩
  | stock n impl after dto outStockId _ h ih =>
    push_cast at hn
    obtain ⟨h1, h2⟩ := ih (by omega)
    obtain ⟨h3, h4⟩ := L1_CreateStock_Inv K impl after dto outStockId h1 (by omega) h
    exact ⟨h3, by push_cast; omega⟩
  | apply n impl after stockId feature outResult _ h ih =>
    push_cast at hn
    obtain ⟨h1, h2⟩ := ih (by omega)
    obtain ⟨h3, h4⟩ := L1_ApplyFeature_Inv K impl after stockId feature outResult h1
      (by omega) h
    exact ⟨h3, by push_cast; omega⟩
  | delete n impl after shapeId _ h ih =>
    obtain ⟨h1, h2⟩ := ih hn
    obtain ⟨h3, h4⟩ := L1_DeleteShape_Inv impl after shapeId h1 h
    exact ⟨h3, by omega⟩

/-! ## The claims on `L1_ApplyFeature` as a whole -/

/-- C1, counterexample: on the registry whose counter stands at `INT_MAX`,
with the box stock under handle 1, the drill returns 0 and the result handle
is `-2147483648`, the delta handle `-2147483647`: with `n = 2147483647` the
last handle minted before the call, the result handle is not `n + 1` and the
delta handle is not `n + 2`. -/
theorem L1_ApplyFeature_at_INT_MAX_wraps_handles :
    lastHandleRegistry.next_id_ = 2147483647 ∧
    lastHandleRegistry.Find 1 = some (TermShape.box 10 10 10) ∧
    (L1_ApplyFeature termKernel (some lastHandleRegistry) 1 (some drillFeature)
      (some ⟨7, 8, 9⟩)).status = 0 ∧
    (L1_ApplyFeature termKernel (some lastHandleRegistry) 1 (some drillFeature)
      (some ⟨7, 8, 9⟩)).outResult = some ⟨-2147483648, -2147483647, 0⟩ ∧
    (L1_ApplyFeature termKernel (some lastHandleRegistry) 1 (some drillFeature)
      (some ⟨7, 8, 9⟩)).outResult ≠
      some ⟨lastHandleRegistry.next_id_ + 1, lastHandleRegistry.next_id_ + 2, 0⟩ := by
  decide!

/-- C1, amended: if `L1_ApplyFeature` returns 0 on a registered stock, then
with `n` the last handle minted before the call and `n + 2 ≤ INT_MAX`, the
result handle is `n + 1` and the delta handle is `n + 2`, the registry maps
`n + 1` to the shape of the cut of the stock by the synthesized tool and
`n + 2` to the shape of their common, both as delivered by the library,
neither handle was registered before, and every other handle, that of the
stock included, resolves as before.  The invariant `Inv` holds of every
registry a kernel instance can hold while at most `INT_MAX` handles have been
minted (`Reachable.Inv`). -/
theorem L1_ApplyFeature_success_registers_result_then_delta (K : OcctKernel)
    (impl : ShapeRegistry K.TopoDS_Shape) (stockId : Int) (stock : K.TopoDS_Shape)
    (feature : FeatureDto) (out : OperationResult)
    (hinv : impl.Inv) (hbound : impl.next_id_ + 2 ≤ 2147483647)
    (hfind : impl.Find stockId = some stock)
    (hok : (L1_ApplyFeature K (some impl) stockId (some feature) (some out)).status = 0) :
    ∃ tool cut common after,
      (toolSwitch K stock feature (entryMachine impl out)).1 = .next tool ∧
      K.Cut stock tool = .value cut ∧ cut.IsDone = true ∧
      K.Common stock tool = .value common ∧ common.IsDone = true ∧
      (L1_ApplyFeature K (some impl) stockId (some feature) (some out)).kernel = some after ∧
      (L1_ApplyFeature K (some impl) stockId (some feature) (some out)).outResult =
        some ⟨impl.next_id_ + 1, impl.next_id_ + 2, 0⟩ ∧
      after.Find (impl.next_id_ + 1) = some cut.Shape ∧
      after.Find (impl.next_id_ + 2) = some common.Shape ∧
      impl.Find (impl.next_id_ + 1) = none ∧
      impl.Find (impl.next_id_ + 2) = none ∧
      (∀ h, h ≠ impl.next_id_ + 1 → h ≠ impl.next_id_ + 2 → after.Find h = impl.Find h) ∧
      after.Find stockId = some stock ∧
      after.next_id_ = impl.next_id_ + 2 := by
  rcases L1_ApplyFeature_outcome K impl stockId stock feature out hfind with
    ⟨hne, -, -⟩ | ⟨tool, cut, common, hts, hc, hd, hcm, hcd, -, hk, ho⟩
  · exact absurd hok hne
  · have h0 := hinv.1
    have ha1 : (impl.Add cut.Shape).1 = impl.next_id_ + 1 :=
      ShapeRegistry.Add_fst impl _ h0 (by omega)
    have hn1 : (impl.Add cut.Shape).2.next_id_ = impl.next_id_ + 1 :=
      ShapeRegistry.Add_next_id_ impl _ h0 (by omega)
    have ha2 : ((impl.Add cut.Shape).2.Add common.Shape).1 = impl.next_id_ + 2 := by
      rw [ShapeRegistry.Add_fst _ _ (by omega) (by omega), hn1]
      ring
    have h1 : impl.Find (impl.next_id_ + 1) = none := hinv.2 _ (by omega)
    have h2 : impl.Find (impl.next_id_ + 2) = none := hinv.2 _ (by omega)
    have hother : ∀ h, h ≠ impl.next_id_ + 1 → h ≠ impl.next_id_ + 2 →
        ((impl.Add cut.Shape).2.Add common.Shape).2.Find h = impl.Find h := by
      intro h ha hb
      rw [ShapeRegistry.Add_Find, ha2, if_neg hb, ShapeRegistry.Add_Find, ha1, if_neg ha]
    refine ⟨tool, cut, common, _, hts, hc, hd, hcm, hcd, hk, ?_, ?_, ?_, h1, h2, hother, ?_, ?_⟩
    · rw [ho, ha1, ha2]
    · rw [ShapeRegistry.Add_Find, ha2, if_neg (by omega), ShapeRegistry.Add_Find, ha1,
        if_pos rfl]
    · rw [ShapeRegistry.Add_Find, ha2, if_pos rfl]
    · rw [hother stockId, hfind]
      · intro he
        rw [he, h1] at hfind
        cases hfind
      · intro he
        rw [he, h2] at hfind
        cases hfind
    · exact (ShapeRegistry.Inv_Add_Add impl cut.Shape common.Shape hinv hbound).2

/-- C1, witness: the drill on the box stock, in the term instance. -/
theorem L1_ApplyFeature_success_registers_result_then_delta_witness :
    boxRegistry.Inv ∧ boxRegistry.next_id_ + 2 ≤ 2147483647 ∧
    boxRegistry.Find 1 = some (TermShape.box 10 10 10) ∧
    (L1_ApplyFeature termKernel (some boxRegistry) 1 (some drillFeature)
      (some ⟨7, 8, 9⟩)).status = 0 ∧
    ∃ tool cut common after,
      (toolSwitch termKernel (TermShape.box 10 10 10) drillFeature
        (entryMachine boxRegistry ⟨7, 8, 9⟩)).1 = .next tool ∧
      termKernel.Cut (TermShape.box 10 10 10) tool = .value cut ∧ cut.IsDone = true ∧
      termKernel.Common (TermShape.box 10 10 10) tool = .value common ∧ common.IsDone = true ∧
      (L1_ApplyFeature termKernel (some boxRegistry) 1 (some drillFeature)
        (some ⟨7, 8, 9⟩)).kernel = some after ∧
      (L1_ApplyFeature termKernel (some boxRegistry) 1 (some drillFeature)
        (some ⟨7, 8, 9⟩)).outResult =
        some ⟨boxRegistry.next_id_ + 1, boxRegistry.next_id_ + 2, 0⟩ ∧
      after.Find (boxRegistry.next_id_ + 1) = some cut.Shape ∧
      after.Find (boxRegistry.next_id_ + 2) = some common.Shape ∧
      boxRegistry.Find (boxRegistry.next_id_ + 1) = none ∧
      boxRegistry.Find (boxRegistry.next_id_ + 2) = none ∧
      (∀ h, h ≠ boxRegistry.next_id_ + 1 → h ≠ boxRegistry.next_id_ + 2 →
        after.Find h = boxRegistry.Find h) ∧
      after.Find 1 = some (TermShape.box 10 10 10) ∧
      after.next_id_ = boxRegistry.next_id_ + 2 :=
  ⟨boxRegistry_Inv, by decide, by decide!, by decide!,
    L1_ApplyFeature_success_registers_result_then_delta termKernel boxRegistry 1
      (TermShape.box 10 10 10) drillFeature ⟨7, 8, 9⟩ boxRegistry_Inv (by decide) (by decide!)
      (by decide!)⟩

/-- C2: whenever `L1_ApplyFeature` returns a non-zero status, whatever the
stage that failed, the registry after the call is the registry before the
call. -/
theorem L1_ApplyFeature_failure_keeps_registry (K : OcctKernel)
    (impl : ShapeRegistry K.TopoDS_Shape) (stockId : Int) (feature : Option FeatureDto)
    (out : OperationResult)
    (hfail : (L1_ApplyFeature K (some impl) stockId feature (some out)).status ≠ 0) :
    (L1_ApplyFeature K (some impl) stockId feature (some out)).kernel = some impl := by
  cases feature with
  | none => rw [L1_ApplyFeature_null K _ _ _ _ (Or.inr (Or.inl rfl))]
  | some feature =>
    cases hfind : impl.Find stockId with
    | none => rw [L1_ApplyFeature_notfound K impl stockId feature out hfind]
    | some stock =>
      rcases L1_ApplyFeature_outcome K impl stockId stock feature out hfind with
        ⟨-, hk, -⟩ | ⟨tool, cut, common, -, -, -, -, -, hz, -, -⟩
      · exact hk
      · exact absurd hz hfail

/-- C2, witness: a stock handle that is not registered, in the term instance. -/
theorem L1_ApplyFeature_failure_keeps_registry_witness :
    (L1_ApplyFeature termKernel (some boxRegistry) 5 (some drillFeature)
      (some ⟨7, 8, 9⟩)).status ≠ 0 ∧
    (L1_ApplyFeature termKernel (some boxRegistry) 5 (some drillFeature)
      (some ⟨7, 8, 9⟩)).kernel = some boxRegistry :=
  ⟨by decide!,
    L1_ApplyFeature_failure_keeps_registry termKernel boxRegistry 5 (some drillFeature)
      ⟨7, 8, 9⟩ (by decide!)⟩

/-- C3, counterexample: with a null kernel, or with a null feature, and an
`outResult` that holds the handles 7 and 8, `L1_ApplyFeature` returns
`ERROR_INVALID_ARGUMENT` and the handles are still 7 and 8. -/
theorem L1_ApplyFeature_null_argument_keeps_stale_handles :
    (L1_ApplyFeature termKernel none 1 (some drillFeature) (some ⟨7, 8, 9⟩)).status = 1 ∧
    (L1_ApplyFeature termKernel none 1 (some drillFeature) (some ⟨7, 8, 9⟩)).outResult =
      some ⟨7, 8, 9⟩ ∧
    (L1_ApplyFeature termKernel (some boxRegistry) 1 none (some ⟨7, 8, 9⟩)).status = 1 ∧
    (L1_ApplyFeature termKernel (some boxRegistry) 1 none (some ⟨7, 8, 9⟩)).outResult =
      some ⟨7, 8, 9⟩ := by
  decide!

/-- C3, amended: a call of `L1_ApplyFeature` with a non-null `outResult` that
returns a non-zero status leaves both output handles at 0 when the kernel and
the feature are non-null, whatever the structure held before; when the kernel
or the feature is null it returns `ERROR_INVALID_ARGUMENT` and the structure
is left as it was. -/
theorem L1_ApplyFeature_failure_zeroes_handles (K : OcctKernel)
    (kernel : Option (ShapeRegistry K.TopoDS_Shape)) (stockId : Int)
    (feature : Option FeatureDto) (out : OperationResult)
    (hfail : (L1_ApplyFeature K kernel stockId feature (some out)).status ≠ 0) :
    (kernel ≠ none → feature ≠ none →
      ∃ code, (L1_ApplyFeature K kernel stockId feature (some out)).outResult =
        some ⟨0, 0, code⟩) ∧
    (kernel = none ∨ feature = none →
      (L1_ApplyFeature K kernel stockId feature (some out)).status = ERROR_INVALID_ARGUMENT ∧
      (L1_ApplyFeature K kernel stockId feature (some out)).outResult = some out) := by
  constructor
  · intro hk hf
    cases kernel with
    | none => exact absurd rfl hk
    | some impl =>
      cases feature with
      | none => exact absurd rfl hf
      | some feature =>
        cases hfind : impl.Find stockId with
        | none =>
          rw [L1_ApplyFeature_notfound K impl stockId feature out hfind]
          exact ⟨2, rfl⟩
        | some stock =>
          rcases L1_ApplyFeature_outcome K impl stockId stock feature out hfind with
            ⟨-, -, ho⟩ | ⟨tool, cut, common, -, -, -, -, -, hz, -, -⟩
          · exact ho
          · exact absurd hz hfail
  · intro h
    have hnull : kernel = none ∨ feature = none ∨ (some out : Option OperationResult) = none := by
      rcases h with h | h
      · exact Or.inl h
      · exact Or.inr (Or.inl h)
    rw [L1_ApplyFeature_null K _ _ _ _ hnull]
    exact ⟨rfl, rfl⟩

/-- C3, witness: a stock handle that is not registered, with stale handles 7
and 8 in the result structure. -/
theorem L1_ApplyFeature_failure_zeroes_handles_witness :
    (L1_ApplyFeature termKernel (some boxRegistry) 5 (some drillFeature)
      (some ⟨7, 8, 9⟩)).status ≠ 0 ∧
    ((some boxRegistry : Option (ShapeRegistry TermShape)) ≠ none → some drillFeature ≠ none →
      ∃ code, (L1_ApplyFeature termKernel (some boxRegistry) 5 (some drillFeature)
        (some ⟨7, 8, 9⟩)).outResult = some ⟨0, 0, code⟩) ∧
    ((some boxRegistry : Option (ShapeRegistry TermShape)) = none ∨ some drillFeature = none →
      (L1_ApplyFeature termKernel (some boxRegistry) 5 (some drillFeature)
        (some ⟨7, 8, 9⟩)).status = ERROR_INVALID_ARGUMENT ∧
      (L1_ApplyFeature termKernel (some boxRegistry) 5 (some drillFeature)
        (some ⟨7, 8, 9⟩)).outResult = some ⟨7, 8, 9⟩) :=
  ⟨by decide!,
    L1_ApplyFeature_failure_zeroes_handles termKernel (some boxRegistry) 5 (some drillFeature)
      ⟨7, 8, 9⟩ (by decide!)⟩

/-- C4: on a registered stock and a feature whose tool is synthesized, a cut
that reports not done gives `ERROR_BOOLEAN_FAILED` (5) with no call of common
in the log; a done cut followed by a common that reports not done gives
`ERROR_DELTA_FAILED` (6); the status is 0 exactly when both report done; and
the two failure codes differ. -/
theorem L1_ApplyFeature_cut_and_common_status (K : OcctKernel)
    (impl : ShapeRegistry K.TopoDS_Shape) (stockId : Int) (stock : K.TopoDS_Shape)
    (feature : FeatureDto) (out : OperationResult) (tool : K.TopoDS_Shape)
    (hfind : impl.Find stockId = some stock)
    (htool : (toolSwitch K stock feature (entryMachine impl out)).1 = .next tool) :
    (∀ cut, K.Cut stock tool = .value cut → cut.IsDone = false →
      (L1_ApplyFeature K (some impl) stockId (some feature) (some out)).status =
        ERROR_BOOLEAN_FAILED ∧
      KCall.Common ∉ (L1_ApplyFeature K (some impl) stockId (some feature) (some out)).calls) ∧
    (∀ cut common, K.Cut stock tool = .value cut → cut.IsDone = true →
      K.Common stock tool = .value common → common.IsDone = false →
      (L1_ApplyFeature K (some impl) stockId (some feature) (some out)).status =
        ERROR_DELTA_FAILED) ∧
    ((L1_ApplyFeature K (some impl) stockId (some feature) (some out)).status = 0 ↔
      ∃ cut common, K.Cut stock tool = .value cut ∧ cut.IsDone = true ∧
        K.Common stock tool = .value common ∧ common.IsDone = true) ∧
    ERROR_BOOLEAN_FAILED ≠ ERROR_DELTA_FAILED := by
  rw [L1_ApplyFeature_found K impl stockId stock feature out hfind]
  obtain ⟨-, -, -, -, l, hl, hnc⟩ := (toolSwitch_sound K stock feature).run (entryMachine impl out)
  rcases hts : toolSwitch K stock feature (entryMachine impl out) with ⟨fl, m⟩
  rw [hts] at htool hl
  dsimp only at htool hl
  subst htool
  have hm : KCall.Common ∉ m.calls := by
    rw [hl]
    simp only [entryMachine, List.nil_append]
    intro hmem
    exact hnc _ hmem rfl
  dsimp only
  refine ⟨?_, ?_, ?_, by decide⟩
  · intro cut hc hd
    simp only [hc, hd, if_true, true_and]
    intro hmem
    rcases List.mem_append.1 hmem with h | h
    · exact hm h
    · simp at h
  · intro cut common hc hd hcm hcd
    simp only [hc, hd, hcm, hcd, if_true, Bool.true_eq_false, if_false]
  · constructor
    · intro h0
      cases hc : K.Cut stock tool with
      | raise => simp [hc] at h0
      | value cut =>
        cases hd : cut.IsDone with
        | false => simp [hc, hd] at h0
        | true =>
          cases hcm : K.Common stock tool with
          | raise => simp [hc, hd, hcm] at h0
          | value common =>
            cases hcd : common.IsDone with
            | false => simp [hc, hd, hcm, hcd] at h0
            | true => exact ⟨cut, common, rfl, hd, rfl, hcd⟩
    · rintro ⟨cut, common, hc, hd, hcm, hcd⟩
      simp only [hc, hd, hcm, hcd, Bool.true_eq_false, if_false]

/-- C4, witness: the drill on the box stock, whose tool is a placed cylinder. -/
theorem L1_ApplyFeature_cut_and_common_status_witness :
    boxRegistry.Find 1 = some (TermShape.box 10 10 10) ∧
    (toolSwitch termKernel (TermShape.box 10 10 10) drillFeature
      (entryMachine boxRegistry ⟨7, 8, 9⟩)).1 =
      .next (TermShape.cylinderAt ⟨⟨0, 0, 0⟩, ⟨0, 0, 1⟩, none⟩ 1 20) ∧
    (L1_ApplyFeature termKernel (some boxRegistry) 1 (some drillFeature)
      (some ⟨7, 8, 9⟩)).status = 0 :=
  ⟨by decide!, by decide!,
    (L1_ApplyFeature_cut_and_common_status termKernel boxRegistry 1 (TermShape.box 10 10 10)
      drillFeature ⟨7, 8, 9⟩ (TermShape.cylinderAt ⟨⟨0, 0, 0⟩, ⟨0, 0, 1⟩, none⟩ 1 20)
      (by decide!) (by decide!)).2.2.1.2 ⟨_, _, rfl, rfl, rfl, rfl⟩⟩

/-! ## The claims on the registry -/

/-- C5, counterexample: after the 2147483647 `Add` calls of `manyAdds` on a
fresh registry the counter stands at `INT_MAX`, and the next `Add`, the
2147483648-th, returns `-2147483648`: not handle 2147483648, not positive, and
below handle 1, which the first `Add` returned. -/
theorem ShapeRegistry_Add_wraps_after_INT_MAX_handles :
    countAdds manyAdds = 2147483647 ∧
    ((ShapeRegistry.fresh Unit).run manyAdds).next_id_ = 2147483647 ∧
    (((ShapeRegistry.fresh Unit).run manyAdds).Add ()).1 = -2147483648 ∧
    (((ShapeRegistry.fresh Unit).run manyAdds).Add ()).1 ≠ (countAdds manyAdds : Int) + 1 ∧
    ¬ 0 < (((ShapeRegistry.fresh Unit).run manyAdds).Add ()).1 ∧
    ((ShapeRegistry.fresh Unit).Add ()).1 = 1 ∧
    (((ShapeRegistry.fresh Unit).run manyAdds).Add ()).1 < ((ShapeRegistry.fresh Unit).Add ()).1 := by
  have hc : countAdds manyAdds = 2147483647 := countAdds_replicate_Add _ _
  have hn : ((ShapeRegistry.fresh Unit).run manyAdds).next_id_ = 2147483647 := by
    rw [ShapeRegistry.next_id_run manyAdds _ (le_refl _) (by rw [hc]; decide), hc]
    rfl
  have ha : (((ShapeRegistry.fresh Unit).run manyAdds).Add ()).1 = -2147483648 := by
    simp only [ShapeRegistry.Add, hn]
    decide
  have h1 : ((ShapeRegistry.fresh Unit).Add ()).1 = 1 := by decide
  refine ⟨hc, hn, ha, ?_, ?_, h1, ?_⟩
  · rw [ha, hc]
    decide
  · rw [ha]
    decide
  · rw [ha, h1]
    decide

/-- C5, amended: after any finite sequence of `Add` and `Remove` calls on a
fresh registry with fewer than 2147483647 `Add` calls, the handles returned by
the `Add` calls are 1, 2, ..., in order; a further `Add`, the one after `k`
earlier `Add` calls, returns `k + 1` and stores the shape under it; so every
handle is positive, is greater than every handle minted earlier (none is
minted again, given out again after a `Remove`, or equal to another), and is
not 0. -/
theorem ShapeRegistry_Add_mints_successive_handles {S : Type} (ops : List (RegistryOp S))
    (shape : S) (hbound : (countAdds ops : Int) < 2147483647) :
    (ShapeRegistry.fresh S).minted ops =
      (List.range (countAdds ops)).map (fun i : Nat => (i : Int) + 1) ∧
    (((ShapeRegistry.fresh S).run ops).Add shape).1 = (countAdds ops : Int) + 1 ∧
    (((ShapeRegistry.fresh S).run ops).Add shape).2.Find ((countAdds ops : Int) + 1) =
      some shape ∧
    (∀ h ∈ (ShapeRegistry.fresh S).minted ops,
      0 < h ∧ h < (((ShapeRegistry.fresh S).run ops).Add shape).1) ∧
    ((ShapeRegistry.fresh S).minted ops).Pairwise (· < ·) ∧
    (((ShapeRegistry.fresh S).run ops).Add shape).1 ≠ 0 := by
  have hf : (ShapeRegistry.fresh S).next_id_ = 0 := rfl
  have hm : (ShapeRegistry.fresh S).minted ops =
      (List.range (countAdds ops)).map (fun i : Nat => (i : Int) + 1) := by
    rw [ShapeRegistry.minted_eq ops _ (by rw [hf]) (by rw [hf]; omega)]
    apply List.map_congr_left
    intro i _
    rw [hf]
    ring
  have hr : ((ShapeRegistry.fresh S).run ops).next_id_ = countAdds ops := by
    rw [ShapeRegistry.next_id_run ops _ (by rw [hf]) (by rw [hf]; omega), hf]
    ring
  have hn : (((ShapeRegistry.fresh S).run ops).Add shape).1 = (countAdds ops : Int) + 1 := by
    rw [ShapeRegistry.Add_fst _ _ (by rw [hr]; omega) (by rw [hr]; omega), hr]
  refine ⟨hm, hn, ?_, ?_, ?_, ?_⟩
  · rw [ShapeRegistry.Add_Find, hn, if_pos rfl]
  · intro h hh
    rw [hm, List.mem_map] at hh
    obtain ⟨i, hi, rfl⟩ := hh
    rw [List.mem_range] at hi
    rw [hn]
    constructor <;> omega
  · rw [hm, List.pairwise_map]
    refine List.Pairwise.imp ?_ (List.pairwise_lt_range _)
    intro a b hab
    omega
  · rw [hn]
    omega

/-- C5, witness: two `Add` calls with a `Remove` of handle 1 between them; the
third `Add` returns handle 3. -/
theorem ShapeRegistry_Add_mints_successive_handles_witness :
    (countAdds [RegistryOp.Add (), RegistryOp.Remove 1, RegistryOp.Add ()] : Int) <
      2147483647 ∧
    (((ShapeRegistry.fresh Unit).run
      [RegistryOp.Add (), RegistryOp.Remove 1, RegistryOp.Add ()]).Add ()).1 = 3 :=
  ⟨by decide,
    (ShapeRegistry_Add_mints_successive_handles
      [RegistryOp.Add (), RegistryOp.Remove 1, RegistryOp.Add ()] () (by decide)).2.1⟩

/-- C6: `L1_DeleteShape` on a kernel instance returns 0 exactly when the
handle is registered; then the handle is unregistered afterwards and every
other handle keeps its shape; otherwise it returns `ERROR_SHAPE_NOT_FOUND` (2)
and the registry is unchanged; deleting the same handle twice in a row returns
`ERROR_SHAPE_NOT_FOUND` the second time. -/
theorem L1_DeleteShape_status_and_registry {S : Type} (impl : ShapeRegistry S) (h : Int) :
    ((L1_DeleteShape (some impl) h).1 = 0 ↔ impl.Find h ≠ none) ∧
    (impl.Find h ≠ none →
      ∃ after, (L1_DeleteShape (some impl) h).2 = some after ∧ after.Find h = none ∧
        ∀ k, k ≠ h → after.Find k = impl.Find k) ∧
    (impl.Find h = none →
      (L1_DeleteShape (some impl) h).1 = ERROR_SHAPE_NOT_FOUND ∧
      (L1_DeleteShape (some impl) h).2 = some impl) ∧
    (L1_DeleteShape (L1_DeleteShape (some impl) h).2 h).1 = ERROR_SHAPE_NOT_FOUND := by
  have hafter : (L1_DeleteShape (some impl) h).2 = some (impl.Remove h).2 := by
    unfold L1_DeleteShape
    dsimp only
    split <;> rfl
  have hgone : (impl.Remove h).2.Find h = none := by
    simp only [ShapeRegistry.Remove, ShapeRegistry.Find, if_true]
  refine ⟨?_, ?_, ?_, ?_⟩
  · unfold L1_DeleteShape
    dsimp only
    cases hf : impl.Find h with
    | none =>
      have : (impl.Remove h).1 = false := by
        simp only [ShapeRegistry.Remove]
        rw [show impl.shapes_ h = none from hf]
        rfl
      simp [this]
    | some s =>
      have : (impl.Remove h).1 = true := by
        simp only [ShapeRegistry.Remove]
        rw [show impl.shapes_ h = some s from hf]
        rfl
      simp [this]
  · intro _
    refine ⟨_, hafter, hgone, ?_⟩
    intro k hk
    simp only [ShapeRegistry.Remove, ShapeRegistry.Find]
    rw [if_neg hk]
  · intro hf
    have hrem : (impl.Remove h).1 = false := by
      simp only [ShapeRegistry.Remove]
      rw [show impl.shapes_ h = none from hf]
      rfl
    constructor
    · unfold L1_DeleteShape
      dsimp only
      simp [hrem]
    · rw [hafter]
      congr 1
      cases impl with
      | mk n f =>
        simp only [ShapeRegistry.Remove, ShapeRegistry.mk.injEq, true_and]
        funext k
        by_cases hk : k = h
        · rw [if_pos hk, hk]
          exact hf.symm
        · rw [if_neg hk]
  · rw [hafter]
    have hrem : ((impl.Remove h).2.Remove h).1 = false := by
      have := hgone
      simp only [ShapeRegistry.Find] at this
      simp only [ShapeRegistry.Remove] at this ⊢
      rw [this]
      rfl
    unfold L1_DeleteShape
    dsimp only
    simp [hrem]
/-! ## The loop of the `FEAT_TURN_ID` profile -/

theorem turnIdSegment_rejects (K : OcctKernel) (turn : TurnIdFeatureDto) (origin : Vec3)
    (dir : K.gp_Dir) (loopVars : K.TopoDS_Shape × Bool) (i : Nat) (m : Machine K.TopoDS_Shape)
    (h : turn.rejects i) :
    turnIdSegment K turn origin dir loopVars i m =
      (.ret 1, { m with outResult := { m.outResult with errorCode := 1 } }) := by
  unfold TurnIdFeatureDto.rejects at h
  simp only [turnIdSegment, if_pos h, Exec.bind_apply, errorReturn_apply]

theorem turnIdSegment_skips (K : OcctKernel) (turn : TurnIdFeatureDto) (origin : Vec3)
    (dir : K.gp_Dir) (loopVars : K.TopoDS_Shape × Bool) (i : Nat) (m : Machine K.TopoDS_Shape)
    (h : ¬ turn.rejects i) (hlen : doubleSub (turn.profileZ (i + 1)) (turn.profileZ i) ≤ roundDouble 1.0e-9) :
    turnIdSegment K turn origin dir loopVars i m = (.next loopVars, m) := by
  unfold TurnIdFeatureDto.rejects at h
  simp only [turnIdSegment, if_neg h, if_pos hlen, Exec.bind_apply, Exec.pure_apply]

theorem turnIdSegment_notKept (K : OcctKernel) (turn : TurnIdFeatureDto) (origin : Vec3)
    (dir : K.gp_Dir) (loopVars : K.TopoDS_Shape × Bool) (i : Nat) (m : Machine K.TopoDS_Shape)
    (h : turn.notKept i) :
    turnIdSegment K turn origin dir loopVars i m = (.next loopVars, m) ∨
    turnIdSegment K turn origin dir loopVars i m =
      (.ret 1, { m with outResult := { m.outResult with errorCode := 1 } }) := by
  by_cases hr : turn.rejects i
  · exact Or.inr (turnIdSegment_rejects K turn origin dir loopVars i m hr)
  · left
    apply turnIdSegment_skips K turn origin dir loopVars i m hr
    rcases h with h | h
    · exact absurd (Or.inl h) hr
    · exact h

theorem turnIdLoop_notKept (K : OcctKernel) (turn : TurnIdFeatureDto) (origin : Vec3)
    (dir : K.gp_Dir) (l : List Nat) (hl : ∀ i ∈ l, turn.notKept i) :
    ∀ (loopVars : K.TopoDS_Shape × Bool) (m : Machine K.TopoDS_Shape),
      List.foldlM (turnIdSegment K turn origin dir) loopVars l m = (.next loopVars, m) ∨
      List.foldlM (turnIdSegment K turn origin dir) loopVars l m =
        (.ret 1, { m with outResult := { m.outResult with errorCode := 1 } }) := by
  induction l with
  | nil => intro loopVars m; exact Or.inl rfl
  | cons a l ih =>
    intro loopVars m
    rw [List.foldlM_cons, Exec.bind_apply]
    rcases turnIdSegment_notKept K turn origin dir loopVars a m (hl a (List.mem_cons_self a l))
      with hs | hs
    · rw [hs]
      exact ih (fun i hi => hl i (List.mem_cons_of_mem a hi)) loopVars m
    · rw [hs]
      exact Or.inr rfl

theorem turnIdLoop_rejects_not_next (K : OcctKernel) (turn : TurnIdFeatureDto) (origin : Vec3)
    (dir : K.gp_Dir) (l : List Nat) (hl : ∃ i ∈ l, turn.rejects i) :
    ∀ (loopVars : K.TopoDS_Shape × Bool) (m : Machine K.TopoDS_Shape) vars m1,
      List.foldlM (turnIdSegment K turn origin dir) loopVars l m ≠ (.next vars, m1) := by
  induction l with
  | nil =>
    obtain ⟨i, hi, -⟩ := hl
    cases hi
  | cons a l ih =>
    intro loopVars m vars m1
    rw [List.foldlM_cons, Exec.bind_apply]
    by_cases ha : turn.rejects a
    · rw [turnIdSegment_rejects K turn origin dir loopVars a m ha]
      intro h
      cases h
    · rcases hs : turnIdSegment K turn origin dir loopVars a m with ⟨fl, m2⟩
      cases fl with
      | next v =>
        apply ih
        obtain ⟨i, hi, hr⟩ := hl
        rcases List.mem_cons.1 hi with rfl | hi
        · exact absurd hr ha
        · exact ⟨i, hi, hr⟩
      | ret c => intro h; cases h
      | raise => intro h; cases h

theorem Exec.foldlM_append {S α β : Type} (f : β → α → Exec S β) (l1 l2 : List α) :
    ∀ (b : β) (m : Machine S),
      List.foldlM f b (l1 ++ l2) m =
        match List.foldlM f b l1 m with
        | (.next b1, m1) => List.foldlM f b1 l2 m1
        | (.ret c, m1) => (.ret c, m1)
        | (.raise, m1) => (.raise, m1) := by
  induction l1 with
  | nil => intro b m; rfl
  | cons a l1 ih =>
    intro b m
    rw [List.cons_append, List.foldlM_cons, List.foldlM_cons, Exec.bind_apply, Exec.bind_apply]
    rcases f b a m with ⟨fl, m2⟩
    cases fl with
    | next v => exact ih v m2
    | ret c => rfl
    | raise => rfl

theorem turnIdLoop_notKept_then_rejects (K : OcctKernel) (turn : TurnIdFeatureDto)
    (origin : Vec3) (dir : K.gp_Dir) (l1 l2 : List Nat) (i : Nat)
    (hl : ∀ j ∈ l1, turn.notKept j) (hi : turn.rejects i)
    (loopVars : K.TopoDS_Shape × Bool) (m : Machine K.TopoDS_Shape) :
    List.foldlM (turnIdSegment K turn origin dir) loopVars (l1 ++ i :: l2) m =
      (.ret 1, { m with outResult := { m.outResult with errorCode := 1 } }) := by
  rw [Exec.foldlM_append]
  rcases turnIdLoop_notKept K turn origin dir l1 hl loopVars m with h | h
  · rw [h]
    dsimp only
    rw [List.foldlM_cons, Exec.bind_apply, turnIdSegment_rejects K turn origin dir loopVars i m hi]
  · rw [h]

theorem range_split_at (n i : Nat) (h : i < n) :
    ∃ l2, List.range n = List.range i ++ i :: l2 := by
  obtain ⟨k, rfl⟩ : ∃ k, n = i + (k + 1) := ⟨n - i - 1, by omega⟩
  refine ⟨(List.range k).map (fun j => i + (j + 1)), ?_⟩
  rw [List.range_add, List.range_succ_eq_map, List.map_cons, List.map_map]
  rfl

theorem mem_range_segments (count : Int) (i : Nat) (h : (i : Int) + 1 < count) :
    i ∈ List.range (count - 1).toNat := by
  rw [List.mem_range]
  omega

theorem mem_range_segments_lt (count : Int) (i : Nat) (h : i ∈ List.range (count - 1).toNat) :
    (i : Int) + 1 < count := by
  rw [List.mem_range] at h
  omega

theorem caseTurnId_profile (K : OcctKernel) (turn : TurnIdFeatureDto)
    (m : Machine K.TopoDS_Shape) (hcount : turn.profileCount > 1) :
    caseTurnId K turn m =
      match K.mkDir turn.axis.dir with
      | .raise => (.raise, { m with calls := m.calls ++ [KCall.gp_Dir] })
      | .value d =>
        match List.foldlM (turnIdSegment K turn turn.axis.origin d) (K.nullShape, false)
            (List.range (turn.profileCount - 1).toNat)
            { m with calls := m.calls ++ [KCall.gp_Dir] } with
        | (.next vars, m1) =>
          if vars.2 = false then
            (.ret 1, { m1 with outResult := { m1.outResult with errorCode := 1 } })
          else (.next vars.1, m1)
        | (.ret c, m1) => (.ret c, m1)
        | (.raise, m1) => (.raise, m1) := by
  simp only [caseTurnId, if_pos hcount, Exec.bind_apply]
  cases hd : K.mkDir turn.axis.dir with
  | raise => rfl
  | value d =>
    simp only [call_value]
    rcases List.foldlM (turnIdSegment K turn turn.axis.origin d) (K.nullShape, false)
      (List.range (turn.profileCount - 1).toNat) _ with ⟨fl, m1⟩
    cases fl with
    | next vars =>
      dsimp only
      cases hv : vars.2 with
      | false => simp [Exec.bind_apply, errorReturn_apply]
      | true => simp [Exec.bind_apply, Exec.pure_apply]
    | ret c => rfl
    | raise => rfl

theorem caseTurnId_rejects_not_next (K : OcctKernel) (turn : TurnIdFeatureDto)
    (m : Machine K.TopoDS_Shape) (hcount : turn.profileCount > 1) (i : Nat)
    (hi : (i : Int) + 1 < turn.profileCount) (hr : turn.rejects i) (tool : K.TopoDS_Shape) :
    (caseTurnId K turn m).1 ≠ .next tool := by
  rw [caseTurnId_profile K turn m hcount]
  cases hd : K.mkDir turn.axis.dir with
  | raise => intro h; cases h
  | value d =>
    dsimp only
    rcases hf : List.foldlM (turnIdSegment K turn turn.axis.origin d) (K.nullShape, false)
      (List.range (turn.profileCount - 1).toNat)
      { m with calls := m.calls ++ [KCall.gp_Dir] } with ⟨fl, m1⟩
    cases fl with
    | next vars =>
      exact absurd hf (turnIdLoop_rejects_not_next K turn turn.axis.origin d _
        ⟨i, mem_range_segments _ i hi, hr⟩ _ _ _ _)
    | ret c => intro h; cases h
    | raise => intro h; cases h

theorem caseTurnId_notKept_then_rejects (K : OcctKernel) (turn : TurnIdFeatureDto)
    (m : Machine K.TopoDS_Shape) (hcount : turn.profileCount > 1) (i : Nat)
    (hi : (i : Int) + 1 < turn.profileCount) (hr : turn.rejects i)
    (hbefore : ∀ j, j < i → turn.notKept j) (d : K.gp_Dir)
    (hd : K.mkDir turn.axis.dir = .value d) :
    caseTurnId K turn m =
      (.ret 1, { m with calls := m.calls ++ [KCall.gp_Dir],
                        outResult := { m.outResult with errorCode := 1 } }) := by
  rw [caseTurnId_profile K turn m hcount, hd]
  dsimp only
  obtain ⟨l2, hl2⟩ := range_split_at (turn.profileCount - 1).toNat i
    (List.mem_range.1 (mem_range_segments _ i hi))
  rw [hl2, turnIdLoop_notKept_then_rejects K turn turn.axis.origin d (List.range i) l2 i
    (fun j hj => hbefore j (List.mem_range.1 hj)) hr]

theorem caseTurnId_all_notKept (K : OcctKernel) (turn : TurnIdFeatureDto)
    (m : Machine K.TopoDS_Shape) (hcount : turn.profileCount > 1)
    (hall : ∀ i : Nat, (i : Int) + 1 < turn.profileCount → turn.notKept i) :
    caseTurnId K turn m = (.raise, { m with calls := m.calls ++ [KCall.gp_Dir] }) ∨
    caseTurnId K turn m =
      (.ret 1, { m with calls := m.calls ++ [KCall.gp_Dir],
                        outResult := { m.outResult with errorCode := 1 } }) := by
  rw [caseTurnId_profile K turn m hcount]
  cases hd : K.mkDir turn.axis.dir with
  | raise => exact Or.inl rfl
  | value d =>
    right
    dsimp only
    rcases turnIdLoop_notKept K turn turn.axis.origin d _
      (fun i hi => hall i (mem_range_segments_lt _ i hi)) (K.nullShape, false)
      { m with calls := m.calls ++ [KCall.gp_Dir] } with h | h
    · rw [h]
      rfl
    · rw [h]

/-! ## The loop of the `FEAT_TURN_OD` profile -/

theorem turnOdSegment_rejects (K : OcctKernel) (turn : TurnOdFeatureDto) (origin : Vec3)
    (dir : K.gp_Dir) (bound : Rat) (loopVars : K.TopoDS_Shape × Bool) (i : Nat)
    (m : Machine K.TopoDS_Shape) (h : turn.rejects i) :
    turnOdSegment K turn origin dir bound loopVars i m =
      (.ret 1, { m with outResult := { m.outResult with errorCode := 1 } }) := by
  unfold TurnOdFeatureDto.rejects at h
  simp only [turnOdSegment, if_pos h, Exec.bind_apply, errorReturn_apply]

theorem turnOdSegment_skips (K : OcctKernel) (turn : TurnOdFeatureDto) (origin : Vec3)
    (dir : K.gp_Dir) (bound : Rat) (loopVars : K.TopoDS_Shape × Bool) (i : Nat)
    (m : Machine K.TopoDS_Shape) (h : ¬ turn.rejects i)
    (hskip : doubleSub (turn.profileZ (i + 1)) (turn.profileZ i) ≤ roundDouble 1.0e-9 ∨
      turn.profileRadius i ≥ doubleSub bound (roundDouble 1.0e-9)) :
    turnOdSegment K turn origin dir bound loopVars i m = (.next loopVars, m) := by
  unfold TurnOdFeatureDto.rejects at h
  by_cases hlen : doubleSub (turn.profileZ (i + 1)) (turn.profileZ i) ≤ roundDouble 1.0e-9
  · simp only [turnOdSegment, if_neg h, if_pos hlen, Exec.bind_apply, Exec.pure_apply]
  · have hrad : turn.profileRadius i ≥ doubleSub bound (roundDouble 1.0e-9) := by
      rcases hskip with hs | hs
      · exact absurd hs hlen
      · exact hs
    simp only [turnOdSegment, if_neg h, if_neg hlen, if_pos hrad, Exec.bind_apply,
      Exec.pure_apply]

theorem turnOdSegment_notKept (K : OcctKernel) (turn : TurnOdFeatureDto) (origin : Vec3)
    (dir : K.gp_Dir) (bound : Rat) (loopVars : K.TopoDS_Shape × Bool) (i : Nat)
    (m : Machine K.TopoDS_Shape) (h : turn.notKept bound i) :
    turnOdSegment K turn origin dir bound loopVars i m = (.next loopVars, m) ∨
    turnOdSegment K turn origin dir bound loopVars i m =
      (.ret 1, { m with outResult := { m.outResult with errorCode := 1 } }) := by
  by_cases hr : turn.rejects i
  · exact Or.inr (turnOdSegment_rejects K turn origin dir bound loopVars i m hr)
  · left
    apply turnOdSegment_skips K turn origin dir bound loopVars i m hr
    rcases h with h | h
    · exact absurd (Or.inl h) hr
    · exact h

theorem turnOdLoop_notKept (K : OcctKernel) (turn : TurnOdFeatureDto) (origin : Vec3)
    (dir : K.gp_Dir) (bound : Rat) (l : List Nat) (hl : ∀ i ∈ l, turn.notKept bound i) :
    ∀ (loopVars : K.TopoDS_Shape × Bool) (m : Machine K.TopoDS_Shape),
      List.foldlM (turnOdSegment K turn origin dir bound) loopVars l m = (.next loopVars, m) ∨
      List.foldlM (turnOdSegment K turn origin dir bound) loopVars l m =
        (.ret 1, { m with outResult := { m.outResult with errorCode := 1 } }) := by
  induction l with
  | nil => intro loopVars m; exact Or.inl rfl
  | cons a l ih =>
    intro loopVars m
    rw [List.foldlM_cons, Exec.bind_apply]
    rcases turnOdSegment_notKept K turn origin dir bound loopVars a m
      (hl a (List.mem_cons_self a l)) with hs | hs
    · rw [hs]
      exact ih (fun i hi => hl i (List.mem_cons_of_mem a hi)) loopVars m
    · rw [hs]
      exact Or.inr rfl

theorem turnOdLoop_rejects_not_next (K : OcctKernel) (turn : TurnOdFeatureDto) (origin : Vec3)
    (dir : K.gp_Dir) (bound : Rat) (l : List Nat) (hl : ∃ i ∈ l, turn.rejects i) :
    ∀ (loopVars : K.TopoDS_Shape × Bool) (m : Machine K.TopoDS_Shape) vars m1,
      List.foldlM (turnOdSegment K turn origin dir bound) loopVars l m ≠ (.next vars, m1) := by
  induction l with
  | nil =>
    obtain ⟨i, hi, -⟩ := hl
    cases hi
  | cons a l ih =>
    intro loopVars m vars m1
    rw [List.foldlM_cons, Exec.bind_apply]
    by_cases ha : turn.rejects a
    · rw [turnOdSegment_rejects K turn origin dir bound loopVars a m ha]
      intro h
      cases h
    · rcases hs : turnOdSegment K turn origin dir bound loopVars a m with ⟨fl, m2⟩
      cases fl with
      | next v =>
        apply ih
        obtain ⟨i, hi, hr⟩ := hl
        rcases List.mem_cons.1 hi with rfl | hi
        · exact absurd hr ha
        · exact ⟨i, hi, hr⟩
      | ret c => intro h; cases h
      | raise => intro h; cases h

theorem turnOdLoop_notKept_then_rejects (K : OcctKernel) (turn : TurnOdFeatureDto)
    (origin : Vec3) (dir : K.gp_Dir) (bound : Rat) (l1 l2 : List Nat) (i : Nat)
    (hl : ∀ j ∈ l1, turn.notKept bound j) (hi : turn.rejects i)
    (loopVars : K.TopoDS_Shape × Bool) (m : Machine K.TopoDS_Shape) :
    List.foldlM (turnOdSegment K turn origin dir bound) loopVars (l1 ++ i :: l2) m =
      (.ret 1, { m with outResult := { m.outResult with errorCode := 1 } }) := by
  rw [Exec.foldlM_append]
  rcases turnOdLoop_notKept K turn origin dir bound l1 hl loopVars m with h | h
  · rw [h]
    dsimp only
    rw [List.foldlM_cons, Exec.bind_apply,
      turnOdSegment_rejects K turn origin dir bound loopVars i m hi]
  · rw [h]

theorem caseTurnOd_raise (K : OcctKernel) (stock : K.TopoDS_Shape) (turn : TurnOdFeatureDto)
    (m : Machine K.TopoDS_Shape) (hb : K.BndAdd stock = .raise) :
    caseTurnOd K stock turn m = (.raise, { m with calls := m.calls ++ [KCall.BndAdd] }) := by
  simp only [caseTurnOd, Exec.bind_apply, hb, call_raise]

theorem caseTurnOd_void (K : OcctKernel) (stock : K.TopoDS_Shape) (turn : TurnOdFeatureDto)
    (m : Machine K.TopoDS_Shape) (stockBox : Bnd_Box) (hb : K.BndAdd stock = .value stockBox)
    (hv : stockBox.IsVoid = true) :
    caseTurnOd K stock turn m =
      (.ret 5, { m with calls := m.calls ++ [KCall.BndAdd],
                        outResult := { m.outResult with errorCode := 5 } }) := by
  simp only [caseTurnOd, Exec.bind_apply, hb, call_value, hv, if_true, errorReturn_apply]

theorem caseTurnOd_single_invalid (K : OcctKernel) (stock : K.TopoDS_Shape)
    (turn : TurnOdFeatureDto) (m : Machine K.TopoDS_Shape) (stockBox : Bnd_Box)
    (hb : K.BndAdd stock = .value stockBox) (hv : stockBox.IsVoid = false)
    (hcount : ¬ turn.profileCount > 1) (hdim : turn.targetDiameter ≤ 0 ∨ turn.length ≤ 0) :
    caseTurnOd K stock turn m =
      (.ret 1, { m with calls := m.calls ++ [KCall.BndAdd],
                        outResult := { m.outResult with errorCode := 1 } }) := by
  simp only [caseTurnOd, Exec.bind_apply, hb, call_value, hv, Bool.false_eq_true, if_false,
    Exec.pure_apply, if_neg hcount, if_pos hdim, errorReturn_apply]

theorem caseTurnOd_profile (K : OcctKernel) (stock : K.TopoDS_Shape) (turn : TurnOdFeatureDto)
    (m : Machine K.TopoDS_Shape) (stockBox : Bnd_Box)
    (hb : K.BndAdd stock = .value stockBox) (hv : stockBox.IsVoid = false)
    (hcount : turn.profileCount > 1) :
    caseTurnOd K stock turn m =
      match K.mkDir turn.axis.dir with
      | .raise => (.raise, { m with calls := m.calls ++ [KCall.BndAdd, KCall.gp_Dir] })
      | .value d =>
        match List.foldlM (turnOdSegment K turn turn.axis.origin d stockBox.doubleOuterRadius)
            (K.nullShape, false) (List.range (turn.profileCount - 1).toNat)
            { m with calls := m.calls ++ [KCall.BndAdd, KCall.gp_Dir] } with
        | (.next vars, m1) =>
          if vars.2 = false then
            (.ret 1, { m1 with outResult := { m1.outResult with errorCode := 1 } })
          else (.next vars.1, m1)
        | (.ret c, m1) => (.ret c, m1)
        | (.raise, m1) => (.raise, m1) := by
  simp only [caseTurnOd, Exec.bind_apply, hb, call_value, hv, Bool.false_eq_true, if_false,
    Exec.pure_apply, if_pos hcount, Bnd_Box.doubleOuterRadius]
  cases hd : K.mkDir turn.axis.dir with
  | raise => simp [call_raise]
  | value d =>
    simp only [call_value, List.append_assoc, List.singleton_append]
    rcases List.foldlM (turnOdSegment K turn turn.axis.origin d _) (K.nullShape, false)
      (List.range (turn.profileCount - 1).toNat) _ with ⟨fl, m1⟩
    cases fl with
    | next vars =>
      dsimp only
      cases hv : vars.2 with
      | false => simp [Exec.bind_apply, errorReturn_apply]
      | true => simp [Exec.bind_apply, Exec.pure_apply]
    | ret c => rfl
    | raise => rfl

theorem caseTurnOd_rejects_not_next (K : OcctKernel) (stock : K.TopoDS_Shape)
    (turn : TurnOdFeatureDto) (m : Machine K.TopoDS_Shape) (hcount : turn.profileCount > 1)
    (i : Nat) (hi : (i : Int) + 1 < turn.profileCount) (hr : turn.rejects i)
    (tool : K.TopoDS_Shape) :
    (caseTurnOd K stock turn m).1 ≠ .next tool := by
  cases hb : K.BndAdd stock with
  | raise =>
    rw [caseTurnOd_raise K stock turn m hb]
    intro h
    cases h
  | value stockBox =>
    cases hv : stockBox.IsVoid with
    | true =>
      rw [caseTurnOd_void K stock turn m stockBox hb hv]
      intro h
      cases h
    | false =>
      rw [caseTurnOd_profile K stock turn m stockBox hb hv hcount]
      cases hd : K.mkDir turn.axis.dir with
      | raise => intro h; cases h
      | value d =>
        dsimp only
        rcases hf : List.foldlM
          (turnOdSegment K turn turn.axis.origin d stockBox.doubleOuterRadius)
          (K.nullShape, false) (List.range (turn.profileCount - 1).toNat)
          { m with calls := m.calls ++ [KCall.BndAdd, KCall.gp_Dir] } with ⟨fl, m1⟩
        cases fl with
        | next vars =>
          exact absurd hf (turnOdLoop_rejects_not_next K turn turn.axis.origin d _ _
            ⟨i, mem_range_segments _ i hi, hr⟩ _ _ _ _)
        | ret c => intro h; cases h
        | raise => intro h; cases h

theorem caseTurnOd_notKept_then_rejects (K : OcctKernel) (stock : K.TopoDS_Shape)
    (turn : TurnOdFeatureDto) (m : Machine K.TopoDS_Shape) (stockBox : Bnd_Box)
    (hb : K.BndAdd stock = .value stockBox) (hv : stockBox.IsVoid = false)
    (hcount : turn.profileCount > 1) (i : Nat)
    (hi : (i : Int) + 1 < turn.profileCount) (hr : turn.rejects i)
    (hbefore : ∀ j, j < i → turn.notKept stockBox.doubleOuterRadius j) (d : K.gp_Dir)
    (hd : K.mkDir turn.axis.dir = .value d) :
    caseTurnOd K stock turn m =
      (.ret 1, { m with calls := m.calls ++ [KCall.BndAdd, KCall.gp_Dir],
                        outResult := { m.outResult with errorCode := 1 } }) := by
  rw [caseTurnOd_profile K stock turn m stockBox hb hv hcount, hd]
  dsimp only
  obtain ⟨l2, hl2⟩ := range_split_at (turn.profileCount - 1).toNat i
    (List.mem_range.1 (mem_range_segments _ i hi))
  rw [hl2, turnOdLoop_notKept_then_rejects K turn turn.axis.origin d _ (List.range i) l2 i
    (fun j hj => hbefore j (List.mem_range.1 hj)) hr]

theorem caseTurnOd_all_notKept (K : OcctKernel) (stock : K.TopoDS_Shape)
    (turn : TurnOdFeatureDto) (m : Machine K.TopoDS_Shape) (stockBox : Bnd_Box)
    (hb : K.BndAdd stock = .value stockBox) (hv : stockBox.IsVoid = false)
    (hcount : turn.profileCount > 1)
    (hall : ∀ i : Nat, (i : Int) + 1 < turn.profileCount →
      turn.notKept stockBox.doubleOuterRadius i) :
    caseTurnOd K stock turn m =
      (.raise, { m with calls := m.calls ++ [KCall.BndAdd, KCall.gp_Dir] }) ∨
    caseTurnOd K stock turn m =
      (.ret 1, { m with calls := m.calls ++ [KCall.BndAdd, KCall.gp_Dir],
                        outResult := { m.outResult with errorCode := 1 } }) := by
  rw [caseTurnOd_profile K stock turn m stockBox hb hv hcount]
  cases hd : K.mkDir turn.axis.dir with
  | raise => exact Or.inl rfl
  | value d =>
    right
    dsimp only
    rcases turnOdLoop_notKept K turn turn.axis.origin d _ _
      (fun i hi => hall i (mem_range_segments_lt _ i hi)) (K.nullShape, false)
      { m with calls := m.calls ++ [KCall.BndAdd, KCall.gp_Dir] } with h | h
    · rw [h]
      rfl
    · rw [h]

/-! ## From the tool switch to `L1_ApplyFeature` -/

theorem toolSwitch_drill (K : OcctKernel) (stock : K.TopoDS_Shape) (feature : FeatureDto)
    (h : feature.type = FEAT_DRILL) : toolSwitch K stock feature = caseDrill K feature.u.drill := by
  simp only [toolSwitch, h, if_true]

theorem toolSwitch_pocketRect (K : OcctKernel) (stock : K.TopoDS_Shape) (feature : FeatureDto)
    (h : feature.type = FEAT_POCKET_RECT) :
    toolSwitch K stock feature = casePocketRect K feature.u.pocketRect := by
  simp [toolSwitch, h]

theorem toolSwitch_turnOd (K : OcctKernel) (stock : K.TopoDS_Shape) (feature : FeatureDto)
    (h : feature.type = FEAT_TURN_OD) :
    toolSwitch K stock feature = caseTurnOd K stock feature.u.turnOd := by
  simp [toolSwitch, h]

theorem toolSwitch_turnId (K : OcctKernel) (stock : K.TopoDS_Shape) (feature : FeatureDto)
    (h : feature.type = FEAT_TURN_ID) :
    toolSwitch K stock feature = caseTurnId K feature.u.turnId := by
  simp [toolSwitch, h]

theorem L1_ApplyFeature_of_ret (K : OcctKernel) (impl : ShapeRegistry K.TopoDS_Shape)
    (stockId : Int) (stock : K.TopoDS_Shape) (feature : FeatureDto) (out : OperationResult)
    (hfind : impl.Find stockId = some stock) (c : Int) (m : Machine K.TopoDS_Shape)
    (h : toolSwitch K stock feature (entryMachine impl out) = (.ret c, m)) :
    L1_ApplyFeature K (some impl) stockId (some feature) (some out) =
      ⟨c, some m.registry, some m.outResult, m.calls⟩ := by
  rw [L1_ApplyFeature_found K impl stockId stock feature out hfind, h]

theorem L1_ApplyFeature_of_raise (K : OcctKernel) (impl : ShapeRegistry K.TopoDS_Shape)
    (stockId : Int) (stock : K.TopoDS_Shape) (feature : FeatureDto) (out : OperationResult)
    (hfind : impl.Find stockId = some stock) (m : Machine K.TopoDS_Shape)
    (h : toolSwitch K stock feature (entryMachine impl out) = (.raise, m)) :
    L1_ApplyFeature K (some impl) stockId (some feature) (some out) =
      ⟨4, some m.registry, some { m.outResult with errorCode := 4 }, m.calls⟩ := by
  rw [L1_ApplyFeature_found K impl stockId stock feature out hfind, h]

theorem L1_ApplyFeature_of_not_next (K : OcctKernel) (impl : ShapeRegistry K.TopoDS_Shape)
    (stockId : Int) (stock : K.TopoDS_Shape) (feature : FeatureDto) (out : OperationResult)
    (hfind : impl.Find stockId = some stock)
    (h : ∀ tool, (toolSwitch K stock feature (entryMachine impl out)).1 ≠ .next tool) :
    (L1_ApplyFeature K (some impl) stockId (some feature) (some out)).status ≠ 0 ∧
    (L1_ApplyFeature K (some impl) stockId (some feature) (some out)).kernel = some impl ∧
    ∃ code, (L1_ApplyFeature K (some impl) stockId (some feature) (some out)).outResult =
      some ⟨0, 0, code⟩ := by
  rcases L1_ApplyFeature_outcome K impl stockId stock feature out hfind with
    hfail | ⟨tool, -, -, hts, -⟩
  · exact hfail
  · exact absurd hts (h tool)

theorem caseDrill_invalid (K : OcctKernel) (drill : DrillFeatureDto)
    (m : Machine K.TopoDS_Shape) (h : drill.radius ≤ 0 ∨ drill.depth ≤ 0) :
    caseDrill K drill m = (.ret 1, { m with outResult := { m.outResult with errorCode := 1 } }) := by
  simp only [caseDrill, if_pos h, Exec.bind_apply, errorReturn_apply]

theorem casePocketRect_invalid (K : OcctKernel) (pocket : PocketRectFeatureDto)
    (m : Machine K.TopoDS_Shape)
    (h : pocket.width ≤ 0 ∨ pocket.height ≤ 0 ∨ pocket.depth ≤ 0) :
    casePocketRect K pocket m =
      (.ret 1, { m with outResult := { m.outResult with errorCode := 1 } }) := by
  simp only [casePocketRect, if_pos h, Exec.bind_apply, errorReturn_apply]

theorem caseTurnId_single_invalid (K : OcctKernel) (turn : TurnIdFeatureDto)
    (m : Machine K.TopoDS_Shape) (hcount : ¬ turn.profileCount > 1)
    (h : turn.targetDiameter ≤ 0 ∨ turn.length ≤ 0) :
    caseTurnId K turn m = (.ret 1, { m with outResult := { m.outResult with errorCode := 1 } }) := by
  simp only [caseTurnId, if_neg hcount, if_pos h, Exec.bind_apply, errorReturn_apply]
/-! ## The stepped inner profile -/

theorem doubleSub_10_0 : doubleSub 10 0 = 10 := by decide!

theorem doubleSub_10_10 : doubleSub 10 10 = 0 := by decide!

theorem doubleSub_20_10 : doubleSub 20 10 = 10 := by decide!

theorem roundDouble_literal_nonneg : 0 ≤ roundDouble 1.0e-9 := by decide!

theorem roundDouble_literal_lt_10 : roundDouble 1.0e-9 < 10 := by decide!

theorem Vec3.Translated_zero (p v : Vec3) : p.Translated (v.Multiplied 0) = p := by
  cases p
  simp [Vec3.Translated, Vec3.Multiplied]

theorem caseTurnId_single (K : OcctKernel) (turn : TurnIdFeatureDto)
    (m : Machine K.TopoDS_Shape) (hcount : ¬ turn.profileCount > 1)
    (hdim : ¬ (turn.targetDiameter ≤ 0 ∨ turn.length ≤ 0)) :
    caseTurnId K turn m =
      match K.mkDir turn.axis.dir with
      | .raise => (.raise, { m with calls := m.calls ++ [KCall.gp_Dir] })
      | .value d =>
        match K.mkAx2 turn.axis.origin d with
        | .raise => (.raise, { m with calls := m.calls ++ [KCall.gp_Dir, KCall.gp_Ax2] })
        | .value ax =>
          match K.MakeCylinderAt ax (turn.targetDiameter * 0.5) turn.length with
          | .raise =>
            (.raise, { m with calls := m.calls ++
              [KCall.gp_Dir, KCall.gp_Ax2, KCall.MakeCylinder] })
          | .value s =>
            (.next s, { m with calls := m.calls ++
              [KCall.gp_Dir, KCall.gp_Ax2, KCall.MakeCylinder] }) := by
  simp only [caseTurnId, if_neg hcount, if_neg hdim, Exec.bind_apply, Exec.pure_apply]
  cases K.mkDir turn.axis.dir with
  | raise => rfl
  | value d =>
    simp only [call_value]
    cases K.mkAx2 turn.axis.origin d with
    | raise => simp [call_raise]
    | value ax =>
      simp only [call_value]
      cases K.MakeCylinderAt ax (turn.targetDiameter * 0.5) turn.length with
      | raise => simp [call_raise]
      | value s => simp [call_value]

theorem caseTurnId_single_next (K : OcctKernel) (turn : TurnIdFeatureDto)
    (d : K.gp_Dir) (tool : K.TopoDS_Shape) (m : Machine K.TopoDS_Shape)
    (hcount : ¬ turn.profileCount > 1)
    (hd : K.mkDir turn.axis.dir = .value d)
    (h : (caseTurnId K turn m).1 = .next tool) :
    ∃ ax, K.mkAx2 turn.axis.origin d = .value ax ∧
      K.MakeCylinderAt ax (turn.targetDiameter * 0.5) turn.length = .value tool := by
  by_cases hdim : turn.targetDiameter ≤ 0 ∨ turn.length ≤ 0
  · rw [caseTurnId_single_invalid K turn m hcount hdim] at h
    cases h
  · rw [caseTurnId_single K turn m hcount hdim, hd] at h
    dsimp only at h
    cases hax : K.mkAx2 turn.axis.origin d with
    | raise =>
      rw [hax] at h
      cases h
    | value ax =>
      rw [hax] at h
      dsimp only at h
      cases hc : K.MakeCylinderAt ax (turn.targetDiameter * 0.5) turn.length with
      | raise =>
        rw [hc] at h
        cases h
      | value s =>
        rw [hc] at h
        cases h
        exact ⟨ax, rfl, hc⟩

theorem turnIdSegment_seeds (K : OcctKernel) (turn : TurnIdFeatureDto) (origin : Vec3)
    (dir : K.gp_Dir) (loopVars : K.TopoDS_Shape × Bool) (i : Nat) (m : Machine K.TopoDS_Shape)
    (ax : K.gp_Ax2) (s : K.TopoDS_Shape)
    (h : ¬ turn.rejects i) (hlen : ¬ doubleSub (turn.profileZ (i + 1)) (turn.profileZ i) ≤ roundDouble 1.0e-9)
    (hax : K.mkAx2 (origin.Translated ((K.dirVec dir).Multiplied (turn.profileZ i))) dir =
      .value ax)
    (hs : K.MakeCylinderAt ax (turn.profileRadius i)
      (doubleSub (turn.profileZ (i + 1)) (turn.profileZ i)) = .value s)
    (hv : loopVars.2 = false) :
    turnIdSegment K turn origin dir loopVars i m =
      (.next (s, true),
        { m with calls := m.calls ++ [KCall.gp_Ax2, KCall.MakeCylinder] }) := by
  unfold TurnIdFeatureDto.rejects at h
  simp only [turnIdSegment, if_neg h, if_neg hlen, Exec.bind_apply, Exec.pure_apply, hax,
    call_value, hs, hv, Bool.not_false, if_true, List.append_assoc, List.singleton_append]

theorem turnIdSegment_fuses (K : OcctKernel) (turn : TurnIdFeatureDto) (origin : Vec3)
    (dir : K.gp_Dir) (loopVars : K.TopoDS_Shape × Bool) (i : Nat) (m : Machine K.TopoDS_Shape)
    (ax : K.gp_Ax2) (s : K.TopoDS_Shape)
    (h : ¬ turn.rejects i) (hlen : ¬ doubleSub (turn.profileZ (i + 1)) (turn.profileZ i) ≤ roundDouble 1.0e-9)
    (hax : K.mkAx2 (origin.Translated ((K.dirVec dir).Multiplied (turn.profileZ i))) dir =
      .value ax)
    (hs : K.MakeCylinderAt ax (turn.profileRadius i)
      (doubleSub (turn.profileZ (i + 1)) (turn.profileZ i)) = .value s)
    (hv : loopVars.2 = true) :
    turnIdSegment K turn origin dir loopVars i m =
      match K.Fuse loopVars.1 s with
      | .value fuse =>
        if fuse.IsDone = true then
          (.next (fuse.Shape, true),
            { m with calls := m.calls ++ [KCall.gp_Ax2, KCall.MakeCylinder, KCall.Fuse] })
        else
          (.ret 5,
            { m with calls := m.calls ++ [KCall.gp_Ax2, KCall.MakeCylinder, KCall.Fuse],
                     outResult := { m.outResult with errorCode := 5 } })
      | .raise =>
        (.raise,
          { m with calls := m.calls ++ [KCall.gp_Ax2, KCall.MakeCylinder, KCall.Fuse] }) := by
  unfold TurnIdFeatureDto.rejects at h
  simp only [turnIdSegment, if_neg h, if_neg hlen, Exec.bind_apply, Exec.pure_apply, hax,
    call_value, hs, hv, Bool.not_true, Bool.false_eq_true, if_false, List.append_assoc,
    List.singleton_append, List.cons_append, List.nil_append]
  cases K.Fuse loopVars.1 s with
  | raise => simp [call_raise]
  | value fuse =>
    cases hd : fuse.IsDone with
    | false => simp [call_value, Exec.bind_apply, errorReturn_apply, hd]
    | true => simp [call_value, Exec.bind_apply, Exec.pure_apply, hd]

theorem turnIdSegment_fuses_done (K : OcctKernel) (turn : TurnIdFeatureDto) (origin : Vec3)
    (dir : K.gp_Dir) (loopVars : K.TopoDS_Shape × Bool) (i : Nat) (m : Machine K.TopoDS_Shape)
    (ax : K.gp_Ax2) (s : K.TopoDS_Shape) (fuse : BRepAlgoAPI K.TopoDS_Shape)
    (h : ¬ turn.rejects i) (hlen : ¬ doubleSub (turn.profileZ (i + 1)) (turn.profileZ i) ≤ roundDouble 1.0e-9)
    (hax : K.mkAx2 (origin.Translated ((K.dirVec dir).Multiplied (turn.profileZ i))) dir =
      .value ax)
    (hs : K.MakeCylinderAt ax (turn.profileRadius i)
      (doubleSub (turn.profileZ (i + 1)) (turn.profileZ i)) = .value s)
    (hv : loopVars.2 = true) (hf : K.Fuse loopVars.1 s = .value fuse)
    (hdone : fuse.IsDone = true) :
    turnIdSegment K turn origin dir loopVars i m =
      (.next (fuse.Shape, true),
        { m with calls := m.calls ++ [KCall.gp_Ax2, KCall.MakeCylinder, KCall.Fuse] }) := by
  rw [turnIdSegment_fuses K turn origin dir loopVars i m ax s h hlen hax hs hv, hf]
  dsimp only
  rw [if_pos hdone]

theorem turnIdSegment_fuses_notDone (K : OcctKernel) (turn : TurnIdFeatureDto) (origin : Vec3)
    (dir : K.gp_Dir) (loopVars : K.TopoDS_Shape × Bool) (i : Nat) (m : Machine K.TopoDS_Shape)
    (ax : K.gp_Ax2) (s : K.TopoDS_Shape) (fuse : BRepAlgoAPI K.TopoDS_Shape)
    (h : ¬ turn.rejects i) (hlen : ¬ doubleSub (turn.profileZ (i + 1)) (turn.profileZ i) ≤ roundDouble 1.0e-9)
    (hax : K.mkAx2 (origin.Translated ((K.dirVec dir).Multiplied (turn.profileZ i))) dir =
      .value ax)
    (hs : K.MakeCylinderAt ax (turn.profileRadius i)
      (doubleSub (turn.profileZ (i + 1)) (turn.profileZ i)) = .value s)
    (hv : loopVars.2 = true) (hf : K.Fuse loopVars.1 s = .value fuse)
    (hdone : fuse.IsDone = false) :
    turnIdSegment K turn origin dir loopVars i m =
      (.ret 5,
        { m with calls := m.calls ++ [KCall.gp_Ax2, KCall.MakeCylinder, KCall.Fuse],
                 outResult := { m.outResult with errorCode := 5 } }) := by
  rw [turnIdSegment_fuses K turn origin dir loopVars i m ax s h hlen hax hs hv, hf]
  dsimp only
  rw [if_neg (by rw [hdone]; decide)]

theorem turnIdSegment_fuses_raise (K : OcctKernel) (turn : TurnIdFeatureDto) (origin : Vec3)
    (dir : K.gp_Dir) (loopVars : K.TopoDS_Shape × Bool) (i : Nat) (m : Machine K.TopoDS_Shape)
    (ax : K.gp_Ax2) (s : K.TopoDS_Shape)
    (h : ¬ turn.rejects i) (hlen : ¬ doubleSub (turn.profileZ (i + 1)) (turn.profileZ i) ≤ roundDouble 1.0e-9)
    (hax : K.mkAx2 (origin.Translated ((K.dirVec dir).Multiplied (turn.profileZ i))) dir =
      .value ax)
    (hs : K.MakeCylinderAt ax (turn.profileRadius i)
      (doubleSub (turn.profileZ (i + 1)) (turn.profileZ i)) = .value s)
    (hv : loopVars.2 = true) (hf : K.Fuse loopVars.1 s = .raise) :
    turnIdSegment K turn origin dir loopVars i m =
      (.raise,
        { m with calls := m.calls ++ [KCall.gp_Ax2, KCall.MakeCylinder, KCall.Fuse] }) := by
  rw [turnIdSegment_fuses K turn origin dir loopVars i m ax s h hlen hax hs hv, hf]

theorem Exec.bind_next {S α β : Type} (x : Exec S α) (f : α → Exec S β) (m m1 : Machine S)
    (a : α) (h : x m = (.next a, m1)) : (x >>= f) m = f a m1 := by
  rw [Exec.bind_apply, h]

theorem Exec.bind_ret {S α β : Type} (x : Exec S α) (f : α → Exec S β) (m m1 : Machine S)
    (c : Int) (h : x m = (.ret c, m1)) : (x >>= f) m = (.ret c, m1) := by
  rw [Exec.bind_apply, h]

theorem Exec.bind_raise {S α β : Type} (x : Exec S α) (f : α → Exec S β) (m m1 : Machine S)
    (h : x m = (.raise, m1)) : (x >>= f) m = (.raise, m1) := by
  rw [Exec.bind_apply, h]

theorem Exec.foldlM_cons_next {S α β : Type} (f : β → α → Exec S β) (a : α) (l : List α)
    (b b1 : β) (m m1 : Machine S) (h : f b a m = (.next b1, m1)) :
    List.foldlM f b (a :: l) m = List.foldlM f b1 l m1 := by
  rw [List.foldlM_cons, Exec.bind_next _ _ _ _ _ h]

theorem Exec.foldlM_cons_ret {S α β : Type} (f : β → α → Exec S β) (a : α) (l : List α)
    (b : β) (m m1 : Machine S) (c : Int) (h : f b a m = (.ret c, m1)) :
    List.foldlM f b (a :: l) m = (.ret c, m1) := by
  rw [List.foldlM_cons, Exec.bind_ret _ _ _ _ _ h]

theorem Exec.foldlM_cons_raise {S α β : Type} (f : β → α → Exec S β) (a : α) (l : List α)
    (b : β) (m m1 : Machine S) (h : f b a m = (.raise, m1)) :
    List.foldlM f b (a :: l) m = (.raise, m1) := by
  rw [List.foldlM_cons, Exec.bind_raise _ _ _ _ h]

theorem Exec.foldlM_nil_apply {S α β : Type} (f : β → α → Exec S β) (b : β) (m : Machine S) :
    List.foldlM f b ([] : List α) m = (.next b, m) := rfl

theorem caseTurnId_of_loop_next (K : OcctKernel) (turn : TurnIdFeatureDto)
    (m m1 : Machine K.TopoDS_Shape) (hcount : turn.profileCount > 1) (d : K.gp_Dir)
    (hd : K.mkDir turn.axis.dir = .value d) (l : List Nat)
    (hl : List.range (turn.profileCount - 1).toNat = l) (tool : K.TopoDS_Shape)
    (h : List.foldlM (turnIdSegment K turn turn.axis.origin d) (K.nullShape, false) l
      { m with calls := m.calls ++ [KCall.gp_Dir] } = (.next (tool, true), m1)) :
    caseTurnId K turn m = (.next tool, m1) := by
  rw [caseTurnId_profile K turn m hcount, hd, hl]
  dsimp only
  rw [h]
  rfl

theorem caseTurnId_of_loop_ret (K : OcctKernel) (turn : TurnIdFeatureDto)
    (m m1 : Machine K.TopoDS_Shape) (hcount : turn.profileCount > 1) (d : K.gp_Dir)
    (hd : K.mkDir turn.axis.dir = .value d) (l : List Nat)
    (hl : List.range (turn.profileCount - 1).toNat = l) (c : Int)
    (h : List.foldlM (turnIdSegment K turn turn.axis.origin d) (K.nullShape, false) l
      { m with calls := m.calls ++ [KCall.gp_Dir] } = (.ret c, m1)) :
    caseTurnId K turn m = (.ret c, m1) := by
  rw [caseTurnId_profile K turn m hcount, hd, hl]
  dsimp only
  rw [h]

theorem caseTurnId_of_loop_raise (K : OcctKernel) (turn : TurnIdFeatureDto)
    (m m1 : Machine K.TopoDS_Shape) (hcount : turn.profileCount > 1) (d : K.gp_Dir)
    (hd : K.mkDir turn.axis.dir = .value d) (l : List Nat)
    (hl : List.range (turn.profileCount - 1).toNat = l)
    (h : List.foldlM (turnIdSegment K turn turn.axis.origin d) (K.nullShape, false) l
      { m with calls := m.calls ++ [KCall.gp_Dir] } = (.raise, m1)) :
    caseTurnId K turn m = (.raise, m1) := by
  rw [caseTurnId_profile K turn m hcount, hd, hl]
  dsimp only
  rw [h]

/-- C10: for every turning axis whose direction the library accepts, let
`toolA` be the tool of the single pass `FEAT_TURN_ID` of target diameter 10
and length 10 on that axis, and `toolB` the tool of the single pass of target
diameter 6 and length 10 on the axis moved by 10 along the direction.  Then
the tool switch on the inner profile `[(0, 5), (10, 5), (10, 3), (20, 3)]`
makes exactly the calls direction, frame, cylinder, frame, cylinder, fuse, so
builds no solid for the middle segment of length 0 and fuses once, and it ends
as the fuse of `toolA` and `toolB` by the library ends: a done fuse gives its shape
as the tool, a fuse that is not done gives `ERROR_BOOLEAN_FAILED`, and an
exception of the fuse leaves the switch. -/
theorem toolSwitch_stepped_bore_is_fuse_of_single_passes (K : OcctKernel)
    (stock : K.TopoDS_Shape) (axis : AxisDto) (d : K.gp_Dir) (toolA toolB : K.TopoDS_Shape)
    (m ma mb : Machine K.TopoDS_Shape)
    (hd : K.mkDir axis.dir = .value d)
    (hA : (toolSwitch K stock (turnIdFeature (singleBore 10 10 axis)) ma).1 = .next toolA)
    (hB : (toolSwitch K stock
      (turnIdFeature (singleBore 6 10 (axis.shifted (K.dirVec d) 10))) mb).1 = .next toolB) :
    (∀ fuse, K.Fuse toolA toolB = .value fuse → fuse.IsDone = true →
      toolSwitch K stock (turnIdFeature (steppedBore axis)) m =
        (.next fuse.Shape,
          { m with calls := m.calls ++ [KCall.gp_Dir] ++ [KCall.gp_Ax2, KCall.MakeCylinder] ++
              [KCall.gp_Ax2, KCall.MakeCylinder, KCall.Fuse] })) ∧
    (∀ fuse, K.Fuse toolA toolB = .value fuse → fuse.IsDone = false →
      toolSwitch K stock (turnIdFeature (steppedBore axis)) m =
        (.ret ERROR_BOOLEAN_FAILED,
          { m with calls := m.calls ++ [KCall.gp_Dir] ++ [KCall.gp_Ax2, KCall.MakeCylinder] ++
              [KCall.gp_Ax2, KCall.MakeCylinder, KCall.Fuse],
                   outResult := { m.outResult with errorCode := ERROR_BOOLEAN_FAILED } })) ∧
    (K.Fuse toolA toolB = .raise →
      toolSwitch K stock (turnIdFeature (steppedBore axis)) m =
        (.raise,
          { m with calls := m.calls ++ [KCall.gp_Dir] ++ [KCall.gp_Ax2, KCall.MakeCylinder] ++
              [KCall.gp_Ax2, KCall.MakeCylinder, KCall.Fuse] })) := by
  rw [toolSwitch_turnId K stock _ rfl] at hA hB ⊢
  obtain ⟨axA, hax, hca⟩ := caseTurnId_single_next K (singleBore 10 10 axis) d toolA ma
    (by simp [singleBore]) hd hA
  obtain ⟨axB, hbx, hcb⟩ := caseTurnId_single_next K
    (singleBore 6 10 (axis.shifted (K.dirVec d) 10)) d toolB mb
    (by simp [singleBore]) hd hB
  simp only [singleBore, AxisDto.shifted] at hax hca hbx hcb
  norm_num at hca hcb
  have hcount : (steppedBore axis).profileCount > 1 := by simp [steppedBore]
  have hrange : List.range ((steppedBore axis).profileCount - 1).toNat = [0, 1, 2] := by
    simp [steppedBore]
    rfl
  have hz0 : (steppedBore axis).profileZ 0 = 0 := rfl
  have hz1 : (steppedBore axis).profileZ 1 = 10 := rfl
  have hz2 : (steppedBore axis).profileZ 2 = 10 := rfl
  have hz3 : (steppedBore axis).profileZ 3 = 20 := rfl
  have hr0 : (steppedBore axis).profileRadius 0 = 5 := rfl
  have hr1 : (steppedBore axis).profileRadius 1 = 5 := rfl
  have hr2 : (steppedBore axis).profileRadius 2 = 3 := rfl
  have hrej2 : ¬ (steppedBore axis).rejects 2 := by
    simp only [TurnIdFeatureDto.rejects, hz2, hz3, hr2]
    norm_num
  have hlen2 : ¬ doubleSub ((steppedBore axis).profileZ (2 + 1)) ((steppedBore axis).profileZ 2) ≤
      roundDouble 1.0e-9 := by
    simp only [hz2, hz3, doubleSub_20_10]
    exact not_le.2 roundDouble_literal_lt_10
  have hax2 : K.mkAx2 ((steppedBore axis).axis.origin.Translated
      ((K.dirVec d).Multiplied ((steppedBore axis).profileZ 2))) d = .value axB := by
    rw [hz2]
    exact hbx
  have hcyl2 : K.MakeCylinderAt axB ((steppedBore axis).profileRadius 2)
      (doubleSub ((steppedBore axis).profileZ (2 + 1)) ((steppedBore axis).profileZ 2)) =
      .value toolB := by
    simp only [hz2, hz3, hr2, doubleSub_20_10]
    exact hcb
  have hs0 := turnIdSegment_seeds K (steppedBore axis) (steppedBore axis).axis.origin d
    (K.nullShape, false) 0
    { m with calls := m.calls ++ [KCall.gp_Dir] } axA toolA
    (by simp only [TurnIdFeatureDto.rejects, hz0, hz1, hr0]; norm_num)
    (by simp only [hz0, hz1, doubleSub_10_0]; exact not_le.2 roundDouble_literal_lt_10)
    (by rw [hz0, Vec3.Translated_zero]; exact hax)
    (by simp only [hz0, hz1, hr0, doubleSub_10_0]; exact hca) rfl
  have hs1 := turnIdSegment_skips K (steppedBore axis) (steppedBore axis).axis.origin d
    (toolA, true) 1
    { m with calls := m.calls ++ [KCall.gp_Dir] ++ [KCall.gp_Ax2, KCall.MakeCylinder] }
    (by simp only [TurnIdFeatureDto.rejects, hz1, hz2, hr1]; norm_num)
    (by simp only [hz1, hz2, doubleSub_10_10]; exact roundDouble_literal_nonneg)
  refine ⟨?_, ?_, ?_⟩
  · intro fuse hf hdone
    have hs2 := turnIdSegment_fuses_done K (steppedBore axis) (steppedBore axis).axis.origin d
      (toolA, true) 2
      { m with calls := m.calls ++ [KCall.gp_Dir] ++ [KCall.gp_Ax2, KCall.MakeCylinder] }
      axB toolB fuse hrej2 hlen2 hax2 hcyl2 rfl hf hdone
    exact caseTurnId_of_loop_next K (steppedBore axis) m _ hcount d hd [0, 1, 2] hrange fuse.Shape
      (by rw [Exec.foldlM_cons_next _ _ _ _ _ _ _ hs0, Exec.foldlM_cons_next _ _ _ _ _ _ _ hs1,
        Exec.foldlM_cons_next _ _ _ _ _ _ _ hs2, Exec.foldlM_nil_apply])
  · intro fuse hf hdone
    have hs2 := turnIdSegment_fuses_notDone K (steppedBore axis) (steppedBore axis).axis.origin d
      (toolA, true) 2
      { m with calls := m.calls ++ [KCall.gp_Dir] ++ [KCall.gp_Ax2, KCall.MakeCylinder] }
      axB toolB fuse hrej2 hlen2 hax2 hcyl2 rfl hf hdone
    exact caseTurnId_of_loop_ret K (steppedBore axis) m _ hcount d hd [0, 1, 2] hrange 5
      (by rw [Exec.foldlM_cons_next _ _ _ _ _ _ _ hs0, Exec.foldlM_cons_next _ _ _ _ _ _ _ hs1,
        Exec.foldlM_cons_ret _ _ _ _ _ _ _ hs2])
  · intro hf
    have hs2 := turnIdSegment_fuses_raise K (steppedBore axis) (steppedBore axis).axis.origin d
      (toolA, true) 2
      { m with calls := m.calls ++ [KCall.gp_Dir] ++ [KCall.gp_Ax2, KCall.MakeCylinder] }
      axB toolB hrej2 hlen2 hax2 hcyl2 rfl hf
    exact caseTurnId_of_loop_raise K (steppedBore axis) m _ hcount d hd [0, 1, 2] hrange
      (by rw [Exec.foldlM_cons_next _ _ _ _ _ _ _ hs0, Exec.foldlM_cons_next _ _ _ _ _ _ _ hs1,
        Exec.foldlM_cons_raise _ _ _ _ _ _ hs2])

/-- C10, witness: the stepped profile on `zAxis`, in the term instance. -/
theorem toolSwitch_stepped_bore_is_fuse_of_single_passes_witness :
    termKernel.mkDir zAxis.dir = .value ⟨0, 0, 1⟩ ∧
    (toolSwitch termKernel (TermShape.box 10 10 10) (turnIdFeature (singleBore 10 10 zAxis))
      (entryMachine boxRegistry ⟨7, 8, 9⟩)).1 =
      .next (TermShape.cylinderAt ⟨⟨0, 0, 0⟩, ⟨0, 0, 1⟩, none⟩ 5 10) ∧
    (toolSwitch termKernel (TermShape.box 10 10 10)
      (turnIdFeature (singleBore 6 10 (zAxis.shifted ⟨0, 0, 1⟩ 10)))
      (entryMachine boxRegistry ⟨7, 8, 9⟩)).1 =
      .next (TermShape.cylinderAt ⟨⟨0, 0, 10⟩, ⟨0, 0, 1⟩, none⟩ 3 10) ∧
    (toolSwitch termKernel (TermShape.box 10 10 10) (turnIdFeature (steppedBore zAxis))
      (entryMachine boxRegistry ⟨7, 8, 9⟩)).1 =
      .next (TermShape.fuse (TermShape.cylinderAt ⟨⟨0, 0, 0⟩, ⟨0, 0, 1⟩, none⟩ 5 10)
        (TermShape.cylinderAt ⟨⟨0, 0, 10⟩, ⟨0, 0, 1⟩, none⟩ 3 10)) :=
  ⟨by decide!, by decide!, by decide!,
    congrArg Prod.fst
      ((toolSwitch_stepped_bore_is_fuse_of_single_passes termKernel (TermShape.box 10 10 10)
        zAxis ⟨0, 0, 1⟩ (TermShape.cylinderAt ⟨⟨0, 0, 0⟩, ⟨0, 0, 1⟩, none⟩ 5 10)
        (TermShape.cylinderAt ⟨⟨0, 0, 10⟩, ⟨0, 0, 1⟩, none⟩ 3 10)
        (entryMachine boxRegistry ⟨7, 8, 9⟩) (entryMachine boxRegistry ⟨7, 8, 9⟩)
        (entryMachine boxRegistry ⟨7, 8, 9⟩) (by decide!) (by decide!) (by decide!)).1
        ⟨true, TermShape.fuse (TermShape.cylinderAt ⟨⟨0, 0, 0⟩, ⟨0, 0, 1⟩, none⟩ 5 10)
          (TermShape.cylinderAt ⟨⟨0, 0, 10⟩, ⟨0, 0, 1⟩, none⟩ 3 10)⟩ rfl rfl)⟩

/-! ## The single pass turning tools -/

theorem turnIdSegment_noBndAdd (K : OcctKernel) (turn : TurnIdFeatureDto) (origin : Vec3)
    (dir : K.gp_Dir) (loopVars : K.TopoDS_Shape × Bool) (index : Nat) :
    Exec.Sound notBndAdd (turnIdSegment K turn origin dir loopVars index) := by
  unfold turnIdSegment
  repeat (any_goals (first
    | exact Exec.Sound.errorReturn _ _ (by decide)
    | exact Exec.Sound.call _ _ (by decide)
    | exact Exec.Sound.pure _ _
    | apply Exec.Sound.ite
    | apply Exec.Sound.bind
    | intro _))

theorem caseTurnId_noBndAdd (K : OcctKernel) (turn : TurnIdFeatureDto) :
    Exec.Sound notBndAdd (caseTurnId K turn) := by
  unfold caseTurnId
  repeat (any_goals (first
    | exact Exec.Sound.errorReturn _ _ (by decide)
    | exact Exec.Sound.call _ _ (by decide)
    | exact Exec.Sound.pure _ _
    | apply Exec.Sound.ite
    | apply Exec.Sound.bind
    | exact Exec.Sound.foldlM _ (turnIdSegment_noBndAdd K turn _ _) _ _
    | intro _))

theorem caseTurnOd_single (K : OcctKernel) (stock : K.TopoDS_Shape) (turn : TurnOdFeatureDto)
    (m : Machine K.TopoDS_Shape) (stockBox : Bnd_Box)
    (hb : K.BndAdd stock = .value stockBox) (hv : stockBox.IsVoid = false)
    (hcount : ¬ turn.profileCount > 1)
    (hdim : ¬ (turn.targetDiameter ≤ 0 ∨ turn.length ≤ 0)) :
    caseTurnOd K stock turn m =
      match K.mkDir turn.axis.dir with
      | .raise => (.raise, { m with calls := m.calls ++ [KCall.BndAdd, KCall.gp_Dir] })
      | .value d =>
        match K.mkAx2 turn.axis.origin d with
        | .raise =>
          (.raise, { m with calls := m.calls ++ [KCall.BndAdd, KCall.gp_Dir, KCall.gp_Ax2] })
        | .value ax =>
          match K.MakeCylinderAt ax stockBox.doubleOuterRadius turn.length with
          | .raise =>
            (.raise, { m with calls := m.calls ++
              [KCall.BndAdd, KCall.gp_Dir, KCall.gp_Ax2, KCall.MakeCylinder] })
          | .value outer =>
            match K.MakeCylinderAt ax (turn.targetDiameter * 0.5) turn.length with
            | .raise =>
              (.raise, { m with calls := m.calls ++
                [KCall.BndAdd, KCall.gp_Dir, KCall.gp_Ax2, KCall.MakeCylinder,
                  KCall.MakeCylinder] })
            | .value inner =>
              match K.Cut outer inner with
              | .raise =>
                (.raise, { m with calls := m.calls ++
                  [KCall.BndAdd, KCall.gp_Dir, KCall.gp_Ax2, KCall.MakeCylinder,
                    KCall.MakeCylinder, KCall.Cut] })
              | .value cut =>
                if cut.IsDone = true then
                  (.next cut.Shape, { m with calls := m.calls ++
                    [KCall.BndAdd, KCall.gp_Dir, KCall.gp_Ax2, KCall.MakeCylinder,
                      KCall.MakeCylinder, KCall.Cut] })
                else
                  (.ret 5,
                    { m with
                      outResult := { m.outResult with errorCode := 5 },
                      calls := m.calls ++
                        [KCall.BndAdd, KCall.gp_Dir, KCall.gp_Ax2, KCall.MakeCylinder,
                          KCall.MakeCylinder, KCall.Cut] }) := by
  simp only [caseTurnOd, Exec.bind_apply, hb, call_value, hv, Bool.false_eq_true, if_false,
    Exec.pure_apply, if_neg hcount, if_neg hdim, Bnd_Box.doubleOuterRadius]
  cases K.mkDir turn.axis.dir with
  | raise => simp [call_raise]
  | value d =>
    simp only [call_value]
    cases K.mkAx2 turn.axis.origin d with
    | raise => simp [call_raise]
    | value ax =>
      simp only [call_value]
      cases K.MakeCylinderAt ax _ turn.length with
      | raise => simp [call_raise]
      | value outer =>
        simp only [call_value]
        cases K.MakeCylinderAt ax (turn.targetDiameter * 0.5) turn.length with
        | raise => simp [call_raise]
        | value inner =>
          simp only [call_value]
          cases K.Cut outer inner with
          | raise => simp [call_raise]
          | value cut =>
            cases hd : cut.IsDone with
            | false => simp [call_value, Exec.bind_apply, errorReturn_apply, hd]
            | true => simp [call_value, Exec.bind_apply, Exec.pure_apply, hd]

theorem half_eq (x : Rat) : x * 0.5 = x / 2 := by
  norm_num
  ring

theorem stockOuterRadius_eq (stockBox : Bnd_Box) :
    stockBox.stockOuterRadius =
      2 * max (max (stockBox.xmax - stockBox.xmin) (stockBox.ymax - stockBox.ymin))
        (stockBox.zmax - stockBox.zmin) := by
  unfold Bnd_Box.stockOuterRadius
  norm_num
  ring

theorem doubleOuterRadius_eq (stockBox : Bnd_Box) :
    stockBox.doubleOuterRadius =
      2 * max (max (doubleSub stockBox.xmax stockBox.xmin)
        (doubleSub stockBox.ymax stockBox.ymin)) (doubleSub stockBox.zmax stockBox.zmin) := by
  unfold Bnd_Box.doubleOuterRadius
  norm_num
  ring

theorem doubleOuterRadius_of_exact_spans (stockBox : Bnd_Box)
    (hx : roundDouble (stockBox.xmax - stockBox.xmin) = stockBox.xmax - stockBox.xmin)
    (hy : roundDouble (stockBox.ymax - stockBox.ymin) = stockBox.ymax - stockBox.ymin)
    (hz : roundDouble (stockBox.zmax - stockBox.zmin) = stockBox.zmax - stockBox.zmin) :
    stockBox.doubleOuterRadius = stockBox.stockOuterRadius := by
  unfold Bnd_Box.doubleOuterRadius Bnd_Box.stockOuterRadius doubleSub
  rw [hx, hy, hz]

theorem caseTurnOd_single_next_iff (K : OcctKernel) (stock : K.TopoDS_Shape)
    (turn : TurnOdFeatureDto) (m m1 : Machine K.TopoDS_Shape) (stockBox : Bnd_Box)
    (tool : K.TopoDS_Shape)
    (hb : K.BndAdd stock = .value stockBox) (hv : stockBox.IsVoid = false)
    (hcount : ¬ turn.profileCount > 1)
    (hdim : ¬ (turn.targetDiameter ≤ 0 ∨ turn.length ≤ 0)) :
    caseTurnOd K stock turn m = (.next tool, m1) ↔
      ∃ d frame outer inner cut,
        K.mkDir turn.axis.dir = .value d ∧ K.mkAx2 turn.axis.origin d = .value frame ∧
        K.MakeCylinderAt frame stockBox.doubleOuterRadius turn.length = .value outer ∧
        K.MakeCylinderAt frame (turn.targetDiameter / 2) turn.length = .value inner ∧
        K.Cut outer inner = .value cut ∧ cut.IsDone = true ∧ tool = cut.Shape ∧
        m1 = { m with calls := m.calls ++
          [KCall.BndAdd, KCall.gp_Dir, KCall.gp_Ax2, KCall.MakeCylinder, KCall.MakeCylinder,
            KCall.Cut] } := by
  rw [caseTurnOd_single K stock turn m stockBox hb hv hcount hdim, half_eq]
  cases hd : K.mkDir turn.axis.dir with
  | raise => simp
  | value d =>
    cases hax : K.mkAx2 turn.axis.origin d with
    | raise => simp [hax]
    | value ax =>
      cases ho : K.MakeCylinderAt ax stockBox.doubleOuterRadius turn.length with
      | raise => simp [hax, ho]
      | value outer =>
        cases hi : K.MakeCylinderAt ax (turn.targetDiameter / 2) turn.length with
        | raise => simp [hax, ho, hi]
        | value inner =>
          cases hc : K.Cut outer inner with
          | raise => simp [hax, ho, hi, hc]
          | value cut =>
            cases hdone : cut.IsDone with
            | false => simp [hax, ho, hi, hc, hdone]
            | true =>
              simp only [hax, ho, hi, hc, hdone, if_true, Thrown.value.injEq, Prod.mk.injEq,
                Flow.next.injEq]
              constructor
              · rintro ⟨h1, h2⟩
                exact ⟨d, ax, outer, inner, cut, rfl, hax, ho, hi, hc, hdone, h1.symm, h2.symm⟩
              · rintro ⟨d1, ax1, outer1, inner1, cut1, h1, h2, h3, h4, h5, h6, h7, h8⟩
                subst h1
                rw [hax] at h2
                cases h2
                rw [ho] at h3
                cases h3
                rw [hi] at h4
                cases h4
                rw [hc] at h5
                cases h5
                exact ⟨h7.symm, h8.symm⟩

theorem caseTurnId_single_next_iff (K : OcctKernel) (turn : TurnIdFeatureDto)
    (m m1 : Machine K.TopoDS_Shape) (tool : K.TopoDS_Shape)
    (hcount : ¬ turn.profileCount > 1)
    (hdim : ¬ (turn.targetDiameter ≤ 0 ∨ turn.length ≤ 0)) :
    caseTurnId K turn m = (.next tool, m1) ↔
      ∃ d frame,
        K.mkDir turn.axis.dir = .value d ∧ K.mkAx2 turn.axis.origin d = .value frame ∧
        K.MakeCylinderAt frame (turn.targetDiameter / 2) turn.length = .value tool ∧
        m1 = { m with calls := m.calls ++
          [KCall.gp_Dir, KCall.gp_Ax2, KCall.MakeCylinder] } := by
  rw [caseTurnId_single K turn m hcount hdim, half_eq]
  cases hd : K.mkDir turn.axis.dir with
  | raise => simp
  | value d =>
    cases hax : K.mkAx2 turn.axis.origin d with
    | raise => simp [hax]
    | value ax =>
      cases hi : K.MakeCylinderAt ax (turn.targetDiameter / 2) turn.length with
      | raise => simp [hax, hi]
      | value inner =>
        simp only [hax, hi, Thrown.value.injEq, Prod.mk.injEq, Flow.next.injEq]
        constructor
        · rintro ⟨h1, h2⟩
          exact ⟨d, ax, rfl, hax, h1 ▸ hi, h2.symm⟩
        · rintro ⟨d1, ax1, h1, h2, h3, h4⟩
          subst h1
          rw [hax] at h2
          cases h2
          rw [hi] at h3
          cases h3
          exact ⟨rfl, h4.symm⟩

/-- C14: for a single pass turning feature (`profileCount ≤ 1`, positive
target diameter and length) on a stock whose bounding box is not void, the
tool switch delivers a tool exactly when the library builds it, and then: the
`FEAT_TURN_OD` tool is the shape of the cut of the cylinder of radius `B` and
height `length` by the cylinder of radius `targetDiameter / 2` and height
`length`, both on the frame of the axis origin and direction, with `B` twice
the largest span of the bounding box, each span the difference of two doubles
as the source computes it, so that `B` is `2 * max (xmax - xmin, ymax - ymin,
zmax - zmin)` whenever the three differences are doubles; the `FEAT_TURN_ID`
tool is the cylinder of radius `targetDiameter / 2` and height `length` on
that frame.  No run of `FEAT_TURN_ID` queries a bounding box. -/
theorem toolSwitch_single_pass_turning_tools (K : OcctKernel) (stock : K.TopoDS_Shape)
    (feature : FeatureDto) (m : Machine K.TopoDS_Shape) :
    (feature.type = FEAT_TURN_OD → feature.u.turnOd.profileCount ≤ 1 →
      0 < feature.u.turnOd.targetDiameter → 0 < feature.u.turnOd.length →
      ∀ stockBox, K.BndAdd stock = .value stockBox → stockBox.IsVoid = false →
      stockBox.doubleOuterRadius =
        2 * max (max (doubleSub stockBox.xmax stockBox.xmin)
          (doubleSub stockBox.ymax stockBox.ymin)) (doubleSub stockBox.zmax stockBox.zmin) ∧
      (roundDouble (stockBox.xmax - stockBox.xmin) = stockBox.xmax - stockBox.xmin →
        roundDouble (stockBox.ymax - stockBox.ymin) = stockBox.ymax - stockBox.ymin →
        roundDouble (stockBox.zmax - stockBox.zmin) = stockBox.zmax - stockBox.zmin →
        stockBox.doubleOuterRadius =
          2 * max (max (stockBox.xmax - stockBox.xmin) (stockBox.ymax - stockBox.ymin))
            (stockBox.zmax - stockBox.zmin)) ∧
      ∀ tool m1, toolSwitch K stock feature m = (.next tool, m1) ↔
        ∃ d frame outer inner cut,
          K.mkDir feature.u.turnOd.axis.dir = .value d ∧
          K.mkAx2 feature.u.turnOd.axis.origin d = .value frame ∧
          K.MakeCylinderAt frame stockBox.doubleOuterRadius feature.u.turnOd.length =
            .value outer ∧
          K.MakeCylinderAt frame (feature.u.turnOd.targetDiameter / 2)
            feature.u.turnOd.length = .value inner ∧
          K.Cut outer inner = .value cut ∧ cut.IsDone = true ∧ tool = cut.Shape ∧
          m1 = { m with calls := m.calls ++
            [KCall.BndAdd, KCall.gp_Dir, KCall.gp_Ax2, KCall.MakeCylinder,
              KCall.MakeCylinder, KCall.Cut] }) ∧
    (feature.type = FEAT_TURN_ID → feature.u.turnId.profileCount ≤ 1 →
      0 < feature.u.turnId.targetDiameter → 0 < feature.u.turnId.length →
      ∀ tool m1, toolSwitch K stock feature m = (.next tool, m1) ↔
        ∃ d frame,
          K.mkDir feature.u.turnId.axis.dir = .value d ∧
          K.mkAx2 feature.u.turnId.axis.origin d = .value frame ∧
          K.MakeCylinderAt frame (feature.u.turnId.targetDiameter / 2)
            feature.u.turnId.length = .value tool ∧
          m1 = { m with calls := m.calls ++
            [KCall.gp_Dir, KCall.gp_Ax2, KCall.MakeCylinder] }) ∧
    (feature.type = FEAT_TURN_ID →
      ∃ l, (toolSwitch K stock feature m).2.calls = m.calls ++ l ∧ KCall.BndAdd ∉ l) := by
  refine ⟨?_, ?_, ?_⟩
  · intro ht hcount htd hlen stockBox hb hv
    refine ⟨doubleOuterRadius_eq stockBox, fun hx hy hz => ?_, ?_⟩
    · rw [doubleOuterRadius_of_exact_spans stockBox hx hy hz]
      exact stockOuterRadius_eq stockBox
    intro tool m1
    rw [toolSwitch_turnOd K stock feature ht]
    exact caseTurnOd_single_next_iff K stock _ m m1 stockBox tool hb hv (by omega)
      (by
        rintro (h | h)
        · exact absurd htd (not_lt.2 h)
        · exact absurd hlen (not_lt.2 h))
  · intro ht hcount htd hlen tool m1
    rw [toolSwitch_turnId K stock feature ht]
    exact caseTurnId_single_next_iff K _ m m1 tool (by omega)
      (by
        rintro (h | h)
        · exact absurd htd (not_lt.2 h)
        · exact absurd hlen (not_lt.2 h))
  · intro ht
    rw [toolSwitch_turnId K stock feature ht]
    obtain ⟨-, -, -, -, l, hl, hP⟩ := (caseTurnId_noBndAdd K feature.u.turnId).run m
    exact ⟨l, hl, fun hmem => hP _ hmem rfl⟩

/-- C14, witness: the single pass outer turning `sampleTurnOd` on the box
stock, whose bounding box gives `B = 20`. -/
theorem toolSwitch_single_pass_turning_tools_witness :
    termKernel.BndAdd (TermShape.box 10 10 10) = .value ⟨false, 0, 0, 0, 10, 10, 10⟩ ∧
    (toolSwitch termKernel (TermShape.box 10 10 10) (turnOdFeature sampleTurnOd)
      (entryMachine boxRegistry ⟨7, 8, 9⟩)).1 =
      .next (TermShape.cut (TermShape.cylinderAt ⟨⟨0, 0, 0⟩, ⟨0, 0, 1⟩, none⟩ 20 10)
        (TermShape.cylinderAt ⟨⟨0, 0, 0⟩, ⟨0, 0, 1⟩, none⟩ 2 10)) :=
  ⟨by decide!,
    congrArg Prod.fst
      ((((toolSwitch_single_pass_turning_tools termKernel (TermShape.box 10 10 10)
        (turnOdFeature sampleTurnOd) (entryMachine boxRegistry ⟨7, 8, 9⟩)).1 rfl (by decide)
        (by decide!) (by decide!) ⟨false, 0, 0, 0, 10, 10, 10⟩ (by decide!) rfl).2.2 _ _).2
        ⟨⟨0, 0, 1⟩, ⟨⟨0, 0, 0⟩, ⟨0, 0, 1⟩, none⟩,
          TermShape.cylinderAt ⟨⟨0, 0, 0⟩, ⟨0, 0, 1⟩, none⟩ 20 10,
          TermShape.cylinderAt ⟨⟨0, 0, 0⟩, ⟨0, 0, 1⟩, none⟩ 2 10,
          ⟨true, TermShape.cut (TermShape.cylinderAt ⟨⟨0, 0, 0⟩, ⟨0, 0, 1⟩, none⟩ 20 10)
            (TermShape.cylinderAt ⟨⟨0, 0, 0⟩, ⟨0, 0, 1⟩, none⟩ 2 10)⟩,
          by decide!, by decide!, by decide!, by decide!, by decide!, rfl, rfl, rfl⟩)⟩

/-! ## The claim on `L1_CreateStock` -/

theorem L1_CreateStock_ignores_axis (K : OcctKernel)
    (kernel : Option (ShapeRegistry K.TopoDS_Shape)) (dto : StockDto) (axis : AxisDto)
    (outStockId : Option Int) :
    L1_CreateStock K kernel (some { dto with axis := axis }) outStockId =
      L1_CreateStock K kernel (some dto) outStockId := by
  cases kernel <;> cases outStockId <;> rfl

/-- C11, divergence: two box stocks of 10 by 10 by 10 that differ only in
their axis, the one on `zAxis` and the one on the axis through `(5, 5, 5)`
along `x`, are created on a fresh kernel instance with the same status, the
same handle and the same registered shape, the box of `BRepPrimAPI_MakeBox`
without a frame: `L1_CreateStock` does not read `dto->axis`. -/
theorem L1_CreateStock_same_shape_for_two_axes :
    (boxStock zAxis).axis ≠ (boxStock xAxisAt5).axis ∧
    (L1_CreateStock termKernel (L1_CreateKernel TermShape) (some (boxStock zAxis))
      (some 0)).1 = 0 ∧
    (L1_CreateStock termKernel (L1_CreateKernel TermShape) (some (boxStock xAxisAt5))
      (some 0)).1 = 0 ∧
    (L1_CreateStock termKernel (L1_CreateKernel TermShape) (some (boxStock zAxis))
      (some 0)).2.2 = some 1 ∧
    (L1_CreateStock termKernel (L1_CreateKernel TermShape) (some (boxStock xAxisAt5))
      (some 0)).2.2 = some 1 ∧
    ((L1_CreateStock termKernel (L1_CreateKernel TermShape) (some (boxStock zAxis))
      (some 0)).2.1.bind fun r => r.Find 1) = some (TermShape.box 10 10 10) ∧
    ((L1_CreateStock termKernel (L1_CreateKernel TermShape) (some (boxStock xAxisAt5))
      (some 0)).2.1.bind fun r => r.Find 1) = some (TermShape.box 10 10 10) := by
  decide!

/-! ## The outer bound and the distance to the axis -/

/-- The value `distSqToAxis` is attained at the foot of the perpendicular: it
is the least squared distance from `p` to a point of the line. -/
theorem distSqToAxis_eq_normSq_foot {F : Type} [LinearOrderedField F] (origin dir p : Point F)
    (hdir : dir.dot dir = 1) :
    distSqToAxis origin dir p =
      (p.sub (axisPoint origin dir ((p.sub origin).dot dir))).normSq := by
  simp only [distSqToAxis, Point.normSq, Point.dot, Point.sub, axisPoint] at hdir ⊢
  have hd2 : ((p.x - origin.x) * dir.x + (p.y - origin.y) * dir.y +
      (p.z - origin.z) * dir.z) ^ 2 * (dir.x * dir.x + dir.y * dir.y + dir.z * dir.z) =
      ((p.x - origin.x) * dir.x + (p.y - origin.y) * dir.y + (p.z - origin.z) * dir.z) ^ 2 := by
    rw [hdir, mul_one]
  linear_combination (-1 : F) * hd2

theorem distSqToAxis_nonneg {F : Type} [LinearOrderedField F] (origin dir p : Point F)
    (hdir : dir.dot dir = 1) : 0 ≤ distSqToAxis origin dir p := by
  rw [distSqToAxis_eq_normSq_foot origin dir p hdir]
  simp only [Point.normSq, Point.dot]
  nlinarith [mul_self_nonneg (p.sub (axisPoint origin dir ((p.sub origin).dot dir))).x,
    mul_self_nonneg (p.sub (axisPoint origin dir ((p.sub origin).dot dir))).y,
    mul_self_nonneg (p.sub (axisPoint origin dir ((p.sub origin).dot dir))).z]

theorem fuseAll_map_cons (K : OcctKernel) (segmentTool : Nat → K.TopoDS_Shape) (i : Nat)
    (ks : List Nat) :
    accumulate K segmentTool (K.nullShape, false) (i :: ks) =
      (K.fuseAll ((i :: ks).map segmentTool), true) := by
  have key : ∀ (l : List Nat) (s : K.TopoDS_Shape),
      accumulate K segmentTool (s, true) l = ((l.map segmentTool).foldl K.fuseShape s, true) := by
    intro l
    induction l with
    | nil => intro s; rfl
    | cons a l ih =>
      intro s
      have := ih (K.fuseShape s (segmentTool a))
      simpa [accumulate] using this
  have := key ks (segmentTool i)
  simpa [accumulate, OcctKernel.fuseAll] using this

theorem accumulate_cons (K : OcctKernel) (segmentTool : Nat → K.TopoDS_Shape)
    (vars : K.TopoDS_Shape × Bool) (i : Nat) (ks : List Nat) :
    accumulate K segmentTool vars (i :: ks) =
      accumulate K segmentTool
        (if vars.2 then K.fuseShape vars.1 (segmentTool i) else segmentTool i, true) ks := rfl

theorem fuseCalls_cons (hasTool : Bool) (n : Nat) :
    fuseCalls hasTool (n + 1) = (if hasTool then 1 else 0) + fuseCalls true n := by
  cases hasTool <;> simp [fuseCalls]
  omega

theorem BuildsKept_cons (K : OcctKernel) (buildsSegment : Nat → Prop)
    (segmentTool : Nat → K.TopoDS_Shape) (vars : K.TopoDS_Shape × Bool) (i : Nat)
    (ks : List Nat) :
    BuildsKept K buildsSegment segmentTool vars (i :: ks) ↔
      buildsSegment i ∧ (vars.2 = true → K.FuseDone vars.1 (segmentTool i)) ∧
      BuildsKept K buildsSegment segmentTool
        (if vars.2 then K.fuseShape vars.1 (segmentTool i) else segmentTool i, true) ks :=
  Iff.rfl

/-- A loop over segments none of which is rejected: if it falls through, its
loop variables are those accumulated over the kept segments, the number of
fuse calls is that of the kept segments, and the library has built what the
kept segments ask for. -/
theorem Exec.foldlM_kept_next (K : OcctKernel)
    (step : K.TopoDS_Shape × Bool → Nat → Exec K.TopoDS_Shape (K.TopoDS_Shape × Bool))
    (kept : Nat → Bool) (buildsSegment : Nat → Prop) (segmentTool : Nat → K.TopoDS_Shape)
    (l : List Nat)
    (hskip : ∀ i ∈ l, kept i = false → ∀ vars m, step vars i m = (.next vars, m))
    (hnext : ∀ i ∈ l, kept i = true → ∀ vars m v1 m1, step vars i m = (.next v1, m1) →
      v1 = (if vars.2 then K.fuseShape vars.1 (segmentTool i) else segmentTool i, true) ∧
      m1.calls.count KCall.Fuse = m.calls.count KCall.Fuse + (if vars.2 then 1 else 0) ∧
      buildsSegment i ∧ (vars.2 = true → K.FuseDone vars.1 (segmentTool i))) :
    ∀ (loopVars vars : K.TopoDS_Shape × Bool) (m m1 : Machine K.TopoDS_Shape),
      List.foldlM step loopVars l m = (.next vars, m1) →
      vars = accumulate K segmentTool loopVars (l.filter kept) ∧
      m1.calls.count KCall.Fuse =
        m.calls.count KCall.Fuse + fuseCalls loopVars.2 (l.filter kept).length ∧
      BuildsKept K buildsSegment segmentTool loopVars (l.filter kept) := by
  induction l with
  | nil =>
    intro loopVars vars m m1 h
    rw [Exec.foldlM_nil_apply] at h
    cases h
    refine ⟨rfl, ?_, trivial⟩
    cases hv : loopVars.2 <;> simp [fuseCalls]
  | cons a l ih =>
    intro loopVars vars m m1 h
    have ihl := ih (fun i hi => hskip i (List.mem_cons_of_mem a hi))
      (fun i hi => hnext i (List.mem_cons_of_mem a hi))
    cases hk : kept a with
    | false =>
      rw [Exec.foldlM_cons_next _ _ _ _ _ _ _
        (hskip a (List.mem_cons_self a l) hk loopVars m)] at h
      rw [List.filter_cons_of_neg (by simp [hk])]
      exact ihl loopVars vars m m1 h
    | true =>
      rcases hs : step loopVars a m with ⟨fl, m2⟩
      cases fl with
      | next v1 =>
        rw [Exec.foldlM_cons_next _ _ _ _ _ _ _ hs] at h
        obtain ⟨hv1, hc1, hb1, hf1⟩ :=
          hnext a (List.mem_cons_self a l) hk loopVars m v1 m2 hs
        obtain ⟨hv, hc, hb⟩ := ihl v1 vars m2 m1 h
        rw [List.filter_cons_of_pos hk, accumulate_cons, List.length_cons, fuseCalls_cons,
          BuildsKept_cons]
        refine ⟨by rw [hv, hv1], ?_, hb1, hf1, by rw [← hv1]; exact hb⟩
        rw [hc, hc1]
        have : v1.2 = true := by rw [hv1]
        rw [this]
        omega
      | ret c =>
        rw [Exec.foldlM_cons_ret _ _ _ _ _ _ _ hs] at h
        cases h
      | raise =>
        rw [Exec.foldlM_cons_raise _ _ _ _ _ _ hs] at h
        cases h

/-- A loop over segments none of which is rejected falls through when the
library builds what the kept segments ask for. -/
theorem Exec.foldlM_kept_builds (K : OcctKernel)
    (step : K.TopoDS_Shape × Bool → Nat → Exec K.TopoDS_Shape (K.TopoDS_Shape × Bool))
    (kept : Nat → Bool) (buildsSegment : Nat → Prop) (segmentTool : Nat → K.TopoDS_Shape)
    (l : List Nat)
    (hskip : ∀ i ∈ l, kept i = false → ∀ vars m, step vars i m = (.next vars, m))
    (hbuilds : ∀ i ∈ l, kept i = true → buildsSegment i → ∀ vars m,
      (vars.2 = true → K.FuseDone vars.1 (segmentTool i)) →
      ∃ m1, step vars i m =
        (.next (if vars.2 then K.fuseShape vars.1 (segmentTool i) else segmentTool i, true),
          m1)) :
    ∀ (loopVars : K.TopoDS_Shape × Bool) (m : Machine K.TopoDS_Shape),
      BuildsKept K buildsSegment segmentTool loopVars (l.filter kept) →
      ∃ m1, List.foldlM step loopVars l m =
        (.next (accumulate K segmentTool loopVars (l.filter kept)), m1) := by
  induction l with
  | nil =>
    intro loopVars m _
    exact ⟨m, rfl⟩
  | cons a l ih =>
    intro loopVars m hb
    have ihl := ih (fun i hi => hskip i (List.mem_cons_of_mem a hi))
      (fun i hi => hbuilds i (List.mem_cons_of_mem a hi))
    cases hk : kept a with
    | false =>
      rw [List.filter_cons_of_neg (by simp [hk])] at hb ⊢
      rw [Exec.foldlM_cons_next _ _ _ _ _ _ _
        (hskip a (List.mem_cons_self a l) hk loopVars m)]
      exact ihl loopVars m hb
    | true =>
      rw [List.filter_cons_of_pos hk] at hb ⊢
      rw [BuildsKept_cons] at hb
      obtain ⟨hb1, hf1, hb2⟩ := hb
      obtain ⟨m2, hs⟩ := hbuilds a (List.mem_cons_self a l) hk hb1 loopVars m hf1
      rw [Exec.foldlM_cons_next _ _ _ _ _ _ _ hs, accumulate_cons]
      exact ihl _ m2 hb2

theorem exists_first (P : Nat → Prop) (i : Nat) (h : P i) :
    ∃ i0, i0 ≤ i ∧ P i0 ∧ ∀ j, j < i0 → ¬ P j := by
  classical
  exact ⟨Nat.find ⟨i, h⟩, Nat.find_min' ⟨i, h⟩ h, Nat.find_spec ⟨i, h⟩,
    fun j hj => Nat.find_min ⟨i, h⟩ hj⟩

/-! ### The inner profile -/

theorem TurnIdFeatureDto.turnId_kept_eq_false {turn : TurnIdFeatureDto} {i : Nat} :
    turn.kept i = false ↔
      doubleSub (turn.profileZ (i + 1)) (turn.profileZ i) ≤ roundDouble 1.0e-9 := by
  simp only [TurnIdFeatureDto.kept, decide_eq_false_iff_not, gt_iff_lt, not_lt]

theorem TurnIdFeatureDto.turnId_kept_eq_true {turn : TurnIdFeatureDto} {i : Nat} :
    turn.kept i = true ↔
      ¬ doubleSub (turn.profileZ (i + 1)) (turn.profileZ i) ≤ roundDouble 1.0e-9 := by
  simp only [TurnIdFeatureDto.kept, decide_eq_true_eq, gt_iff_lt, not_le]

theorem turnIdSegment_kept_next (K : OcctKernel) (turn : TurnIdFeatureDto)
    (dir : K.gp_Dir) (loopVars v1 : K.TopoDS_Shape × Bool) (i : Nat)
    (m m1 : Machine K.TopoDS_Shape)
    (h : ¬ turn.rejects i)
    (hlen : ¬ doubleSub (turn.profileZ (i + 1)) (turn.profileZ i) ≤ roundDouble 1.0e-9)
    (hs : turnIdSegment K turn turn.axis.origin dir loopVars i m = (.next v1, m1)) :
    v1 = (if loopVars.2 then K.fuseShape loopVars.1 (turn.segmentTool K dir i)
          else turn.segmentTool K dir i, true) ∧
    m1.calls.count KCall.Fuse = m.calls.count KCall.Fuse + (if loopVars.2 then 1 else 0) ∧
    turn.BuildsSegment K dir i ∧
    (loopVars.2 = true → K.FuseDone loopVars.1 (turn.segmentTool K dir i)) := by
  cases hax : K.mkAx2
      (turn.axis.origin.Translated ((K.dirVec dir).Multiplied (turn.profileZ i))) dir with
  | raise =>
    unfold TurnIdFeatureDto.rejects at h
    simp only [turnIdSegment, if_neg h, if_neg hlen, Exec.bind_apply, hax, call_raise] at hs
    cases hs
  | value ax =>
    cases hcyl : K.MakeCylinderAt ax (turn.profileRadius i)
        (doubleSub (turn.profileZ (i + 1)) (turn.profileZ i)) with
    | raise =>
      unfold TurnIdFeatureDto.rejects at h
      simp only [turnIdSegment, if_neg h, if_neg hlen, Exec.bind_apply, hax, call_value, hcyl,
        call_raise] at hs
      cases hs
    | value s =>
      have htool : turn.segmentTool K dir i = s := by
        simp only [TurnIdFeatureDto.segmentTool, OcctKernel.cylinderShape, hax, hcyl]
      have hbuilds : turn.BuildsSegment K dir i := ⟨ax, s, hax, hcyl⟩
      cases hv : loopVars.2 with
      | false =>
        rw [turnIdSegment_seeds K turn turn.axis.origin dir loopVars i m ax s h hlen hax hcyl hv]
          at hs
        cases hs
        refine ⟨by simp [htool], by simp, hbuilds, fun hc => by cases hc⟩
      | true =>
        cases hf : K.Fuse loopVars.1 s with
        | raise =>
          rw [turnIdSegment_fuses_raise K turn turn.axis.origin dir loopVars i m ax s h hlen hax
            hcyl hv hf] at hs
          cases hs
        | value fuse =>
          cases hd : fuse.IsDone with
          | false =>
            rw [turnIdSegment_fuses_notDone K turn turn.axis.origin dir loopVars i m ax s fuse h
              hlen hax hcyl hv hf hd] at hs
            cases hs
          | true =>
            rw [turnIdSegment_fuses_done K turn turn.axis.origin dir loopVars i m ax s fuse h
              hlen hax hcyl hv hf hd] at hs
            cases hs
            refine ⟨by simp [htool, OcctKernel.fuseShape, hf], by simp, hbuilds, fun _ => ?_⟩
            rw [htool]
            exact ⟨fuse, hf, hd⟩

theorem turnIdSegment_kept_builds (K : OcctKernel) (turn : TurnIdFeatureDto)
    (dir : K.gp_Dir) (loopVars : K.TopoDS_Shape × Bool) (i : Nat)
    (m : Machine K.TopoDS_Shape)
    (h : ¬ turn.rejects i)
    (hlen : ¬ doubleSub (turn.profileZ (i + 1)) (turn.profileZ i) ≤ roundDouble 1.0e-9)
    (hb : turn.BuildsSegment K dir i)
    (hf : loopVars.2 = true → K.FuseDone loopVars.1 (turn.segmentTool K dir i)) :
    ∃ m1, turnIdSegment K turn turn.axis.origin dir loopVars i m =
      (.next (if loopVars.2 then K.fuseShape loopVars.1 (turn.segmentTool K dir i)
          else turn.segmentTool K dir i, true), m1) := by
  obtain ⟨ax, s, hax, hcyl⟩ := hb
  have htool : turn.segmentTool K dir i = s := by
    simp only [TurnIdFeatureDto.segmentTool, OcctKernel.cylinderShape, hax, hcyl]
  cases hv : loopVars.2 with
  | false =>
    rw [turnIdSegment_seeds K turn turn.axis.origin dir loopVars i m ax s h hlen hax hcyl hv]
    simp only [htool, Bool.false_eq_true, if_false]
    exact ⟨_, rfl⟩
  | true =>
    obtain ⟨fuse, hfuse, hdone⟩ := hf hv
    rw [htool] at hfuse
    rw [turnIdSegment_fuses_done K turn turn.axis.origin dir loopVars i m ax s fuse h hlen hax
      hcyl hv hfuse hdone]
    simp only [htool, if_true, OcctKernel.fuseShape, hfuse]
    exact ⟨_, rfl⟩

theorem turnIdLoop_kept_next (K : OcctKernel) (turn : TurnIdFeatureDto) (dir : K.gp_Dir)
    (l : List Nat) (hl : ∀ i ∈ l, ¬ turn.rejects i)
    (loopVars vars : K.TopoDS_Shape × Bool) (m m1 : Machine K.TopoDS_Shape)
    (h : List.foldlM (turnIdSegment K turn turn.axis.origin dir) loopVars l m =
      (.next vars, m1)) :
    vars = accumulate K (turn.segmentTool K dir) loopVars (l.filter turn.kept) ∧
    m1.calls.count KCall.Fuse =
      m.calls.count KCall.Fuse + fuseCalls loopVars.2 (l.filter turn.kept).length ∧
    BuildsKept K (turn.BuildsSegment K dir) (turn.segmentTool K dir) loopVars
      (l.filter turn.kept) :=
  Exec.foldlM_kept_next K _ turn.kept _ _ l
    (fun i hi hk vars m =>
      turnIdSegment_skips K turn _ dir vars i m (hl i hi) (TurnIdFeatureDto.turnId_kept_eq_false.1 hk))
    (fun i hi hk vars m v1 m1 hs =>
      turnIdSegment_kept_next K turn dir vars v1 i m m1 (hl i hi)
        (TurnIdFeatureDto.turnId_kept_eq_true.1 hk) hs)
    loopVars vars m m1 h

theorem turnIdLoop_kept_builds (K : OcctKernel) (turn : TurnIdFeatureDto) (dir : K.gp_Dir)
    (l : List Nat) (hl : ∀ i ∈ l, ¬ turn.rejects i)
    (loopVars : K.TopoDS_Shape × Bool) (m : Machine K.TopoDS_Shape)
    (hb : BuildsKept K (turn.BuildsSegment K dir) (turn.segmentTool K dir) loopVars
      (l.filter turn.kept)) :
    ∃ m1, List.foldlM (turnIdSegment K turn turn.axis.origin dir) loopVars l m =
      (.next (accumulate K (turn.segmentTool K dir) loopVars (l.filter turn.kept)), m1) :=
  Exec.foldlM_kept_builds K _ turn.kept _ _ l
    (fun i hi hk vars m =>
      turnIdSegment_skips K turn _ dir vars i m (hl i hi) (TurnIdFeatureDto.turnId_kept_eq_false.1 hk))
    (fun i hi hk hbi vars m hf =>
      turnIdSegment_kept_builds K turn dir vars i m (hl i hi)
        (TurnIdFeatureDto.turnId_kept_eq_true.1 hk) hbi hf)
    loopVars m hb

/-! ### The outer profile -/

theorem TurnOdFeatureDto.turnOd_kept_eq_false {turn : TurnOdFeatureDto} {bound : Rat} {i : Nat} :
    turn.kept bound i = false ↔
      (doubleSub (turn.profileZ (i + 1)) (turn.profileZ i) ≤ roundDouble 1.0e-9 ∨
        turn.profileRadius i ≥ doubleSub bound (roundDouble 1.0e-9)) := by
  simp only [TurnOdFeatureDto.kept, decide_eq_false_iff_not, gt_iff_lt, not_and, not_lt, ge_iff_le]
  constructor
  · intro h
    by_cases hlen : doubleSub (turn.profileZ (i + 1)) (turn.profileZ i) ≤ roundDouble 1.0e-9
    · exact Or.inl hlen
    · exact Or.inr (h (not_le.1 hlen))
  · rintro (h | h) h1
    · exact absurd h1 (not_lt.2 h)
    · exact h

theorem TurnOdFeatureDto.turnOd_kept_eq_true {turn : TurnOdFeatureDto} {bound : Rat} {i : Nat} :
    turn.kept bound i = true ↔
      (¬ doubleSub (turn.profileZ (i + 1)) (turn.profileZ i) ≤ roundDouble 1.0e-9 ∧
        ¬ turn.profileRadius i ≥ doubleSub bound (roundDouble 1.0e-9)) := by
  simp only [TurnOdFeatureDto.kept, decide_eq_true_eq, gt_iff_lt, not_le, ge_iff_le]

theorem turnOdSegment_kept_next (K : OcctKernel) (turn : TurnOdFeatureDto)
    (dir : K.gp_Dir) (bound : Rat) (loopVars v1 : K.TopoDS_Shape × Bool) (i : Nat)
    (m m1 : Machine K.TopoDS_Shape)
    (h : ¬ turn.rejects i)
    (hlen : ¬ doubleSub (turn.profileZ (i + 1)) (turn.profileZ i) ≤ roundDouble 1.0e-9)
    (hrad : ¬ turn.profileRadius i ≥ doubleSub bound (roundDouble 1.0e-9))
    (hs : turnOdSegment K turn turn.axis.origin dir bound loopVars i m = (.next v1, m1)) :
    v1 = (if loopVars.2 then K.fuseShape loopVars.1 (turn.segmentTool K bound dir i)
          else turn.segmentTool K bound dir i, true) ∧
    m1.calls.count KCall.Fuse = m.calls.count KCall.Fuse + (if loopVars.2 then 1 else 0) ∧
    turn.BuildsSegment K bound dir i ∧
    (loopVars.2 = true → K.FuseDone loopVars.1 (turn.segmentTool K bound dir i)) := by
  unfold TurnOdFeatureDto.rejects at h
  simp only [turnOdSegment, if_neg h, if_neg hlen, if_neg hrad, Exec.bind_apply] at hs
  cases hax : K.mkAx2
      (turn.axis.origin.Translated ((K.dirVec dir).Multiplied (turn.profileZ i))) dir with
  | raise =>
    simp only [hax, call_raise] at hs
    cases hs
  | value ax =>
    simp only [hax, call_value] at hs
    cases hso : K.MakeCylinderAt ax bound
        (doubleSub (turn.profileZ (i + 1)) (turn.profileZ i)) with
    | raise =>
      simp only [hso, call_raise] at hs
      cases hs
    | value so =>
      simp only [hso, call_value] at hs
      cases hsi : K.MakeCylinderAt ax (turn.profileRadius i)
          (doubleSub (turn.profileZ (i + 1)) (turn.profileZ i)) with
      | raise =>
        simp only [hsi, call_raise] at hs
        cases hs
      | value si =>
        simp only [hsi, call_value] at hs
        cases hcut : K.Cut so si with
        | raise =>
          simp only [hcut, call_raise] at hs
          cases hs
        | value an =>
          simp only [hcut, call_value] at hs
          have htool : turn.segmentTool K bound dir i = an.Shape := by
            simp only [TurnOdFeatureDto.segmentTool, OcctKernel.cylinderShape,
              OcctKernel.cutShape, hax, hso, hsi, hcut]
          cases hdone : an.IsDone with
          | false =>
            simp [hdone, errorReturn_apply, Exec.bind_apply] at hs
          | true =>
            have hbuilds : turn.BuildsSegment K bound dir i :=
              ⟨ax, so, si, an, hax, hso, hsi, hcut, hdone⟩
            cases hv : loopVars.2 with
            | false =>
              simp [hdone, hv, Exec.bind_apply, Exec.pure_apply] at hs
              obtain ⟨rfl, rfl⟩ := hs
              exact ⟨by simp [htool], by simp, hbuilds, fun hc => by cases hc⟩
            | true =>
              cases hf : K.Fuse loopVars.1 an.Shape with
              | raise =>
                simp [hdone, hv, hf, call_raise, Exec.bind_apply, Exec.pure_apply] at hs
              | value fuse =>
                cases hfd : fuse.IsDone with
                | false =>
                  simp [hdone, hv, hf, hfd, call_value, errorReturn_apply, Exec.bind_apply,
                    Exec.pure_apply] at hs
                | true =>
                  simp [hdone, hv, hf, hfd, call_value, Exec.bind_apply, Exec.pure_apply] at hs
                  obtain ⟨rfl, rfl⟩ := hs
                  refine ⟨by simp [htool, OcctKernel.fuseShape, hf], by simp, hbuilds,
                    fun _ => ?_⟩
                  rw [htool]
                  exact ⟨fuse, hf, hfd⟩

theorem turnOdSegment_kept_builds (K : OcctKernel) (turn : TurnOdFeatureDto)
    (dir : K.gp_Dir) (bound : Rat) (loopVars : K.TopoDS_Shape × Bool) (i : Nat)
    (m : Machine K.TopoDS_Shape)
    (h : ¬ turn.rejects i)
    (hlen : ¬ doubleSub (turn.profileZ (i + 1)) (turn.profileZ i) ≤ roundDouble 1.0e-9)
    (hrad : ¬ turn.profileRadius i ≥ doubleSub bound (roundDouble 1.0e-9))
    (hb : turn.BuildsSegment K bound dir i)
    (hf : loopVars.2 = true → K.FuseDone loopVars.1 (turn.segmentTool K bound dir i)) :
    ∃ m1, turnOdSegment K turn turn.axis.origin dir bound loopVars i m =
      (.next (if loopVars.2 then K.fuseShape loopVars.1 (turn.segmentTool K bound dir i)
          else turn.segmentTool K bound dir i, true), m1) := by
  obtain ⟨ax, so, si, an, hax, hso, hsi, hcut, hdone⟩ := hb
  have htool : turn.segmentTool K bound dir i = an.Shape := by
    simp only [TurnOdFeatureDto.segmentTool, OcctKernel.cylinderShape,
      OcctKernel.cutShape, hax, hso, hsi, hcut]
  unfold TurnOdFeatureDto.rejects at h
  simp only [turnOdSegment, if_neg h, if_neg hlen, if_neg hrad, Exec.bind_apply,
    Exec.pure_apply, hax, call_value, hso, hsi, hcut, hdone, Bool.not_true,
    Bool.false_eq_true, if_false, htool]
  cases hv : loopVars.2 with
  | false =>
    simp only [Bool.not_false, if_true, Bool.false_eq_true, if_false]
    exact ⟨_, rfl⟩
  | true =>
    obtain ⟨fuse, hfuse, hfd⟩ := hf hv
    rw [htool] at hfuse
    simp only [Bool.not_true, Bool.false_eq_true, if_false, hfuse, hfd, call_value,
      Exec.bind_apply, Exec.pure_apply, if_true, OcctKernel.fuseShape]
    exact ⟨_, rfl⟩

theorem turnOdLoop_kept_next (K : OcctKernel) (turn : TurnOdFeatureDto) (dir : K.gp_Dir)
    (bound : Rat) (l : List Nat) (hl : ∀ i ∈ l, ¬ turn.rejects i)
    (loopVars vars : K.TopoDS_Shape × Bool) (m m1 : Machine K.TopoDS_Shape)
    (h : List.foldlM (turnOdSegment K turn turn.axis.origin dir bound) loopVars l m =
      (.next vars, m1)) :
    vars = accumulate K (turn.segmentTool K bound dir) loopVars (l.filter (turn.kept bound)) ∧
    m1.calls.count KCall.Fuse =
      m.calls.count KCall.Fuse + fuseCalls loopVars.2 (l.filter (turn.kept bound)).length ∧
    BuildsKept K (turn.BuildsSegment K bound dir) (turn.segmentTool K bound dir) loopVars
      (l.filter (turn.kept bound)) :=
  Exec.foldlM_kept_next K _ (turn.kept bound) _ _ l
    (fun i hi hk vars m =>
      turnOdSegment_skips K turn _ dir bound vars i m (hl i hi)
        (TurnOdFeatureDto.turnOd_kept_eq_false.1 hk))
    (fun i hi hk vars m v1 m1 hs =>
      turnOdSegment_kept_next K turn dir bound vars v1 i m m1 (hl i hi)
        (TurnOdFeatureDto.turnOd_kept_eq_true.1 hk).1 (TurnOdFeatureDto.turnOd_kept_eq_true.1 hk).2 hs)
    loopVars vars m m1 h

theorem turnOdLoop_kept_builds (K : OcctKernel) (turn : TurnOdFeatureDto) (dir : K.gp_Dir)
    (bound : Rat) (l : List Nat) (hl : ∀ i ∈ l, ¬ turn.rejects i)
    (loopVars : K.TopoDS_Shape × Bool) (m : Machine K.TopoDS_Shape)
    (hb : BuildsKept K (turn.BuildsSegment K bound dir) (turn.segmentTool K bound dir) loopVars
      (l.filter (turn.kept bound))) :
    ∃ m1, List.foldlM (turnOdSegment K turn turn.axis.origin dir bound) loopVars l m =
      (.next (accumulate K (turn.segmentTool K bound dir) loopVars
        (l.filter (turn.kept bound))), m1) :=
  Exec.foldlM_kept_builds K _ (turn.kept bound) _ _ l
    (fun i hi hk vars m =>
      turnOdSegment_skips K turn _ dir bound vars i m (hl i hi)
        (TurnOdFeatureDto.turnOd_kept_eq_false.1 hk))
    (fun i hi hk hbi vars m hf =>
      turnOdSegment_kept_builds K turn dir bound vars i m (hl i hi)
        (TurnOdFeatureDto.turnOd_kept_eq_true.1 hk).1 (TurnOdFeatureDto.turnOd_kept_eq_true.1 hk).2 hbi hf)
    loopVars m hb

/-! ### The two cases -/

theorem TurnIdFeatureDto.ValidProfile.turnId_not_rejects {turn : TurnIdFeatureDto}
    (h : turn.ValidProfile) :
    ∀ i ∈ List.range (turn.profileCount - 1).toNat, ¬ turn.rejects i := by
  intro i hi hr
  obtain ⟨hrad, hz⟩ := h.2.2 i (mem_range_segments_lt _ i hi)
  rcases hr with hr | hr
  · exact absurd hrad (not_lt.2 hr)
  · exact absurd hz (not_le.2 hr)

theorem TurnOdFeatureDto.ValidProfile.turnOd_not_rejects {turn : TurnOdFeatureDto}
    (h : turn.ValidProfile) :
    ∀ i ∈ List.range (turn.profileCount - 1).toNat, ¬ turn.rejects i := by
  intro i hi hr
  obtain ⟨hrad, hz⟩ := h.2.2 i (mem_range_segments_lt _ i hi)
  rcases hr with hr | hr
  · exact absurd hrad (not_lt.2 hr)
  · exact absurd hz (not_le.2 hr)

theorem caseTurnId_profile_next (K : OcctKernel) (turn : TurnIdFeatureDto)
    (m m1 : Machine K.TopoDS_Shape) (tool : K.TopoDS_Shape) (hvalid : turn.ValidProfile)
    (h : caseTurnId K turn m = (.next tool, m1)) :
    ∃ d, K.mkDir turn.axis.dir = .value d ∧ tool = turn.profileTool K d ∧
      1 ≤ turn.keptSegments.length ∧
      BuildsKept K (turn.BuildsSegment K d) (turn.segmentTool K d) (K.nullShape, false)
        turn.keptSegments ∧
      m1.calls.count KCall.Fuse =
        m.calls.count KCall.Fuse + (turn.keptSegments.length - 1) := by
  have hcount : turn.profileCount > 1 := by
    have := hvalid.1
    omega
  rw [caseTurnId_profile K turn m hcount] at h
  cases hd : K.mkDir turn.axis.dir with
  | raise =>
    rw [hd] at h
    cases h
  | value d =>
    rw [hd] at h
    dsimp only at h
    rcases hf : List.foldlM (turnIdSegment K turn turn.axis.origin d) (K.nullShape, false)
      (List.range (turn.profileCount - 1).toNat)
      { m with calls := m.calls ++ [KCall.gp_Dir] } with ⟨fl, m2⟩
    rw [hf] at h
    cases fl with
    | ret c => cases h
    | raise => cases h
    | next vars =>
      dsimp only at h
      obtain ⟨hv, hc, hb⟩ := turnIdLoop_kept_next K turn d _ hvalid.turnId_not_rejects
        (K.nullShape, false) vars _ m2 hf
      refine ⟨d, rfl, ?_⟩
      unfold TurnIdFeatureDto.profileTool TurnIdFeatureDto.keptSegments
      cases hk : (List.range (turn.profileCount - 1).toNat).filter turn.kept with
      | nil =>
        rw [hk] at hv
        have hv2 : vars.2 = false := by rw [hv]; rfl
        rw [if_pos hv2] at h
        cases h
      | cons i ks =>
        rw [hk] at hb hc
        rw [hk, fuseAll_map_cons] at hv
        have hv2 : ¬ vars.2 = false := by rw [hv]; simp
        rw [if_neg hv2] at h
        cases h
        refine ⟨by rw [hv], by simp, hb, ?_⟩
        rw [hc]
        simp [fuseCalls, List.count_append]

theorem caseTurnId_profile_builds (K : OcctKernel) (turn : TurnIdFeatureDto)
    (m : Machine K.TopoDS_Shape) (hvalid : turn.ValidProfile) (d : K.gp_Dir)
    (hd : K.mkDir turn.axis.dir = .value d) (hk : 1 ≤ turn.keptSegments.length)
    (hb : BuildsKept K (turn.BuildsSegment K d) (turn.segmentTool K d) (K.nullShape, false)
      turn.keptSegments) :
    ∃ m1, caseTurnId K turn m = (.next (turn.profileTool K d), m1) ∧
      m1.calls.count KCall.Fuse =
        m.calls.count KCall.Fuse + (turn.keptSegments.length - 1) := by
  have hcount : turn.profileCount > 1 := by
    have := hvalid.1
    omega
  obtain ⟨m2, hf⟩ := turnIdLoop_kept_builds K turn d _ hvalid.turnId_not_rejects
    (K.nullShape, false) { m with calls := m.calls ++ [KCall.gp_Dir] } hb
  obtain ⟨-, hc, -⟩ := turnIdLoop_kept_next K turn d _ hvalid.turnId_not_rejects
    (K.nullShape, false) _ _ m2 hf
  unfold TurnIdFeatureDto.profileTool
  unfold TurnIdFeatureDto.keptSegments at hk ⊢
  cases hks : (List.range (turn.profileCount - 1).toNat).filter turn.kept with
  | nil =>
    rw [hks] at hk
    simp at hk
  | cons i ks =>
    rw [hks] at hc
    rw [hks, fuseAll_map_cons] at hf
    refine ⟨m2, caseTurnId_of_loop_next K turn m m2 hcount d hd _ rfl _ hf, ?_⟩
    rw [hc]
    simp [fuseCalls, List.count_append]

theorem caseTurnId_first_rejected (K : OcctKernel) (turn : TurnIdFeatureDto)
    (m : Machine K.TopoDS_Shape) (hcount : turn.profileCount > 1) (i : Nat)
    (hi : (i : Int) + 1 < turn.profileCount) (hr : turn.rejects i)
    (hfirst : ∀ j, j < i → ¬ turn.rejects j) (d : K.gp_Dir)
    (hd : K.mkDir turn.axis.dir = .value d)
    (hb : BuildsKept K (turn.BuildsSegment K d) (turn.segmentTool K d) (K.nullShape, false)
      ((List.range i).filter turn.kept)) :
    ∃ m1, caseTurnId K turn m = (.ret 1, m1) := by
  obtain ⟨l2, hl2⟩ := range_split_at (turn.profileCount - 1).toNat i
    (List.mem_range.1 (mem_range_segments _ i hi))
  obtain ⟨m2, hf⟩ := turnIdLoop_kept_builds K turn d (List.range i)
    (fun j hj => hfirst j (List.mem_range.1 hj)) (K.nullShape, false)
    { m with calls := m.calls ++ [KCall.gp_Dir] } hb
  refine ⟨{ m2 with outResult := { m2.outResult with errorCode := 1 } }, ?_⟩
  rw [caseTurnId_profile K turn m hcount, hd]
  dsimp only
  rw [hl2, Exec.foldlM_append, hf]
  dsimp only
  rw [Exec.foldlM_cons_ret _ _ _ _ _ _ _
    (turnIdSegment_rejects K turn turn.axis.origin d _ i m2 hr)]

theorem caseTurnOd_profile_next (K : OcctKernel) (stock : K.TopoDS_Shape)
    (turn : TurnOdFeatureDto) (m m1 : Machine K.TopoDS_Shape) (tool : K.TopoDS_Shape)
    (hvalid : turn.ValidProfile) (h : caseTurnOd K stock turn m = (.next tool, m1)) :
    ∃ stockBox d, K.BndAdd stock = .value stockBox ∧ stockBox.IsVoid = false ∧
      K.mkDir turn.axis.dir = .value d ∧
      tool = turn.profileTool K stockBox.doubleOuterRadius d ∧
      1 ≤ (turn.keptSegments stockBox.doubleOuterRadius).length ∧
      BuildsKept K (turn.BuildsSegment K stockBox.doubleOuterRadius d)
        (turn.segmentTool K stockBox.doubleOuterRadius d) (K.nullShape, false)
        (turn.keptSegments stockBox.doubleOuterRadius) ∧
      m1.calls.count KCall.Fuse =
        m.calls.count KCall.Fuse +
          ((turn.keptSegments stockBox.doubleOuterRadius).length - 1) := by
  have hcount : turn.profileCount > 1 := by
    have := hvalid.1
    omega
  cases hb : K.BndAdd stock with
  | raise =>
    rw [caseTurnOd_raise K stock turn m hb] at h
    cases h
  | value stockBox =>
    cases hvoid : stockBox.IsVoid with
    | true =>
      rw [caseTurnOd_void K stock turn m stockBox hb hvoid] at h
      cases h
    | false =>
      rw [caseTurnOd_profile K stock turn m stockBox hb hvoid hcount] at h
      cases hd : K.mkDir turn.axis.dir with
      | raise =>
        rw [hd] at h
        cases h
      | value d =>
        rw [hd] at h
        dsimp only at h
        rcases hf : List.foldlM
          (turnOdSegment K turn turn.axis.origin d stockBox.doubleOuterRadius)
          (K.nullShape, false) (List.range (turn.profileCount - 1).toNat)
          { m with calls := m.calls ++ [KCall.BndAdd, KCall.gp_Dir] } with ⟨fl, m2⟩
        rw [hf] at h
        cases fl with
        | ret c => cases h
        | raise => cases h
        | next vars =>
          dsimp only at h
          obtain ⟨hv, hc, hbk⟩ := turnOdLoop_kept_next K turn d stockBox.doubleOuterRadius _
            hvalid.turnOd_not_rejects (K.nullShape, false) vars _ m2 hf
          refine ⟨stockBox, d, rfl, hvoid, rfl, ?_⟩
          unfold TurnOdFeatureDto.profileTool TurnOdFeatureDto.keptSegments
          cases hk : (List.range (turn.profileCount - 1).toNat).filter
              (turn.kept stockBox.doubleOuterRadius) with
          | nil =>
            rw [hk] at hv
            have hv2 : vars.2 = false := by rw [hv]; rfl
            rw [if_pos hv2] at h
            cases h
          | cons i ks =>
            rw [hk] at hbk hc
            rw [hk, fuseAll_map_cons] at hv
            have hv2 : ¬ vars.2 = false := by rw [hv]; simp
            rw [if_neg hv2] at h
            cases h
            refine ⟨by rw [hv], by simp, hbk, ?_⟩
            rw [hc]
            simp [fuseCalls, List.count_append]

theorem caseTurnOd_profile_builds (K : OcctKernel) (stock : K.TopoDS_Shape)
    (turn : TurnOdFeatureDto) (m : Machine K.TopoDS_Shape) (hvalid : turn.ValidProfile)
    (stockBox : Bnd_Box) (hb : K.BndAdd stock = .value stockBox)
    (hvoid : stockBox.IsVoid = false) (d : K.gp_Dir)
    (hd : K.mkDir turn.axis.dir = .value d)
    (hk : 1 ≤ (turn.keptSegments stockBox.doubleOuterRadius).length)
    (hbk : BuildsKept K (turn.BuildsSegment K stockBox.doubleOuterRadius d)
      (turn.segmentTool K stockBox.doubleOuterRadius d) (K.nullShape, false)
      (turn.keptSegments stockBox.doubleOuterRadius)) :
    ∃ m1, caseTurnOd K stock turn m =
        (.next (turn.profileTool K stockBox.doubleOuterRadius d), m1) ∧
      m1.calls.count KCall.Fuse =
        m.calls.count KCall.Fuse +
          ((turn.keptSegments stockBox.doubleOuterRadius).length - 1) := by
  have hcount : turn.profileCount > 1 := by
    have := hvalid.1
    omega
  obtain ⟨m2, hf⟩ := turnOdLoop_kept_builds K turn d stockBox.doubleOuterRadius _
    hvalid.turnOd_not_rejects (K.nullShape, false)
    { m with calls := m.calls ++ [KCall.BndAdd, KCall.gp_Dir] } hbk
  obtain ⟨-, hc, -⟩ := turnOdLoop_kept_next K turn d stockBox.doubleOuterRadius _
    hvalid.turnOd_not_rejects (K.nullShape, false) _ _ m2 hf
  unfold TurnOdFeatureDto.profileTool
  unfold TurnOdFeatureDto.keptSegments at hk ⊢
  cases hks : (List.range (turn.profileCount - 1).toNat).filter
      (turn.kept stockBox.doubleOuterRadius) with
  | nil =>
    rw [hks] at hk
    simp at hk
  | cons i ks =>
    rw [hks] at hc
    rw [hks, fuseAll_map_cons] at hf
    refine ⟨m2, ?_, ?_⟩
    · rw [caseTurnOd_profile K stock turn m stockBox hb hvoid hcount, hd]
      dsimp only
      rw [hf]
      rfl
    · rw [hc]
      simp [fuseCalls, List.count_append]

theorem caseTurnOd_first_rejected (K : OcctKernel) (stock : K.TopoDS_Shape)
    (turn : TurnOdFeatureDto) (m : Machine K.TopoDS_Shape) (stockBox : Bnd_Box)
    (hbox : K.BndAdd stock = .value stockBox) (hvoid : stockBox.IsVoid = false)
    (hcount : turn.profileCount > 1) (i : Nat)
    (hi : (i : Int) + 1 < turn.profileCount) (hr : turn.rejects i)
    (hfirst : ∀ j, j < i → ¬ turn.rejects j) (d : K.gp_Dir)
    (hd : K.mkDir turn.axis.dir = .value d)
    (hb : BuildsKept K (turn.BuildsSegment K stockBox.doubleOuterRadius d)
      (turn.segmentTool K stockBox.doubleOuterRadius d) (K.nullShape, false)
      ((List.range i).filter (turn.kept stockBox.doubleOuterRadius))) :
    ∃ m1, caseTurnOd K stock turn m = (.ret 1, m1) := by
  obtain ⟨l2, hl2⟩ := range_split_at (turn.profileCount - 1).toNat i
    (List.mem_range.1 (mem_range_segments _ i hi))
  obtain ⟨m2, hf⟩ := turnOdLoop_kept_builds K turn d stockBox.doubleOuterRadius
    (List.range i) (fun j hj => hfirst j (List.mem_range.1 hj)) (K.nullShape, false)
    { m with calls := m.calls ++ [KCall.BndAdd, KCall.gp_Dir] } hb
  refine ⟨{ m2 with outResult := { m2.outResult with errorCode := 1 } }, ?_⟩
  rw [caseTurnOd_profile K stock turn m stockBox hbox hvoid hcount, hd]
  dsimp only
  rw [hl2, Exec.foldlM_append, hf]
  dsimp only
  rw [Exec.foldlM_cons_ret _ _ _ _ _ _ _
    (turnOdSegment_rejects K turn turn.axis.origin d _ _ i m2 hr)]

theorem steppedShaft_ValidProfile : steppedShaft.ValidProfile := by
  refine ⟨by decide, by decide, ?_⟩
  intro i hi
  change (i : Int) + 1 < 5 at hi
  have h4 : i < 4 := by omega
  interval_cases i <;> decide!

theorem termKernel_FuseDone (a b : TermShape) : termKernel.FuseDone a b :=
  ⟨_, rfl, rfl⟩

theorem termKernel_BuildsSegment_turnOd (turn : TurnOdFeatureDto) (bound : Rat) (d : Vec3)
    (i : Nat) (hr : 0 < turn.profileRadius i)
    (hl : 0 < doubleSub (turn.profileZ (i + 1)) (turn.profileZ i)) (hb : 0 < bound) :
    turn.BuildsSegment termKernel bound d i := by
  refine ⟨⟨turn.axis.origin.Translated ((termKernel.dirVec d).Multiplied (turn.profileZ i)),
      d, none⟩,
    TermShape.cylinderAt
      ⟨turn.axis.origin.Translated ((termKernel.dirVec d).Multiplied (turn.profileZ i)), d,
        none⟩ bound (doubleSub (turn.profileZ (i + 1)) (turn.profileZ i)),
    TermShape.cylinderAt
      ⟨turn.axis.origin.Translated ((termKernel.dirVec d).Multiplied (turn.profileZ i)), d,
        none⟩ (turn.profileRadius i) (doubleSub (turn.profileZ (i + 1)) (turn.profileZ i)),
    ⟨true, TermShape.cut _ _⟩, rfl, ?_, ?_, rfl, rfl⟩
  · show (if _ then Thrown.raise else Thrown.value _) = _
    rw [if_neg]
    rintro (h1 | h1)
    · exact absurd hb (not_lt.2 h1)
    · exact absurd hl (not_lt.2 h1)
  · show (if _ then Thrown.raise else Thrown.value _) = _
    rw [if_neg]
    rintro (h1 | h1)
    · exact absurd hr (not_lt.2 h1)
    · exact absurd hl (not_lt.2 h1)

theorem termKernel_BuildsKept_turnOd (turn : TurnOdFeatureDto) (bound : Rat) (d : Vec3)
    (ks : List Nat)
    (h : ∀ i ∈ ks, 0 < turn.profileRadius i ∧
      0 < doubleSub (turn.profileZ (i + 1)) (turn.profileZ i) ∧ 0 < bound) :
    ∀ vars, BuildsKept termKernel (turn.BuildsSegment termKernel bound d)
      (turn.segmentTool termKernel bound d) vars ks := by
  induction ks with
  | nil => intro vars; trivial
  | cons a ks ih =>
    intro vars
    obtain ⟨hr, hl, hb⟩ := h a (List.mem_cons_self a ks)
    exact ⟨termKernel_BuildsSegment_turnOd turn bound d a hr hl hb,
      fun _ => termKernel_FuseDone _ _,
      ih (fun i hi => h i (List.mem_cons_of_mem a hi)) _⟩

/-- C13: for a `FEAT_TURN_ID` or `FEAT_TURN_OD` profile of 2 to 64 entries
whose segments all have a positive radius and a non-decreasing `z`, the tool
of the tool switch is the left fold by fuse, in increasing segment index, of
the tools of exactly the kept segments.  Segment `i` is kept when its length,
the difference `z (i + 1) - z i` of doubles, exceeds the double `1e-9` and,
for `FEAT_TURN_OD` only, `radius i` is below the outer bound minus `1e-9`, the
outer bound being that of the bounding box of the stock, all in the double
arithmetic of the source.  The tool of a segment is the cylinder of `radius i`
and of the length of the segment on the frame of the origin moved by `z i`
along the direction for `FEAT_TURN_ID`, and the cut of the cylinder of the
outer bound by that cylinder, on the same frame, for `FEAT_TURN_OD`.  Whenever
the switch delivers a tool, the tool is this fold, at least one segment is
kept, the library has built the tool of every kept segment and has reported
done every fuse of the fold, and the `k` kept segments have caused exactly
`k - 1` fuse calls; and conversely, when at least one segment is kept, the
library builds the tools of the kept segments and reports the fuses of the
fold done, the switch does deliver this tool with `k - 1` fuse calls. -/
theorem toolSwitch_profile_tool_is_fold_by_fuse (K : OcctKernel) (stock : K.TopoDS_Shape)
    (feature : FeatureDto) (m : Machine K.TopoDS_Shape) :
    (feature.type = FEAT_TURN_ID → feature.u.turnId.ValidProfile →
      (∀ tool m1, toolSwitch K stock feature m = (.next tool, m1) →
        ∃ d, K.mkDir feature.u.turnId.axis.dir = .value d ∧
          tool = feature.u.turnId.profileTool K d ∧
          1 ≤ feature.u.turnId.keptSegments.length ∧
          BuildsKept K (feature.u.turnId.BuildsSegment K d)
            (feature.u.turnId.segmentTool K d) (K.nullShape, false)
            feature.u.turnId.keptSegments ∧
          m1.calls.count KCall.Fuse =
            m.calls.count KCall.Fuse + (feature.u.turnId.keptSegments.length - 1)) ∧
      (∀ d, K.mkDir feature.u.turnId.axis.dir = .value d →
        1 ≤ feature.u.turnId.keptSegments.length →
        BuildsKept K (feature.u.turnId.BuildsSegment K d)
          (feature.u.turnId.segmentTool K d) (K.nullShape, false)
          feature.u.turnId.keptSegments →
        ∃ m1, toolSwitch K stock feature m =
            (.next (feature.u.turnId.profileTool K d), m1) ∧
          m1.calls.count KCall.Fuse =
            m.calls.count KCall.Fuse + (feature.u.turnId.keptSegments.length - 1))) ∧
    (feature.type = FEAT_TURN_OD → feature.u.turnOd.ValidProfile →
      (∀ tool m1, toolSwitch K stock feature m = (.next tool, m1) →
        ∃ stockBox d, K.BndAdd stock = .value stockBox ∧ stockBox.IsVoid = false ∧
          K.mkDir feature.u.turnOd.axis.dir = .value d ∧
          tool = feature.u.turnOd.profileTool K stockBox.doubleOuterRadius d ∧
          1 ≤ (feature.u.turnOd.keptSegments stockBox.doubleOuterRadius).length ∧
          BuildsKept K (feature.u.turnOd.BuildsSegment K stockBox.doubleOuterRadius d)
            (feature.u.turnOd.segmentTool K stockBox.doubleOuterRadius d) (K.nullShape, false)
            (feature.u.turnOd.keptSegments stockBox.doubleOuterRadius) ∧
          m1.calls.count KCall.Fuse =
            m.calls.count KCall.Fuse +
              ((feature.u.turnOd.keptSegments stockBox.doubleOuterRadius).length - 1)) ∧
      (∀ stockBox d, K.BndAdd stock = .value stockBox → stockBox.IsVoid = false →
        K.mkDir feature.u.turnOd.axis.dir = .value d →
        1 ≤ (feature.u.turnOd.keptSegments stockBox.doubleOuterRadius).length →
        BuildsKept K (feature.u.turnOd.BuildsSegment K stockBox.doubleOuterRadius d)
          (feature.u.turnOd.segmentTool K stockBox.doubleOuterRadius d) (K.nullShape, false)
          (feature.u.turnOd.keptSegments stockBox.doubleOuterRadius) →
        ∃ m1, toolSwitch K stock feature m =
            (.next (feature.u.turnOd.profileTool K stockBox.doubleOuterRadius d), m1) ∧
          m1.calls.count KCall.Fuse =
            m.calls.count KCall.Fuse +
              ((feature.u.turnOd.keptSegments stockBox.doubleOuterRadius).length - 1))) := by
  refine ⟨?_, ?_⟩
  · intro ht hvalid
    rw [toolSwitch_turnId K stock feature ht]
    exact ⟨fun tool m1 h => caseTurnId_profile_next K _ m m1 tool hvalid h,
      fun d hd hk hb => caseTurnId_profile_builds K _ m hvalid d hd hk hb⟩
  · intro ht hvalid
    rw [toolSwitch_turnOd K stock feature ht]
    exact ⟨fun tool m1 h => caseTurnOd_profile_next K stock _ m m1 tool hvalid h,
      fun stockBox d hb hvoid hd hk hbk =>
        caseTurnOd_profile_builds K stock _ m hvalid stockBox hb hvoid d hd hk hbk⟩

/-- C13, witness: the outer profile `steppedShaft` on the box stock of side
10, whose outer bound is 20.  Segments 0 and 2 are kept, the tool is the fuse
of their two annuli, and the switch makes one fuse call. -/
theorem toolSwitch_profile_tool_is_fold_by_fuse_witness :
    steppedShaft.ValidProfile ∧
    termKernel.BndAdd (TermShape.box 10 10 10) = .value ⟨false, 0, 0, 0, 10, 10, 10⟩ ∧
    (⟨false, 0, 0, 0, 10, 10, 10⟩ : Bnd_Box).doubleOuterRadius = 20 ∧
    steppedShaft.keptSegments 20 = [0, 2] ∧
    steppedShaft.profileTool termKernel 20 ⟨0, 0, 1⟩ =
      TermShape.fuse
        (TermShape.cut (TermShape.cylinderAt ⟨⟨0, 0, 0⟩, ⟨0, 0, 1⟩, none⟩ 20 10)
          (TermShape.cylinderAt ⟨⟨0, 0, 0⟩, ⟨0, 0, 1⟩, none⟩ 5 10))
        (TermShape.cut (TermShape.cylinderAt ⟨⟨0, 0, 10⟩, ⟨0, 0, 1⟩, none⟩ 20 10)
          (TermShape.cylinderAt ⟨⟨0, 0, 10⟩, ⟨0, 0, 1⟩, none⟩ 3 10)) ∧
    ∃ m1, toolSwitch termKernel (TermShape.box 10 10 10) (turnOdFeature steppedShaft)
        (entryMachine boxRegistry ⟨7, 8, 9⟩) =
        (.next (steppedShaft.profileTool termKernel
          (⟨false, 0, 0, 0, 10, 10, 10⟩ : Bnd_Box).doubleOuterRadius ⟨0, 0, 1⟩), m1) ∧
      m1.calls.count KCall.Fuse =
        (entryMachine boxRegistry ⟨7, 8, 9⟩).calls.count KCall.Fuse +
          ((steppedShaft.keptSegments
            (⟨false, 0, 0, 0, 10, 10, 10⟩ : Bnd_Box).doubleOuterRadius).length - 1) :=
  ⟨steppedShaft_ValidProfile, by decide!, by decide!, by decide!, by decide!,
    ((toolSwitch_profile_tool_is_fold_by_fuse termKernel (TermShape.box 10 10 10)
      (turnOdFeature steppedShaft) (entryMachine boxRegistry ⟨7, 8, 9⟩)).2 rfl
      steppedShaft_ValidProfile).2 ⟨false, 0, 0, 0, 10, 10, 10⟩ ⟨0, 0, 1⟩ (by decide!) rfl
      (by decide!) (by decide!)
      (termKernel_BuildsKept_turnOd steppedShaft _ _ _ (by decide!) _)⟩

/-! ### The thresholds in double arithmetic -/

/-- The double nearest to `1e-9` is `4835703278458517 / 2 ^ 82`, above
`1 / 10 ^ 9`. -/
theorem roundDouble_literal :
    roundDouble 1.0e-9 = 4835703278458517 / 2 ^ 82 ∧ (1.0e-9 : Rat) < roundDouble 1.0e-9 := by
  decide!

/-- A segment whose length is the double `1e-9` is skipped, as the source
does, although its length exceeds `1 / 10 ^ 9`: of `thresholdBore` only
segment 1 is kept. -/
theorem thresholdBore_keptSegments :
    thresholdBore.keptSegments = [1] ∧
    ¬ thresholdBore.profileZ 1 - thresholdBore.profileZ 0 ≤ 1.0e-9 := by
  decide!

/-- On `thinBox` the rounded outer bound is above the exact one, and the
segment of `thresholdShaft` is kept, as the source does, although its radius
is at least the exact outer bound minus `1 / 10 ^ 9`. -/
theorem thresholdShaft_keptSegments :
    thinBox.stockOuterRadius < thinBox.doubleOuterRadius ∧
    thresholdShaft.keptSegments thinBox.doubleOuterRadius = [0] ∧
    thresholdShaft.profileRadius 0 ≥ thinBox.stockOuterRadius - 1.0e-9 := by
  decide!

/-- On the unit cube the three spans are doubles and the rounded outer bound
is the exact one. -/
theorem unitBox_doubleOuterRadius : unitBox.doubleOuterRadius = unitBox.stockOuterRadius := by
  decide!
/-! ## The claims on validation -/

theorem termKernel_BuildsSegment_turnId (turn : TurnIdFeatureDto) (d : Vec3) (i : Nat)
    (hr : 0 < turn.profileRadius i)
    (hl : 0 < doubleSub (turn.profileZ (i + 1)) (turn.profileZ i)) :
    turn.BuildsSegment termKernel d i := by
  refine ⟨⟨turn.axis.origin.Translated ((termKernel.dirVec d).Multiplied (turn.profileZ i)),
      d, none⟩,
    TermShape.cylinderAt
      ⟨turn.axis.origin.Translated ((termKernel.dirVec d).Multiplied (turn.profileZ i)), d,
        none⟩ (turn.profileRadius i) (doubleSub (turn.profileZ (i + 1)) (turn.profileZ i)),
    rfl, ?_⟩
  show (if _ then Thrown.raise else Thrown.value _) = _
  rw [if_neg]
  rintro (h1 | h1)
  · exact absurd hr (not_lt.2 h1)
  · exact absurd hl (not_lt.2 h1)

theorem termKernel_BuildsKept_turnId (turn : TurnIdFeatureDto) (d : Vec3) (ks : List Nat)
    (h : ∀ i ∈ ks, 0 < turn.profileRadius i ∧
      0 < doubleSub (turn.profileZ (i + 1)) (turn.profileZ i)) :
    ∀ vars, BuildsKept termKernel (turn.BuildsSegment termKernel d)
      (turn.segmentTool termKernel d) vars ks := by
  induction ks with
  | nil => intro vars; trivial
  | cons a ks ih =>
    intro vars
    obtain ⟨hr, hl⟩ := h a (List.mem_cons_self a ks)
    exact ⟨termKernel_BuildsSegment_turnId turn d a hr hl,
      fun _ => termKernel_FuseDone _ _,
      ih (fun i hi => h i (List.mem_cons_of_mem a hi)) _⟩

theorem brokenBore_rejects_1 : brokenBore.rejects 1 := by
  unfold TurnIdFeatureDto.rejects
  decide!

theorem brokenBore_first_rejected : ∀ j, j < 1 → ¬ brokenBore.rejects j := by
  intro j hj
  have h0 : j = 0 := by omega
  subst h0
  unfold TurnIdFeatureDto.rejects
  decide!

theorem reversedTurnOd_rejects_0 : reversedTurnOd.rejects 0 := by
  unfold TurnOdFeatureDto.rejects
  decide!

/-- C7, counterexample: on the box stock, the inner profile `brokenBore`,
whose second segment has radius `-1`, returns `ERROR_INVALID_ARGUMENT` after
the cylinder of the first segment has been constructed; and the single pass
outer turning `negativeTurnOd`, of target diameter `-1`, on a stock whose
bounding box is void returns `ERROR_BOOLEAN_FAILED` (5), not 1. -/
theorem L1_ApplyFeature_bad_later_segment_builds_first :
    (L1_ApplyFeature termKernel (some boxRegistry) 1 (some (turnIdFeature brokenBore))
      (some ⟨7, 8, 9⟩)).status = 1 ∧
    (L1_ApplyFeature termKernel (some boxRegistry) 1 (some (turnIdFeature brokenBore))
      (some ⟨7, 8, 9⟩)).calls = [KCall.gp_Dir, KCall.gp_Ax2, KCall.MakeCylinder] ∧
    KCall.isPrimitive KCall.MakeCylinder = true ∧
    brokenBore.profileRadius 1 ≤ 0 ∧
    emptiedRegistry.Find 2 =
      some (TermShape.cut (TermShape.box 10 10 10) (TermShape.box 10 10 10)) ∧
    negativeTurnOd.targetDiameter ≤ 0 ∧
    (L1_ApplyFeature termKernel (some emptiedRegistry) 2 (some (turnOdFeature negativeTurnOd))
      (some ⟨7, 8, 9⟩)).status = 5 := by
  decide!

/-- C7, amended: on a registered stock, a non-positive dimension gives
`ERROR_INVALID_ARGUMENT` (1) with no library call at all for `FEAT_DRILL`,
`FEAT_POCKET_RECT` and the single pass `FEAT_TURN_ID`, and with the bounding
box query as only library call for the single pass `FEAT_TURN_OD` on a stock
whose box is not void.  For a profile whose segment `i` has a non-positive
radius, once the axis direction is accepted (and, for `FEAT_TURN_OD`, the box
is not void): there is a first segment `i0 ≤ i` that the loop rejects, and the
status is 1 when the library builds the tools of the kept segments before
`i0` and reports the fuses of their fold done, whatever it does on any other
call; and when no segment before `i` is kept, the status is 1 and the log
holds no primitive constructor and no boolean operator. -/
theorem L1_ApplyFeature_nonpositive_dimension (K : OcctKernel)
    (impl : ShapeRegistry K.TopoDS_Shape) (stockId : Int) (stock : K.TopoDS_Shape)
    (feature : FeatureDto) (out : OperationResult)
    (hfind : impl.Find stockId = some stock) :
    (feature.type = FEAT_DRILL → feature.u.drill.radius ≤ 0 ∨ feature.u.drill.depth ≤ 0 →
      (L1_ApplyFeature K (some impl) stockId (some feature) (some out)).status = 1 ∧
      (L1_ApplyFeature K (some impl) stockId (some feature) (some out)).calls = []) ∧
    (feature.type = FEAT_POCKET_RECT →
      feature.u.pocketRect.width ≤ 0 ∨ feature.u.pocketRect.height ≤ 0 ∨
        feature.u.pocketRect.depth ≤ 0 →
      (L1_ApplyFeature K (some impl) stockId (some feature) (some out)).status = 1 ∧
      (L1_ApplyFeature K (some impl) stockId (some feature) (some out)).calls = []) ∧
    (feature.type = FEAT_TURN_ID → feature.u.turnId.profileCount ≤ 1 →
      feature.u.turnId.targetDiameter ≤ 0 ∨ feature.u.turnId.length ≤ 0 →
      (L1_ApplyFeature K (some impl) stockId (some feature) (some out)).status = 1 ∧
      (L1_ApplyFeature K (some impl) stockId (some feature) (some out)).calls = []) ∧
    (feature.type = FEAT_TURN_OD → feature.u.turnOd.profileCount ≤ 1 →
      feature.u.turnOd.targetDiameter ≤ 0 ∨ feature.u.turnOd.length ≤ 0 →
      ∀ stockBox, K.BndAdd stock = .value stockBox → stockBox.IsVoid = false →
      (L1_ApplyFeature K (some impl) stockId (some feature) (some out)).status = 1 ∧
      (L1_ApplyFeature K (some impl) stockId (some feature) (some out)).calls =
        [KCall.BndAdd]) ∧
    (feature.type = FEAT_TURN_ID → 2 ≤ feature.u.turnId.profileCount →
      feature.u.turnId.profileCount ≤ L1_TURN_OD_PROFILE_MAX →
      ∀ i : Nat, (i : Int) + 1 < feature.u.turnId.profileCount →
      feature.u.turnId.profileRadius i ≤ 0 →
      ∀ d, K.mkDir feature.u.turnId.axis.dir = .value d →
      (∃ i0, i0 ≤ i ∧ feature.u.turnId.rejects i0 ∧
        ∀ j, j < i0 → ¬ feature.u.turnId.rejects j) ∧
      (∀ i0, i0 ≤ i → feature.u.turnId.rejects i0 →
        (∀ j, j < i0 → ¬ feature.u.turnId.rejects j) →
        BuildsKept K (feature.u.turnId.BuildsSegment K d) (feature.u.turnId.segmentTool K d)
          (K.nullShape, false) ((List.range i0).filter feature.u.turnId.kept) →
        (L1_ApplyFeature K (some impl) stockId (some feature) (some out)).status = 1) ∧
      ((∀ j, j < i → feature.u.turnId.notKept j) →
        (L1_ApplyFeature K (some impl) stockId (some feature) (some out)).status = 1 ∧
        (L1_ApplyFeature K (some impl) stockId (some feature) (some out)).calls =
          [KCall.gp_Dir])) ∧
    (feature.type = FEAT_TURN_OD → 2 ≤ feature.u.turnOd.profileCount →
      feature.u.turnOd.profileCount ≤ L1_TURN_OD_PROFILE_MAX →
      ∀ i : Nat, (i : Int) + 1 < feature.u.turnOd.profileCount →
      feature.u.turnOd.profileRadius i ≤ 0 →
      ∀ stockBox d, K.BndAdd stock = .value stockBox → stockBox.IsVoid = false →
      K.mkDir feature.u.turnOd.axis.dir = .value d →
      (∃ i0, i0 ≤ i ∧ feature.u.turnOd.rejects i0 ∧
        ∀ j, j < i0 → ¬ feature.u.turnOd.rejects j) ∧
      (∀ i0, i0 ≤ i → feature.u.turnOd.rejects i0 →
        (∀ j, j < i0 → ¬ feature.u.turnOd.rejects j) →
        BuildsKept K (feature.u.turnOd.BuildsSegment K stockBox.doubleOuterRadius d)
          (feature.u.turnOd.segmentTool K stockBox.doubleOuterRadius d) (K.nullShape, false)
          ((List.range i0).filter (feature.u.turnOd.kept stockBox.doubleOuterRadius)) →
        (L1_ApplyFeature K (some impl) stockId (some feature) (some out)).status = 1) ∧
      ((∀ j, j < i → feature.u.turnOd.notKept stockBox.doubleOuterRadius j) →
        (L1_ApplyFeature K (some impl) stockId (some feature) (some out)).status = 1 ∧
        (L1_ApplyFeature K (some impl) stockId (some feature) (some out)).calls =
          [KCall.BndAdd, KCall.gp_Dir])) := by
  refine ⟨?_, ?_, ?_, ?_, ?_, ?_⟩
  · intro ht hdim
    rw [L1_ApplyFeature_of_ret K impl stockId stock feature out hfind 1 _
      (by rw [toolSwitch_drill K stock feature ht, caseDrill_invalid K _ _ hdim])]
    exact ⟨rfl, rfl⟩
  · intro ht hdim
    rw [L1_ApplyFeature_of_ret K impl stockId stock feature out hfind 1 _
      (by rw [toolSwitch_pocketRect K stock feature ht, casePocketRect_invalid K _ _ hdim])]
    exact ⟨rfl, rfl⟩
  · intro ht hcount hdim
    rw [L1_ApplyFeature_of_ret K impl stockId stock feature out hfind 1 _
      (by rw [toolSwitch_turnId K stock feature ht,
        caseTurnId_single_invalid K _ _ (by omega) hdim])]
    exact ⟨rfl, rfl⟩
  · intro ht hcount hdim stockBox hb hv
    rw [L1_ApplyFeature_of_ret K impl stockId stock feature out hfind 1 _
      (by rw [toolSwitch_turnOd K stock feature ht,
        caseTurnOd_single_invalid K stock _ _ stockBox hb hv (by omega) hdim])]
    exact ⟨rfl, rfl⟩
  · intro ht hcount _ i hi hr d hd
    refine ⟨exists_first feature.u.turnId.rejects i (Or.inl hr), ?_, ?_⟩
    · intro i0 hi0 hr0 hfirst hb
      obtain ⟨m1, h1⟩ := caseTurnId_first_rejected K feature.u.turnId (entryMachine impl out)
        (by omega) i0 (by omega) hr0 hfirst d hd hb
      rw [L1_ApplyFeature_of_ret K impl stockId stock feature out hfind 1 m1
        (by rw [toolSwitch_turnId K stock feature ht, h1])]
    · intro hbefore
      rw [L1_ApplyFeature_of_ret K impl stockId stock feature out hfind 1 _
        (by rw [toolSwitch_turnId K stock feature ht,
          caseTurnId_notKept_then_rejects K _ _ (by omega) i hi (Or.inl hr) hbefore d hd])]
      exact ⟨rfl, rfl⟩
  · intro ht hcount _ i hi hr stockBox d hb hv hd
    refine ⟨exists_first feature.u.turnOd.rejects i (Or.inl hr), ?_, ?_⟩
    · intro i0 hi0 hr0 hfirst hbk
      obtain ⟨m1, h1⟩ := caseTurnOd_first_rejected K stock feature.u.turnOd
        (entryMachine impl out) stockBox hb hv (by omega) i0 (by omega) hr0 hfirst d hd hbk
      rw [L1_ApplyFeature_of_ret K impl stockId stock feature out hfind 1 m1
        (by rw [toolSwitch_turnOd K stock feature ht, h1])]
    · intro hbefore
      rw [L1_ApplyFeature_of_ret K impl stockId stock feature out hfind 1 _
        (by rw [toolSwitch_turnOd K stock feature ht,
          caseTurnOd_notKept_then_rejects K stock _ _ stockBox hb hv (by omega) i hi
            (Or.inl hr) hbefore d hd])]
      exact ⟨rfl, rfl⟩

/-- C7, witness: the profile `brokenBore` on the box stock: its second
segment is the first one rejected, and the term instance builds the cylinder
of the first. -/
theorem L1_ApplyFeature_nonpositive_dimension_witness :
    boxRegistry.Find 1 = some (TermShape.box 10 10 10) ∧
    brokenBore.profileRadius 1 ≤ 0 ∧
    brokenBore.rejects 1 ∧ (∀ j, j < 1 → ¬ brokenBore.rejects j) ∧
    (List.range 1).filter brokenBore.kept = [0] ∧
    (L1_ApplyFeature termKernel (some boxRegistry) 1 (some (turnIdFeature brokenBore))
      (some ⟨7, 8, 9⟩)).status = 1 :=
  ⟨by decide!, by decide!, brokenBore_rejects_1, brokenBore_first_rejected, by decide!,
    ((L1_ApplyFeature_nonpositive_dimension termKernel boxRegistry 1 (TermShape.box 10 10 10)
      (turnIdFeature brokenBore) ⟨7, 8, 9⟩ (by decide!)).2.2.2.2.1 rfl (by decide) (by decide)
      1 (by decide) (by decide!) ⟨0, 0, 1⟩ rfl).2.1 1 (le_refl 1) brokenBore_rejects_1
      brokenBore_first_rejected
      (termKernel_BuildsKept_turnId brokenBore _ _ (by decide!) _)⟩

/-- C8, counterexample: an outer profile with `z` going down, applied to a
stock whose bounding box is void, returns `ERROR_BOOLEAN_FAILED` (5); an inner
profile with `z` going down on an axis whose direction vector is null returns
`ERROR_OCCT_EXCEPTION` (4); neither returns `ERROR_INVALID_ARGUMENT`. -/
theorem L1_ApplyFeature_decreasing_profile_other_status :
    reversedTurnOd.profileZ 1 < reversedTurnOd.profileZ 0 ∧
    emptiedRegistry.Find 2 =
      some (TermShape.cut (TermShape.box 10 10 10) (TermShape.box 10 10 10)) ∧
    (L1_ApplyFeature termKernel (some emptiedRegistry) 2 (some (turnOdFeature reversedTurnOd))
      (some ⟨7, 8, 9⟩)).status = 5 ∧
    reversedTurnIdNullDir.profileZ 1 < reversedTurnIdNullDir.profileZ 0 ∧
    boxRegistry.Find 1 = some (TermShape.box 10 10 10) ∧
    (L1_ApplyFeature termKernel (some boxRegistry) 1 (some (turnIdFeature reversedTurnIdNullDir))
      (some ⟨7, 8, 9⟩)).status = 4 := by
  decide!

/-- C8, amended: on a registered stock, a `FEAT_TURN_OD` or `FEAT_TURN_ID`
profile of 2 to 64 entries in which some segment `i` has `z` going down gives
a non-zero status and leaves the registry as it was, so that the stock handle
resolves to the same shape; there is a first segment `i0 ≤ i` that the loop
rejects, and the status is `ERROR_INVALID_ARGUMENT` (1) when the library
accepts the axis direction (and, for `FEAT_TURN_OD`, reports a bounding box of
the stock that is not void), builds the tools of the kept segments before `i0`
and reports the fuses of their fold done, whatever it does on any other
call. -/
theorem L1_ApplyFeature_decreasing_profile (K : OcctKernel)
    (impl : ShapeRegistry K.TopoDS_Shape) (stockId : Int) (stock : K.TopoDS_Shape)
    (feature : FeatureDto) (out : OperationResult)
    (hfind : impl.Find stockId = some stock) :
    (feature.type = FEAT_TURN_ID → 2 ≤ feature.u.turnId.profileCount →
      feature.u.turnId.profileCount ≤ L1_TURN_OD_PROFILE_MAX →
      ∀ i : Nat, (i : Int) + 1 < feature.u.turnId.profileCount →
      feature.u.turnId.profileZ (i + 1) < feature.u.turnId.profileZ i →
      (L1_ApplyFeature K (some impl) stockId (some feature) (some out)).status ≠ 0 ∧
      (L1_ApplyFeature K (some impl) stockId (some feature) (some out)).kernel = some impl ∧
      (∃ i0, i0 ≤ i ∧ feature.u.turnId.rejects i0 ∧
        ∀ j, j < i0 → ¬ feature.u.turnId.rejects j) ∧
      (∀ d, K.mkDir feature.u.turnId.axis.dir = .value d →
        ∀ i0, i0 ≤ i → feature.u.turnId.rejects i0 →
        (∀ j, j < i0 → ¬ feature.u.turnId.rejects j) →
        BuildsKept K (feature.u.turnId.BuildsSegment K d) (feature.u.turnId.segmentTool K d)
          (K.nullShape, false) ((List.range i0).filter feature.u.turnId.kept) →
        (L1_ApplyFeature K (some impl) stockId (some feature) (some out)).status = 1)) ∧
    (feature.type = FEAT_TURN_OD → 2 ≤ feature.u.turnOd.profileCount →
      feature.u.turnOd.profileCount ≤ L1_TURN_OD_PROFILE_MAX →
      ∀ i : Nat, (i : Int) + 1 < feature.u.turnOd.profileCount →
      feature.u.turnOd.profileZ (i + 1) < feature.u.turnOd.profileZ i →
      (L1_ApplyFeature K (some impl) stockId (some feature) (some out)).status ≠ 0 ∧
      (L1_ApplyFeature K (some impl) stockId (some feature) (some out)).kernel = some impl ∧
      (∃ i0, i0 ≤ i ∧ feature.u.turnOd.rejects i0 ∧
        ∀ j, j < i0 → ¬ feature.u.turnOd.rejects j) ∧
      (∀ stockBox d, K.BndAdd stock = .value stockBox → stockBox.IsVoid = false →
        K.mkDir feature.u.turnOd.axis.dir = .value d →
        ∀ i0, i0 ≤ i → feature.u.turnOd.rejects i0 →
        (∀ j, j < i0 → ¬ feature.u.turnOd.rejects j) →
        BuildsKept K (feature.u.turnOd.BuildsSegment K stockBox.doubleOuterRadius d)
          (feature.u.turnOd.segmentTool K stockBox.doubleOuterRadius d) (K.nullShape, false)
          ((List.range i0).filter (feature.u.turnOd.kept stockBox.doubleOuterRadius)) →
        (L1_ApplyFeature K (some impl) stockId (some feature) (some out)).status = 1)) := by
  constructor
  · intro ht hcount _ i hi hz
    have hnn := L1_ApplyFeature_of_not_next K impl stockId stock feature out hfind
      (by
        intro tool
        rw [toolSwitch_turnId K stock feature ht]
        exact caseTurnId_rejects_not_next K _ _ (by omega) i hi (Or.inr hz) tool)
    refine ⟨hnn.1, hnn.2.1, exists_first feature.u.turnId.rejects i (Or.inr hz), ?_⟩
    intro d hd i0 hi0 hr0 hfirst hb
    obtain ⟨m1, h1⟩ := caseTurnId_first_rejected K feature.u.turnId (entryMachine impl out)
      (by omega) i0 (by omega) hr0 hfirst d hd hb
    rw [L1_ApplyFeature_of_ret K impl stockId stock feature out hfind 1 m1
      (by rw [toolSwitch_turnId K stock feature ht, h1])]
  · intro ht hcount _ i hi hz
    have hnn := L1_ApplyFeature_of_not_next K impl stockId stock feature out hfind
      (by
        intro tool
        rw [toolSwitch_turnOd K stock feature ht]
        exact caseTurnOd_rejects_not_next K stock _ _ (by omega) i hi (Or.inr hz) tool)
    refine ⟨hnn.1, hnn.2.1, exists_first feature.u.turnOd.rejects i (Or.inr hz), ?_⟩
    intro stockBox d hb hv hd i0 hi0 hr0 hfirst hbk
    obtain ⟨m1, h1⟩ := caseTurnOd_first_rejected K stock feature.u.turnOd
      (entryMachine impl out) stockBox hb hv (by omega) i0 (by omega) hr0 hfirst d hd hbk
    rw [L1_ApplyFeature_of_ret K impl stockId stock feature out hfind 1 m1
      (by rw [toolSwitch_turnOd K stock feature ht, h1])]

/-- C8, witness: the profile `reversedTurnOd` on the box stock, with the
library `bareKernel` that builds no frame, no cylinder, no cut and no fuse:
the first segment is rejected before any of them is asked for. -/
theorem L1_ApplyFeature_decreasing_profile_witness :
    boxRegistry.Find 1 = some (TermShape.box 10 10 10) ∧
    reversedTurnOd.profileZ 1 < reversedTurnOd.profileZ 0 ∧
    reversedTurnOd.rejects 0 ∧
    (L1_ApplyFeature bareKernel (some boxRegistry) 1 (some (turnOdFeature reversedTurnOd))
      (some ⟨7, 8, 9⟩)).status = 1 :=
  ⟨by decide!, by decide!, reversedTurnOd_rejects_0,
    ((L1_ApplyFeature_decreasing_profile bareKernel boxRegistry 1 (TermShape.box 10 10 10)
      (turnOdFeature reversedTurnOd) ⟨7, 8, 9⟩ (by decide!)).2 rfl (by decide) (by decide)
      0 (by decide) (by decide!)).2.2.2 ⟨false, 0, 0, 0, 10, 10, 10⟩ ⟨0, 0, 1⟩ (by decide!) rfl
      (by decide!) 0 (le_refl 0) reversedTurnOd_rejects_0 (fun j hj => absurd hj (by omega))
      trivial⟩

/-- C9, counterexample: an outer profile whose segments all have length 0,
applied to a stock whose bounding box is void, returns `ERROR_BOOLEAN_FAILED`
(5); an inner profile whose segments all have length 0, on an axis whose
direction vector is null, returns `ERROR_OCCT_EXCEPTION` (4); neither returns
`ERROR_INVALID_ARGUMENT`. -/
theorem L1_ApplyFeature_all_skipped_other_status :
    (∀ i : Nat, i < 2 → doubleSub (flatTurnOd.profileZ (i + 1)) (flatTurnOd.profileZ i) ≤ roundDouble 1.0e-9) ∧
    emptiedRegistry.Find 2 =
      some (TermShape.cut (TermShape.box 10 10 10) (TermShape.box 10 10 10)) ∧
    (L1_ApplyFeature termKernel (some emptiedRegistry) 2 (some (turnOdFeature flatTurnOd))
      (some ⟨7, 8, 9⟩)).status = 5 ∧
    (∀ i : Nat, i < 2 →
      doubleSub (flatTurnIdNullDir.profileZ (i + 1)) (flatTurnIdNullDir.profileZ i) ≤
        roundDouble 1.0e-9) ∧
    boxRegistry.Find 1 = some (TermShape.box 10 10 10) ∧
    (L1_ApplyFeature termKernel (some boxRegistry) 1 (some (turnIdFeature flatTurnIdNullDir))
      (some ⟨7, 8, 9⟩)).status = 4 := by
  decide!

/-- C9, amended: on a registered stock, a `FEAT_TURN_OD` or `FEAT_TURN_ID`
profile of 2 to 64 entries in which every segment is skipped (its length, the
difference of doubles `z (i + 1) - z i`, is at most the double `1e-9` or, for
`FEAT_TURN_OD`, its radius is at least the outer bound minus `1e-9`, as the
source computes them) gives a non-zero status, leaves both output handles at 0
and leaves the registry as it was; the status is `ERROR_INVALID_ARGUMENT` (1)
when the library accepts the axis direction (and, for `FEAT_TURN_OD`, reports
a bounding box of the stock that is not void). -/
theorem L1_ApplyFeature_all_segments_skipped (K : OcctKernel)
    (impl : ShapeRegistry K.TopoDS_Shape) (stockId : Int) (stock : K.TopoDS_Shape)
    (feature : FeatureDto) (out : OperationResult)
    (hfind : impl.Find stockId = some stock) :
    (feature.type = FEAT_TURN_ID → 2 ≤ feature.u.turnId.profileCount →
      feature.u.turnId.profileCount ≤ L1_TURN_OD_PROFILE_MAX →
      (∀ i : Nat, (i : Int) + 1 < feature.u.turnId.profileCount →
        doubleSub (feature.u.turnId.profileZ (i + 1)) (feature.u.turnId.profileZ i) ≤
          roundDouble 1.0e-9) →
      (L1_ApplyFeature K (some impl) stockId (some feature) (some out)).status ≠ 0 ∧
      (L1_ApplyFeature K (some impl) stockId (some feature) (some out)).kernel = some impl ∧
      (∃ code, (L1_ApplyFeature K (some impl) stockId (some feature) (some out)).outResult =
        some ⟨0, 0, code⟩) ∧
      (∀ d, K.mkDir feature.u.turnId.axis.dir = .value d →
        (L1_ApplyFeature K (some impl) stockId (some feature) (some out)).status = 1)) ∧
    (feature.type = FEAT_TURN_OD → 2 ≤ feature.u.turnOd.profileCount →
      feature.u.turnOd.profileCount ≤ L1_TURN_OD_PROFILE_MAX →
      (∀ stockBox, K.BndAdd stock = .value stockBox → stockBox.IsVoid = false →
        ∀ i : Nat, (i : Int) + 1 < feature.u.turnOd.profileCount →
        doubleSub (feature.u.turnOd.profileZ (i + 1)) (feature.u.turnOd.profileZ i) ≤
          roundDouble 1.0e-9 ∨
        feature.u.turnOd.profileRadius i ≥
          doubleSub stockBox.doubleOuterRadius (roundDouble 1.0e-9)) →
      (L1_ApplyFeature K (some impl) stockId (some feature) (some out)).status ≠ 0 ∧
      (L1_ApplyFeature K (some impl) stockId (some feature) (some out)).kernel = some impl ∧
      (∃ code, (L1_ApplyFeature K (some impl) stockId (some feature) (some out)).outResult =
        some ⟨0, 0, code⟩) ∧
      (∀ stockBox d, K.BndAdd stock = .value stockBox → stockBox.IsVoid = false →
        K.mkDir feature.u.turnOd.axis.dir = .value d →
        (L1_ApplyFeature K (some impl) stockId (some feature) (some out)).status = 1)) := by
  constructor
  · intro ht hcount _ hall
    have hcases := caseTurnId_all_notKept K feature.u.turnId (entryMachine impl out)
      (by omega) (fun i hi => Or.inr (hall i hi))
    have hnn := L1_ApplyFeature_of_not_next K impl stockId stock feature out hfind
      (by
        intro tool
        rw [toolSwitch_turnId K stock feature ht]
        rcases hcases with h | h <;> rw [h] <;> intro hc <;> cases hc)
    refine ⟨hnn.1, hnn.2.1, hnn.2.2, ?_⟩
    intro d hd
    rcases hcases with h | h
    · exfalso
      rw [caseTurnId_profile K _ _ (by omega), hd] at h
      dsimp only at h
      rcases turnIdLoop_notKept K feature.u.turnId feature.u.turnId.axis.origin d _
        (fun i hi => Or.inr (hall i (mem_range_segments_lt _ i hi))) (K.nullShape, false)
        { entryMachine impl out with calls := (entryMachine impl out).calls ++ [KCall.gp_Dir] }
        with h2 | h2
      · rw [h2] at h
        simp at h
      · rw [h2] at h
        cases h
    · rw [L1_ApplyFeature_of_ret K impl stockId stock feature out hfind 1 _
        (by rw [toolSwitch_turnId K stock feature ht, h])]
  · intro ht hcount _ hall
    have hnn := L1_ApplyFeature_of_not_next K impl stockId stock feature out hfind
      (by
        intro tool
        rw [toolSwitch_turnOd K stock feature ht]
        cases hb : K.BndAdd stock with
        | raise =>
          rw [caseTurnOd_raise K stock _ _ hb]
          intro hc
          cases hc
        | value stockBox =>
          cases hv : stockBox.IsVoid with
          | true =>
            rw [caseTurnOd_void K stock _ _ stockBox hb hv]
            intro hc
            cases hc
          | false =>
            rcases caseTurnOd_all_notKept K stock feature.u.turnOd (entryMachine impl out)
              stockBox hb hv (by omega) (fun i hi => Or.inr (hall stockBox hb hv i hi))
              with h | h <;> rw [h] <;> intro hc <;> cases hc)
    refine ⟨hnn.1, hnn.2.1, hnn.2.2, ?_⟩
    intro stockBox d hb hv hd
    have hprof := caseTurnOd_profile K stock feature.u.turnOd (entryMachine impl out) stockBox
      hb hv (by omega)
    rw [hd] at hprof
    dsimp only at hprof
    rcases turnOdLoop_notKept K feature.u.turnOd feature.u.turnOd.axis.origin d
      stockBox.doubleOuterRadius _
      (fun i hi => Or.inr (hall stockBox hb hv i (mem_range_segments_lt _ i hi)))
      (K.nullShape, false)
      { entryMachine impl out with
        calls := (entryMachine impl out).calls ++ [KCall.BndAdd, KCall.gp_Dir] }
      with h2 | h2
    · rw [h2] at hprof
      rw [L1_ApplyFeature_of_ret K impl stockId stock feature out hfind 1 _
        (by rw [toolSwitch_turnOd K stock feature ht, hprof]; rfl)]
    · rw [h2] at hprof
      rw [L1_ApplyFeature_of_ret K impl stockId stock feature out hfind 1 _
        (by rw [toolSwitch_turnOd K stock feature ht, hprof])]

/-- C9, witness: the profile `flatTurnId` on the box stock. -/
theorem L1_ApplyFeature_all_segments_skipped_witness :
    boxRegistry.Find 1 = some (TermShape.box 10 10 10) ∧
    (L1_ApplyFeature termKernel (some boxRegistry) 1 (some (turnIdFeature flatTurnId))
      (some ⟨7, 8, 9⟩)).status = 1 :=
  ⟨by decide!,
    ((L1_ApplyFeature_all_segments_skipped termKernel boxRegistry 1 (TermShape.box 10 10 10)
      (turnIdFeature flatTurnId) ⟨7, 8, 9⟩ (by decide!)).1 rfl (by decide) (by decide)
      (by
        intro i hi
        have h2 : i < 2 := by
          have : (i : Int) + 1 < 3 := hi
          omega
        interval_cases i <;> decide!)).2.2.2 ⟨0, 0, 1⟩ rfl⟩

end L1
